import Mathlib

/-!
# Verification of `tools/mkimage.py` (anyOS image builder)

A shallow embedding of the offline filesystem/image construction engine of
`tools/mkimage.py`: the ELF flattener, the FAT16 and exFAT formatters, the
GPT partitioner and the ISO 9660 / El Torito boot-catalog builder, together
with theorems settling the specification claims about them.

Conventions:
* Python `bytes`/`bytearray` values are `List Nat` (each element a byte value);
  `struct.pack_into('<H'/'<I'/'<Q', buf, off, v)` becomes `pack16/pack32/pack64`.
* The whole-disk image buffer is a total function `Mem = Nat → Nat` from
  absolute byte offset to byte value; Python slice assignment into the image
  becomes `writeBytes`.
* Machine integers are `Nat` with explicit masking (`&&& 0xFFFF`, `% 2^w`)
  exactly where the Python code masks.
* Python functions that call `sys.exit` / `raise` are embedded in `Except`.
-/

/-! ## Byte-level utilities -/

/-- Little-endian 16-bit encoding, as produced by `struct.pack('<H', v)`. -/
def le16 (v : Nat) : List Nat := [v % 256, v / 256 % 256]

/-- Little-endian 32-bit encoding, as produced by `struct.pack('<I', v)`. -/
def le32 (v : Nat) : List Nat :=
  [v % 256, v / 256 % 256, v / 65536 % 256, v / 16777216 % 256]

/-- Little-endian 64-bit encoding, as produced by `struct.pack('<Q', v)`. -/
def le64 (v : Nat) : List Nat := le32 (v % 4294967296) ++ le32 (v / 4294967296)

/-- Read a little-endian 16-bit value at byte offset `off` of a byte list,
as `struct.unpack_from('<H', l, off)` does. -/
def get16 (l : List Nat) (off : Nat) : Nat :=
  l.getD off 0 + 256 * l.getD (off + 1) 0

/-- Read a little-endian 32-bit value at byte offset `off`. -/
def get32 (l : List Nat) (off : Nat) : Nat :=
  l.getD off 0 + 256 * l.getD (off + 1) 0 + 65536 * l.getD (off + 2) 0 +
    16777216 * l.getD (off + 3) 0

/-- Overwrite bytes of `l` starting at offset `off` with `data`
(Python `l[off:off+len(data)] = data` on a `bytearray`, length unchanged). -/
def setBytes (l : List Nat) (off : Nat) (data : List Nat) : List Nat :=
  match data with
  | [] => l
  | b :: bs => setBytes (l.set off b) (off + 1) bs

/-- `struct.pack_into('<H', l, off, v)`. -/
def pack16 (l : List Nat) (off v : Nat) : List Nat := setBytes l off (le16 v)

/-- `struct.pack_into('<I', l, off, v)`. -/
def pack32 (l : List Nat) (off v : Nat) : List Nat := setBytes l off (le32 v)

/-- `struct.pack_into('<Q', l, off, v)`. -/
def pack64 (l : List Nat) (off v : Nat) : List Nat := setBytes l off (le64 v)

/-- The disk image buffer: a total map from absolute byte offset to byte value. -/
def Mem : Type := Nat → Nat

/-- Python slice assignment `image[base:base+len(data)] = data`. -/
def writeBytes (m : Mem) (base : Nat) (data : List Nat) : Mem :=
  fun a => if base ≤ a ∧ a < base + data.length then data.getD (a - base) 0 else m a

/-- Read `n` bytes of the image starting at absolute offset `base`
(Python `image[base:base+n]`). -/
def readBytes (m : Mem) (base n : Nat) : List Nat :=
  (List.range n).map (fun i => m (base + i))

/-! ### Basic lemmas about the byte utilities -/

theorem getD_set_self (l : List Nat) (i v : Nat) (h : i < l.length) :
    (l.set i v).getD i 0 = v := by
  induction l generalizing i with
  | nil => simp at h
  | cons a t ih =>
    cases i with
    | zero => simp
    | succ i' => simpa using ih i' (by simpa using h)

theorem getD_set_ne (l : List Nat) (i j v : Nat) (h : i ≠ j) :
    (l.set i v).getD j 0 = l.getD j 0 := by
  induction l generalizing i j with
  | nil => simp
  | cons a t ih =>
    cases i with
    | zero =>
      cases j with
      | zero => exact absurd rfl h
      | succ j' => simp
    | succ i' =>
      cases j with
      | zero => simp
      | succ j' => simpa using ih i' j' (fun e => h (by rw [e]))

theorem length_set (l : List Nat) (i v : Nat) : (l.set i v).length = l.length := by
  simp

theorem length_setBytes (data : List Nat) : ∀ (l : List Nat) (off : Nat),
    (setBytes l off data).length = l.length := by
  induction data with
  | nil => intro l off; rfl
  | cons b bs ih => intro l off; simp [setBytes, ih]

/-- Bytes below the written range are unchanged by `setBytes`. -/
theorem getD_setBytes_lt (data : List Nat) : ∀ (l : List Nat) (off j : Nat),
    j < off → (setBytes l off data).getD j 0 = l.getD j 0 := by
  induction data with
  | nil => intro l off j _; rfl
  | cons b bs ih =>
    intro l off j hj
    rw [setBytes, ih _ _ _ (Nat.lt_succ_of_lt hj), getD_set_ne _ _ _ _ (by omega)]

/-- Bytes at or above the end of the written range are unchanged by `setBytes`. -/
theorem getD_setBytes_ge (data : List Nat) : ∀ (l : List Nat) (off j : Nat),
    off + data.length ≤ j → (setBytes l off data).getD j 0 = l.getD j 0 := by
  induction data with
  | nil => intro l off j _; rfl
  | cons b bs ih =>
    intro l off j hj
    simp only [List.length_cons] at hj
    rw [setBytes, ih _ _ _ (by omega), getD_set_ne _ _ _ _ (by omega)]

/-- Bytes inside the written range take their value from `data`. -/
theorem getD_setBytes_inside (data : List Nat) : ∀ (l : List Nat) (off k : Nat),
    k < data.length → off + data.length ≤ l.length →
    (setBytes l off data).getD (off + k) 0 = data.getD k 0 := by
  induction data with
  | nil => intro l off k h _; simp at h
  | cons b bs ih =>
    intro l off k hk hlen
    simp only [List.length_cons] at hk hlen
    cases k with
    | zero =>
      simp only [setBytes, Nat.add_zero]
      rw [getD_setBytes_lt bs _ _ _ (Nat.lt_succ_self off)]
      rw [getD_set_self _ _ _ (by omega)]
      rfl
    | succ k' =>
      rw [setBytes, show off + (k' + 1) = (off + 1) + k' by omega]
      rw [ih _ _ _ (by omega) (by simpa using (by omega : (off + 1) + bs.length ≤ l.length))]
      rfl

theorem readBytes_length (m : Mem) (base n : Nat) : (readBytes m base n).length = n := by
  simp [readBytes]

theorem getD_readBytes (m : Mem) (base n i : Nat) (h : i < n) :
    (readBytes m base n).getD i 0 = m (base + i) := by
  unfold readBytes
  rw [List.getD_eq_getElem _ _ (by simpa using h)]
  simp

/-- Unfolding of a write at an address inside the written range. -/
theorem writeBytes_inside (m : Mem) (base : Nat) (data : List Nat) (a : Nat)
    (h1 : base ≤ a) (h2 : a < base + data.length) :
    writeBytes m base data a = data.getD (a - base) 0 := by
  simp [writeBytes, h1, h2]

/-- Unfolding of a write at an address outside the written range. -/
theorem writeBytes_outside (m : Mem) (base : Nat) (data : List Nat) (a : Nat)
    (h : a < base ∨ base + data.length ≤ a) :
    writeBytes m base data a = m a := by
  unfold writeBytes
  rcases h with h | h
  · rw [if_neg]; omega
  · rw [if_neg]; omega

/-- Net effect of a read–modify–write: reading `n` bytes at `base`, patching
`e` in at relative offset `off` and writing the block back changes exactly the
bytes of the patch. -/
theorem writeBytes_rmw (m : Mem) (base n off : Nat) (e : List Nat)
    (h : off + e.length ≤ n) (a : Nat) :
    writeBytes m base (setBytes (readBytes m base n) off e) a =
      if base + off ≤ a ∧ a < base + off + e.length
      then e.getD (a - (base + off)) 0 else m a := by
  have hlen : (setBytes (readBytes m base n) off e).length = n := by
    rw [length_setBytes, readBytes_length]
  by_cases hin : base ≤ a ∧ a < base + n
  · rw [writeBytes_inside _ _ _ _ hin.1 (by rw [hlen]; exact hin.2)]
    by_cases hpatch : base + off ≤ a ∧ a < base + off + e.length
    · rw [if_pos hpatch]
      have : a - base = off + (a - (base + off)) := by omega
      rw [this, getD_setBytes_inside _ _ _ _ (by omega) (by rw [readBytes_length]; omega)]
    · rw [if_neg hpatch]
      rcases Nat.lt_or_ge (a - base) off with hlt | hge
      · rw [getD_setBytes_lt _ _ _ _ hlt, getD_readBytes _ _ _ _ (by omega)]
        congr 1; omega
      · rw [getD_setBytes_ge _ _ _ _ (by omega), getD_readBytes _ _ _ _ (by omega)]
        congr 1; omega
  · rw [writeBytes_outside _ _ _ _ (by rw [hlen]; omega), if_neg (by omega)]

theorem le16_length (v : Nat) : (le16 v).length = 2 := rfl

theorem le32_length (v : Nat) : (le32 v).length = 4 := rfl

theorem le64_length (v : Nat) : (le64 v).length = 8 := rfl

theorem getD_append_left (l₁ l₂ : List Nat) (i : Nat) (h : i < l₁.length) :
    (l₁ ++ l₂).getD i 0 = l₁.getD i 0 := by
  rw [List.getD_eq_getElem _ _ (by simp; omega), List.getD_eq_getElem _ _ h]
  exact List.getElem_append_left h

theorem getD_append_right (l₁ l₂ : List Nat) (i : Nat) (h : l₁.length ≤ i) :
    (l₁ ++ l₂).getD i 0 = l₂.getD (i - l₁.length) 0 := by
  rcases Nat.lt_or_ge i (l₁.length + l₂.length) with hlt | hge
  · rw [List.getD_eq_getElem _ _ (by simp; omega),
      List.getD_eq_getElem _ _ (by omega)]
    exact List.getElem_append_right h
  · rw [List.getD_eq_default _ _ (by simp; omega), List.getD_eq_default _ _ (by omega)]

/-! ## ISO 9660 / El Torito: the Boot Catalog Validation Entry

Embedding of the Boot Catalog construction in `Iso9660Creator.write_image`
(mkimage.py lines 1730–1769).  The construction is input-independent. -/

/-- The checksum summation loop `for i in range(0, 32, 2)` over the first 32
bytes of the boot catalog: the sum of the sixteen little-endian 16-bit words. -/
def validationWordSum (bc : List Nat) : Nat :=
  (List.range 16).foldl (fun acc i => acc + get16 bc (2 * i)) 0

/-- The El Torito Boot Catalog sector built by `Iso9660Creator.write_image`
(lines 1731–1769), including the source's abandoned first checksum pass that
lands at offset 26 and the final Initial/Default entry. -/
def bootCatalog : List Nat :=
  let bc := List.replicate 2048 0
  let bc := bc.set 0 0x01
  let bc := bc.set 1 0x00
  let bc := bc.set 28 0xAA
  let bc := bc.set 29 0x55
  let bc := bc.set 30 0
  let bc := bc.set 31 0
  let checksum := validationWordSum bc
  let checksum := (0x10000 - (checksum &&& 0xFFFF)) &&& 0xFFFF
  let bc := pack16 bc (28 - 2) checksum
  let bc := bc.set 30 0x55
  let bc := bc.set 31 0xAA
  let bc := bc.set 28 0
  let bc := bc.set 29 0
  let checksum := validationWordSum bc
  let checksum := (0x10000 - (checksum &&& 0xFFFF)) &&& 0xFFFF
  let bc := pack16 bc 28 checksum
  let bc := bc.set 32 0x88
  let bc := bc.set 33 0x00
  let bc := pack16 bc 34 0x0000
  let bc := bc.set 36 0x00
  let bc := bc.set 37 0x00
  let bc := pack16 bc 38 64
  let bc := pack32 bc 40 0
  bc

/-- C8: In every ISO image produced with boot data, the 32-byte El Torito
Validation Entry at the start of the Boot Catalog (platform ID 0) satisfies:
the sum of its sixteen 16-bit little-endian words is congruent to 0 modulo
65536.  (The catalog is built from constants, so the property is closed.) -/
theorem elTorito_validation_checksum :
    bootCatalog.getD 1 0 = 0 ∧ validationWordSum bootCatalog % 65536 = 0 := by
  decide

/-! ## exFAT formatter (`ExFatFormatter`, mkimage.py lines 629–1193) -/

/-- Read a little-endian 64-bit value at byte offset `off`. -/
def get64 (l : List Nat) (off : Nat) : Nat :=
  get32 l off + 4294967296 * get32 l (off + 4)

/-- `ExFatFormatter.FLAG_CONTIGUOUS`. -/
def FLAG_CONTIGUOUS : Nat := 0x02

/-- `ExFatFormatter.ATTR_ARCHIVE`. -/
def ATTR_ARCHIVE : Nat := 0x0020

/-- `ExFatFormatter.ATTR_DIRECTORY`. -/
def ATTR_DIRECTORY : Nat := 0x0010

/-- `ExFatFormatter.EXFAT_EOC`. -/
def EXFAT_EOC : Nat := 0xFFFFFFFF

/-- The loop body of `_entry_set_checksum`, indexed by position `i`. -/
def entrySetChecksumGo : List Nat → Nat → Nat → Nat
  | [], _, checksum => checksum
  | b :: bs, i, checksum =>
    if i = 2 ∨ i = 3 then entrySetChecksumGo bs (i + 1) checksum
    else entrySetChecksumGo bs (i + 1) ((((checksum <<< 15) ||| (checksum >>> 1)) + b) &&& 0xFFFF)

/-- `ExFatFormatter._entry_set_checksum` (lines 972–981): 16-bit rolling
checksum over the serialized entry-set bytes, skipping byte indexes 2 and 3
(the SetChecksum field of the File entry). -/
def entrySetChecksum (data : List Nat) : Nat :=
  entrySetChecksumGo data 0 0

/-- The upper-casing applied inside `_name_hash` (`if 0x61 <= uc <= 0x7A: uc -= 0x20`). -/
def upcase16 (ch : Nat) : Nat := if 0x61 ≤ ch ∧ ch ≤ 0x7A then ch - 0x20 else ch

/-- The loop body of `_name_hash`. -/
def nameHashGo : List Nat → Nat → Nat
  | [], h => h
  | ch :: rest, h =>
    let uc := upcase16 ch
    let h1 := (((h <<< 15) ||| (h >>> 1)) + (uc &&& 0xFF)) &&& 0xFFFF
    let h2 := (((h1 <<< 15) ||| (h1 >>> 1)) + (uc >>> 8)) &&& 0xFFFF
    nameHashGo rest h2

/-- `ExFatFormatter._name_hash` (lines 983–995): 16-bit rolling hash over the
UTF-16 code units of a name, upper-casing each unit first. -/
def nameHash : List Nat → Nat
  | l => nameHashGo l 0

/-- The File directory entry (type 0x85) built at offsets 0–31 of the entry set
by `_build_entry_set`: type, secondary count, checksum placeholder (2 zero
bytes), attributes, uid, gid, mode, then 20 untouched zero bytes. -/
def fileEntryBytes (secondaryCount attributes uid gid mode : Nat) : List Nat :=
  [0x85, secondaryCount, 0, 0] ++ (le16 attributes ++ (le16 uid ++ (le16 gid ++
    (le16 mode ++ List.replicate 20 0))))

/-- The Stream Extension entry (type 0xC0) built at offsets 32–63 of the entry
set: type, flags, reserved, name length, name hash, 2 zero bytes,
ValidDataLength, 4 zero bytes, FirstCluster, DataLength. -/
def streamEntryBytes (flags nameLen nh dataLength firstCluster : Nat) : List Nat :=
  [0xC0, flags, 0, nameLen] ++ (le16 nh ++ ([0, 0] ++ (le64 dataLength ++
    (List.replicate 4 0 ++ (le32 firstCluster ++ le64 dataLength)))))

/-- Character `ci` of the padded file name (`utf16[ci]` if in range, else 0x0000),
as selected by the FileName-entry loop of `_build_entry_set`. -/
def fileNameChar (utf16 : List Nat) (ci : Nat) : Nat :=
  if ci < utf16.length then utf16.getD ci 0 else 0x0000

/-- One FileName entry (type 0xC1) holding 15 UTF-16LE code units. -/
def fileNameEntryBytes (utf16 : List Nat) (fi : Nat) : List Nat :=
  [0xC1, 0] ++ ((List.range 15).map (fun j => fileNameChar utf16 (fi * 15 + j))).flatMap le16

/-- All FileName entries of the set, concatenated. -/
def fileNameEntries (utf16 : List Nat) (fnEntryCount : Nat) : List Nat :=
  ((List.range fnEntryCount).map (fun fi => fileNameEntryBytes utf16 fi)).flatten

/-- `ExFatFormatter._build_entry_set` (lines 997–1043): File entry + Stream
extension + FileName entries, with the set checksum packed into bytes 2–3 last.
The name is given as its list of UTF-16 code units (`[ord(c) for c in name]`). -/
def buildEntrySet (utf16 : List Nat) (attributes firstCluster dataLength : Nat)
    (contiguous : Bool) (uid gid mode : Nat) : List Nat :=
  let nameLen := utf16.length
  let fnEntryCount := (nameLen + 14) / 15
  let secondary := 1 + fnEntryCount
  let flags0 := 0x01
  let flags := if contiguous then flags0 ||| FLAG_CONTIGUOUS else flags0
  let raw := fileEntryBytes secondary attributes uid gid mode ++
    (streamEntryBytes flags nameLen (nameHash utf16) dataLength firstCluster ++
      fileNameEntries utf16 fnEntryCount)
  pack16 raw 2 (entrySetChecksum raw)

/-! ### C3: entry-set checksum and name hash -/

theorem entrySetChecksumGo_lt (l : List Nat) : ∀ (i acc : Nat), acc < 65536 →
    entrySetChecksumGo l i acc < 65536 := by
  induction l with
  | nil => intro i acc h; exact h
  | cons b bs ih =>
    intro i acc h
    rw [entrySetChecksumGo]
    by_cases hc : i = 2 ∨ i = 3
    · rw [if_pos hc]; exact ih _ _ h
    · rw [if_neg hc]
      exact ih _ _ (Nat.lt_of_le_of_lt (Nat.and_le_right) (by omega))

theorem entrySetChecksum_lt (l : List Nat) : entrySetChecksum l < 65536 :=
  entrySetChecksumGo_lt l 0 0 (by omega)

theorem nameHashGo_lt (l : List Nat) : ∀ (h : Nat), h < 65536 → nameHashGo l h < 65536 := by
  induction l with
  | nil => intro h hh; exact hh
  | cons ch rest ih =>
    intro h hh
    rw [nameHashGo]
    exact ih _ (Nat.lt_of_le_of_lt (Nat.and_le_right) (by omega))

theorem nameHash_lt (l : List Nat) : nameHash l < 65536 :=
  nameHashGo_lt l 0 (by omega)

/-- The rolling set checksum ignores bytes 2 and 3. -/
theorem entrySetChecksumGo_skip23 (a b x y u v : Nat) (t : List Nat) (acc : Nat) :
    entrySetChecksumGo (a :: b :: x :: y :: t) 0 acc =
      entrySetChecksumGo (a :: b :: u :: v :: t) 0 acc := by
  simp [entrySetChecksumGo]

theorem upcase16_idem (ch : Nat) : upcase16 (upcase16 ch) = upcase16 ch := by
  unfold upcase16
  split_ifs <;> omega

theorem nameHashGo_map_upcase (l : List Nat) : ∀ (h : Nat),
    nameHashGo (l.map upcase16) h = nameHashGo l h := by
  induction l with
  | nil => intro h; rfl
  | cons ch rest ih =>
    intro h
    simp only [List.map_cons, nameHashGo, upcase16_idem]
    exact ih _

theorem nameHash_map_upcase (l : List Nat) : nameHash (l.map upcase16) = nameHash l := by
  unfold nameHash
  exact nameHashGo_map_upcase l 0

theorem pack16_two_sets (l : List Nat) (off v : Nat) :
    pack16 l off v = (l.set off (v % 256)).set (off + 1) (v / 256 % 256) := rfl

theorem getD_pack16_lo (l : List Nat) (off v : Nat) (h : off + 1 < l.length) :
    (pack16 l off v).getD off 0 = v % 256 := by
  rw [pack16_two_sets, getD_set_ne _ _ _ _ (by omega), getD_set_self _ _ _ (by omega)]

theorem getD_pack16_hi (l : List Nat) (off v : Nat) (h : off + 1 < l.length) :
    (pack16 l off v).getD (off + 1) 0 = v / 256 % 256 := by
  rw [pack16_two_sets, getD_set_self _ _ _ (by simpa using h)]

theorem getD_pack16_ne (l : List Nat) (off v j : Nat) (h1 : j ≠ off) (h2 : j ≠ off + 1) :
    (pack16 l off v).getD j 0 = l.getD j 0 := by
  rw [pack16_two_sets, getD_set_ne _ _ _ _ (by omega), getD_set_ne _ _ _ _ (by omega)]

theorem get16_pack16 (l : List Nat) (off v : Nat) (h : off + 1 < l.length)
    (hv : v < 65536) : get16 (pack16 l off v) off = v := by
  rw [get16, getD_pack16_lo _ _ _ h, getD_pack16_hi _ _ _ h]
  omega

theorem fileEntryBytes_length (s a u g m : Nat) : (fileEntryBytes s a u g m).length = 32 := rfl

theorem streamEntryBytes_length (f n h d c : Nat) : (streamEntryBytes f n h d c).length = 32 :=
  rfl

/-- Storing the set checksum into bytes 2–3 and recomputing the (2,3-skipping)
checksum over the result gives back the stored value. -/
theorem entrySetChecksum_pack_self (l : List Nat) (h : 4 ≤ l.length) :
    entrySetChecksum (pack16 l 2 (entrySetChecksum l)) =
      get16 (pack16 l 2 (entrySetChecksum l)) 2 := by
  obtain ⟨a, b, c, d, t, rfl⟩ : ∃ a b c d t, l = a :: b :: c :: d :: t := by
    rcases l with _ | ⟨a, _ | ⟨b, _ | ⟨c, _ | ⟨d, t⟩⟩⟩⟩
    · simp at h
    · simp at h
    · simp at h
    · simp at h
    · exact ⟨a, b, c, d, t, rfl⟩
  have hlt : entrySetChecksum (a :: b :: c :: d :: t) < 65536 := entrySetChecksum_lt _
  have hp : pack16 (a :: b :: c :: d :: t) 2 (entrySetChecksum (a :: b :: c :: d :: t)) =
      a :: b :: (entrySetChecksum (a :: b :: c :: d :: t) % 256) ::
        (entrySetChecksum (a :: b :: c :: d :: t) / 256 % 256) :: t := rfl
  rw [get16_pack16 _ _ _ (by simp) hlt, hp]
  unfold entrySetChecksum
  exact entrySetChecksumGo_skip23 a b _ _ c d t 0

/-- C3: for every exFAT directory entry set written by `ExFatFormatter`
(any file or directory name, attributes and allocation), recomputing the
16-bit set checksum over the set's serialized bytes — the checksum loop
itself skips the two SetChecksum bytes — equals the stored SetChecksum
(bytes 2–3 of the File entry), and recomputing the 16-bit name hash over the
upper-cased UTF-16 code units of the name equals the stored NameHash
(bytes 4–5 of the Stream extension entry, i.e. bytes 36–37 of the set). -/
theorem exfat_entry_set_checksum_and_name_hash
    (utf16 : List Nat) (attributes firstCluster dataLength : Nat) (contiguous : Bool)
    (uid gid mode : Nat)
    (hname : utf16.length ≤ 255) (hchars : ∀ u ∈ utf16, u < 65536)
    (hattr : attributes < 65536) (huid : uid < 65536) (hgid : gid < 65536)
    (hmode : mode < 65536) (hfc : firstCluster < 4294967296)
    (hdl : dataLength < 18446744073709551616) :
    entrySetChecksum
        (buildEntrySet utf16 attributes firstCluster dataLength contiguous uid gid mode) =
      get16 (buildEntrySet utf16 attributes firstCluster dataLength contiguous uid gid mode)
        2 ∧
    nameHash (utf16.map upcase16) =
      get16 (buildEntrySet utf16 attributes firstCluster dataLength contiguous uid gid mode)
        36 := by
  unfold buildEntrySet
  set nameLen := utf16.length with hnl
  set fnEntryCount := (nameLen + 14) / 15 with hfns
  set flags := if contiguous then 0x01 ||| FLAG_CONTIGUOUS else 0x01 with hflags
  set raw := fileEntryBytes (1 + fnEntryCount) attributes uid gid mode ++
    (streamEntryBytes flags nameLen (nameHash utf16) dataLength firstCluster ++
      fileNameEntries utf16 fnEntryCount) with hraw
  have hrawlen : 64 ≤ raw.length := by
    rw [hraw]
    simp only [List.length_append, fileEntryBytes_length, streamEntryBytes_length]
    omega
  constructor
  · exact entrySetChecksum_pack_self raw (by omega)
  · -- name hash at bytes 36–37
    rw [nameHash_map_upcase]
    have h36 : raw.getD 36 0 = nameHash utf16 % 256 := by
      rw [hraw, getD_append_right _ _ _ (by rw [fileEntryBytes_length]; omega)]
      rw [fileEntryBytes_length]
      rw [getD_append_left _ _ _ (by rw [streamEntryBytes_length]; omega)]
      rfl
    have h37 : raw.getD 37 0 = nameHash utf16 / 256 % 256 := by
      rw [hraw, getD_append_right _ _ _ (by rw [fileEntryBytes_length]; omega)]
      rw [fileEntryBytes_length]
      rw [getD_append_left _ _ _ (by rw [streamEntryBytes_length]; omega)]
      rfl
    rw [get16, getD_pack16_ne _ _ _ _ (by omega) (by omega),
      getD_pack16_ne _ _ _ _ (by omega) (by omega)]
    rw [show (36 : Nat) + 1 = 37 by rfl, h36, h37]
    have hlt : nameHash utf16 < 65536 := nameHash_lt _
    omega

/-- Witness for C3 at a concrete name and parameters. -/
theorem exfat_entry_set_checksum_and_name_hash_witness :
    entrySetChecksum (buildEntrySet [0x6B, 0x65, 0x72, 0x6E] 0x20 5 100 true 0 0 0xFFF) =
      get16 (buildEntrySet [0x6B, 0x65, 0x72, 0x6E] 0x20 5 100 true 0 0 0xFFF) 2 ∧
    nameHash ([0x6B, 0x65, 0x72, 0x6E].map upcase16) =
      get16 (buildEntrySet [0x6B, 0x65, 0x72, 0x6E] 0x20 5 100 true 0 0 0xFFF) 36 :=
  exfat_entry_set_checksum_and_name_hash [0x6B, 0x65, 0x72, 0x6E] 0x20 5 100 true 0 0 0xFFF
    (by decide) (by decide) (by decide) (by decide) (by decide) (by decide) (by decide)
    (by decide)

/-! ### exFAT formatter state and cluster allocation -/

/-- The mutable state of an `ExFatFormatter` (fields assigned in `__init__`,
lines 648–697).  The geometry attributes computed in `__init__` are pure
functions of `fs_sectors` and `spc` and are defined below. -/
structure ExFatFormatter where
  image : Mem
  fs_start : Nat
  fs_sectors : Nat
  spc : Nat
  next_cluster : Nat
  fat_cache : List Nat
  bitmap : List Nat
  root_cluster : Nat

namespace ExFatFormatter

/-- `self.cluster_size = self.spc * SECTOR_SIZE`. -/
def cluster_size (st : ExFatFormatter) : Nat := st.spc * 512

/-- `self.fat_offset = 32` (line 659). -/
def fat_offset : Nat := 32

/-- The first estimate `est_clusters = (fs_sector_count - self.fat_offset) // self.spc`. -/
def est_clusters (st : ExFatFormatter) : Nat := (st.fs_sectors - fat_offset) / st.spc

/-- The first-pass FAT length in sectors (lines 667–668). -/
def fat_length0 (st : ExFatFormatter) : Nat :=
  ((est_clusters st + 2) * 4 + 512 - 1) / 512

/-- `self.cluster_count` (line 670; the source never recomputes it after the
second `fat_length` pass). -/
def cluster_count (st : ExFatFormatter) : Nat :=
  (st.fs_sectors - (fat_offset + fat_length0 st)) / st.spc

/-- The final `self.fat_length` (recomputed at lines 673–674). -/
def fat_length (st : ExFatFormatter) : Nat :=
  ((cluster_count st + 2) * 4 + 512 - 1) / 512

/-- The final `self.cluster_heap_offset` (line 675). -/
def cluster_heap_offset (st : ExFatFormatter) : Nat := fat_offset + fat_length st

/-- `_abs_offset` (lines 699–701). -/
def absOffset (st : ExFatFormatter) (relativeSector : Nat) : Nat :=
  (st.fs_start + relativeSector) * 512

/-- `_write_sector` (lines 703–705). -/
def writeSector (st : ExFatFormatter) (relativeSector : Nat) (data : List Nat) :
    ExFatFormatter :=
  { st with image := writeBytes st.image (absOffset st relativeSector) data }

/-- `_cluster_to_sector` (lines 711–713). -/
def clusterToSector (st : ExFatFormatter) (cluster : Nat) : Nat :=
  cluster_heap_offset st + (cluster - 2) * st.spc

/-- `_write_cluster` (lines 715–725): write `data` to the sectors of a cluster,
zero-filling sectors past the data and zero-padding a partial final sector. -/
def writeCluster (st : ExFatFormatter) (cluster : Nat) (data : List Nat) :
    ExFatFormatter :=
  (List.range st.spc).foldl (fun acc s =>
    if data.length ≤ s * 512 then
      writeSector acc (clusterToSector st cluster + s) (List.replicate 512 0)
    else
      let chunk := (data.drop (s * 512)).take 512
      writeSector acc (clusterToSector st cluster + s)
        (chunk ++ List.replicate (512 - chunk.length) 0)) st

/-- `_alloc_cluster` (lines 727–738): allocate one cluster, mark the bitmap and
write an end-of-chain marker into the FAT cache; raises
`RuntimeError("exFAT: out of clusters")` when the heap is exhausted. -/
def allocCluster (st : ExFatFormatter) : Except String (Nat × ExFatFormatter) :=
  let c := st.next_cluster
  if cluster_count st ≤ c - 2 then .error "exFAT: out of clusters"
  else
    let idx := c - 2
    let bitmap := st.bitmap.set (idx / 8)
      (st.bitmap.getD (idx / 8) 0 ||| (1 <<< (idx % 8)))
    let fat_cache := pack32 st.fat_cache (c * 4) EXFAT_EOC
    .ok (c, { st with next_cluster := c + 1, bitmap := bitmap, fat_cache := fat_cache })

/-- The allocation loop of `_alloc_clusters_contiguous` (lines 746–753):
marks only the bitmap, leaving the FAT entries 0. -/
def allocContiguousGo : ExFatFormatter → Nat → Except String ExFatFormatter
  | st, 0 => .ok st
  | st, n + 1 =>
    let c := st.next_cluster
    if cluster_count st ≤ c - 2 then .error "exFAT: out of clusters"
    else
      let idx := c - 2
      let bitmap := st.bitmap.set (idx / 8)
        (st.bitmap.getD (idx / 8) 0 ||| (1 <<< (idx % 8)))
      allocContiguousGo { st with next_cluster := c + 1, bitmap := bitmap } n

/-- `_alloc_clusters_contiguous` (lines 740–754). -/
def allocClustersContiguous (st : ExFatFormatter) (count : Nat) :
    Except String (Nat × ExFatFormatter) :=
  if count = 0 then .ok (0, st)
  else (allocContiguousGo st count).map (fun st2 => (st.next_cluster, st2))

/-- The write loop of `_write_to_clusters_contiguous` (lines 768–776).  The
Python `while offset < len(data)` advances `offset` by `cluster_size` each
iteration; the iteration count `ceil(len/cluster_size)` is passed as fuel. -/
def writeContiguousGo (data : List Nat) :
    ExFatFormatter → Nat → Nat → Nat → ExFatFormatter
  | st, _, _, 0 => st
  | st, cluster, offset, n + 1 =>
    if offset < data.length then
      writeContiguousGo data
        (writeCluster st cluster ((data.drop offset).take (cluster_size st)))
        (cluster + 1) (offset + cluster_size st) n
    else st

/-- `_write_to_clusters_contiguous` (lines 768–776). -/
def writeToClustersContiguous (st : ExFatFormatter) (firstCluster : Nat)
    (data : List Nat) : ExFatFormatter :=
  writeContiguousGo data st firstCluster 0
    ((data.length + cluster_size st - 1) / cluster_size st)

/-- The free-run scan of `_add_entry_to_dir` (lines 1057–1088) over one
directory cluster's 32-byte slots: a slot is free when its first byte is 0, or
has bit 0x80 clear and is nonzero.  Returns the slot index at which to place
the entry set, or `none` when the caller must consult the FAT. -/
def scanDirGo (dirData : List Nat) (entryCount slots idx runStart runLen : Nat) :
    Option Nat :=
  if _h : idx < slots then
    let etype := dirData.getD (idx * 32) 0
    if etype = 0 ∨ (etype &&& 0x80 = 0 ∧ etype ≠ 0) then
      let rs := if runLen = 0 then idx else runStart
      let rl := runLen + 1
      if entryCount ≤ rl then some rs
      else if etype = 0 then
        if entryCount ≤ slots - rs then some rs else none
      else scanDirGo dirData entryCount slots (idx + 1) rs rl
    else scanDirGo dirData entryCount slots (idx + 1) runStart 0
  else none
termination_by slots - idx

/-- One cluster-chain step of `_add_entry_to_dir` (lines 1045–1100), fueled:
the Python `while True` walks the FAT chain (and would not terminate on a
cyclic chain); any fuel at least the chain length reproduces it. -/
def addEntryToDirGo (entrySet : List Nat) :
    ExFatFormatter → Nat → Nat → Except String ExFatFormatter
  | st, _, 0 => .ok st
  | st, cluster, fuel + 1 =>
    let dirData := readBytes st.image (absOffset st (clusterToSector st cluster))
      (st.spc * 512)
    let entryCount := entrySet.length / 32
    match scanDirGo dirData entryCount (dirData.length / 32) 0 0 0 with
    | some runStart =>
      let dirData2 := setBytes dirData (runStart * 32) entrySet
      .ok ((List.range st.spc).foldl (fun acc s =>
        writeSector acc (clusterToSector st cluster + s)
          ((dirData2.drop (s * 512)).take 512)) st)
    | none =>
      let fatVal := get32 st.fat_cache (cluster * 4)
      if 0xFFFFFFF8 ≤ fatVal ∨ fatVal = 0 then
        match allocCluster st with
        | .error e => .error e
        | .ok (newCluster, st1) =>
          let st2 := { st1 with
            fat_cache := pack32 st1.fat_cache (cluster * 4) newCluster }
          let newData := setBytes (List.replicate (cluster_size st) 0) 0 entrySet
          .ok (writeCluster st2 newCluster newData)
      else addEntryToDirGo entrySet st fatVal fuel

/-- `_add_entry_to_dir` (lines 1045–1100). -/
def addEntryToDir (st : ExFatFormatter) (dirCluster : Nat) (entrySet : List Nat) :
    Except String ExFatFormatter :=
  addEntryToDirGo entrySet st dirCluster (cluster_count st + 2)

/-- `ExFatFormatter.add_file` (lines 1120–1140): empty data writes only a
directory entry set; otherwise clusters are allocated contiguously, the data
written, and the entry set added (always with the contiguous flag). -/
def add_file (st : ExFatFormatter) (parentCluster : Option Nat) (name : List Nat)
    (data : List Nat) : Except String ExFatFormatter :=
  let parent := parentCluster.getD st.root_cluster
  if data.length = 0 then
    addEntryToDir st parent (buildEntrySet name ATTR_ARCHIVE 0 0 true 0 0 0xFFF)
  else
    let numClusters := (data.length + cluster_size st - 1) / cluster_size st
    match allocClustersContiguous st numClusters with
    | .error e => .error e
    | .ok (firstCluster, st1) =>
      let st2 := writeToClustersContiguous st1 firstCluster data
      addEntryToDir st2 parent
        (buildEntrySet name ATTR_ARCHIVE firstCluster data.length true 0 0 0xFFF)

end ExFatFormatter

/-! ### exFAT: empty files and capacity exhaustion -/

/-- The entry set that `ExFatFormatter.add_file` builds for zero-length data:
Stream-extension flags carry AllocationPossible (0x01) and NoFatChain (0x02),
FirstCluster is 0 and both length fields are 0. -/
theorem buildEntrySet_empty_fields (name : List Nat) :
    (buildEntrySet name ATTR_ARCHIVE 0 0 true 0 0 0xFFF).getD 33 0 = 0x03 ∧
    get32 (buildEntrySet name ATTR_ARCHIVE 0 0 true 0 0 0xFFF) 52 = 0 ∧
    get64 (buildEntrySet name ATTR_ARCHIVE 0 0 true 0 0 0xFFF) 56 = 0 := by
  unfold buildEntrySet
  set raw := fileEntryBytes (1 + (name.length + 14) / 15) ATTR_ARCHIVE 0 0 0xFFF ++
    (streamEntryBytes (if true then 0x01 ||| FLAG_CONTIGUOUS else 0x01) name.length
      (nameHash name) 0 0 ++
      fileNameEntries name ((name.length + 14) / 15)) with hraw
  have hstream : ∀ k : Nat, 32 ≤ k → k < 64 →
      raw.getD k 0 = (streamEntryBytes (if true then 0x01 ||| FLAG_CONTIGUOUS else 0x01)
        name.length (nameHash name) 0 0).getD (k - 32) 0 := by
    intro k hk1 hk2
    rw [hraw, getD_append_right _ _ _ (by rw [fileEntryBytes_length]; omega),
      fileEntryBytes_length,
      getD_append_left _ _ _ (by rw [streamEntryBytes_length]; omega)]
  have hse : streamEntryBytes (if true then 0x01 ||| FLAG_CONTIGUOUS else 0x01)
      name.length (nameHash name) 0 0 =
      0xC0 :: 0x03 :: 0 :: name.length :: (nameHash name % 256) ::
        (nameHash name / 256 % 256) :: 0 :: 0 :: 0 :: 0 :: 0 :: 0 :: 0 :: 0 :: 0 :: 0 ::
        0 :: 0 :: 0 :: 0 :: 0 :: 0 :: 0 :: 0 :: 0 :: 0 :: 0 :: 0 :: 0 :: 0 :: 0 :: 0 ::
        [] := rfl
  refine ⟨?_, ?_, ?_⟩
  · rw [getD_pack16_ne _ _ _ _ (by omega) (by omega), hstream 33 (by omega) (by omega), hse]
    rfl
  · rw [get32, getD_pack16_ne _ _ _ _ (by omega) (by omega),
      getD_pack16_ne _ _ _ _ (by omega) (by omega),
      getD_pack16_ne _ _ _ _ (by omega) (by omega),
      getD_pack16_ne _ _ _ _ (by omega) (by omega)]
    rw [show (52 : Nat) + 1 = 53 by rfl, show (52 : Nat) + 2 = 54 by rfl,
      show (52 : Nat) + 3 = 55 by rfl]
    rw [hstream 52 (by omega) (by omega), hstream 53 (by omega) (by omega),
      hstream 54 (by omega) (by omega), hstream 55 (by omega) (by omega), hse]
    rfl
  · rw [get64, get32, get32, getD_pack16_ne _ _ _ _ (by omega) (by omega),
      getD_pack16_ne _ _ _ _ (by omega) (by omega),
      getD_pack16_ne _ _ _ _ (by omega) (by omega),
      getD_pack16_ne _ _ _ _ (by omega) (by omega),
      getD_pack16_ne _ _ _ _ (by omega) (by omega),
      getD_pack16_ne _ _ _ _ (by omega) (by omega),
      getD_pack16_ne _ _ _ _ (by omega) (by omega),
      getD_pack16_ne _ _ _ _ (by omega) (by omega)]
    rw [show (56 : Nat) + 1 = 57 by rfl, show (56 : Nat) + 2 = 58 by rfl,
      show (56 : Nat) + 3 = 59 by rfl, show (56 : Nat) + 4 = 60 by rfl,
      show (60 : Nat) + 1 = 61 by rfl, show (60 : Nat) + 2 = 62 by rfl,
      show (60 : Nat) + 3 = 63 by rfl]
    rw [hstream 56 (by omega) (by omega), hstream 57 (by omega) (by omega),
      hstream 58 (by omega) (by omega), hstream 59 (by omega) (by omega),
      hstream 60 (by omega) (by omega), hstream 61 (by omega) (by omega),
      hstream 62 (by omega) (by omega), hstream 63 (by omega) (by omega), hse]
    rfl

/-- A fully-allocated exFAT formatter state: a 4096-sector volume with 8
sectors per cluster has `cluster_count = 507`; `next_cluster = 509` means all
507 heap clusters (numbers 2–508) are taken. -/
def exfatFullState : ExFatFormatter :=
  { image := fun _ => 0, fs_start := 0, fs_sectors := 4096, spc := 8,
    next_cluster := 509, fat_cache := List.replicate 2036 0,
    bitmap := List.replicate 64 0, root_cluster := 4 }

/-! ## FAT16 formatter (`Fat16Formatter`, mkimage.py lines 224–622)

Filenames are modelled as lists of Unicode code points (`[ord(c) for c in s]`);
`str.upper()` is modelled on the ASCII range by `upcase16` (the names this tool
handles are ASCII). -/

/-- `lfn_checksum` (lines 44–49). -/
def lfnChecksum (name83 : List Nat) : Nat :=
  name83.foldl (fun s b => ((((s &&& 1) <<< 7) + (s >>> 1)) + b) &&& 0xFF) 0

/-- The characters disallowed in an 8.3 name, `' +,;=[]'` (line 67). -/
def fat16BadChars : List Nat := [0x20, 0x2B, 0x2C, 0x3B, 0x3D, 0x5B, 0x5D]

/-- Index of the last `'.'` (0x2E) in a name, if any: the split point of
`name.rsplit('.', 1)`. -/
def lastDotIdx (name : List Nat) : Option Nat :=
  (List.range name.length).foldl
    (fun acc i => if name.getD i 0 = 0x2E then some i else acc) none

/-- `needs_lfn` (lines 52–72). -/
def needsLfn (filename : List Nat) : Bool :=
  if 12 < filename.length ∨ filename.length = 0 then true
  else if filename.headD 0 = 0x2E ∧ filename ≠ [0x2E] ∧ filename ≠ [0x2E, 0x2E] then true
  else if 1 < (filename.filter (fun c => c = 0x2E)).length then true
  else
    let base := match lastDotIdx filename with
      | some i => filename.take i
      | none => filename
    let ext := match lastDotIdx filename with
      | some i => filename.drop (i + 1)
      | none => []
    if 8 < base.length ∨ 3 < ext.length then true
    else if filename.any (fun c => c ∈ fat16BadChars) then true
    else if filename ≠ filename.map upcase16 then true
    else false

/-- The decimal digit string of a positive counter (`str(counter)`), as code
points. -/
def decimalDigits (n : Nat) : List Nat :=
  if h : n < 10 then [0x30 + n]
  else decimalDigits (n / 10) ++ [0x30 + n % 10]
termination_by n
decreasing_by
  simp_wf
  omega

/-- `_short_name_counters.get(key, 0)`: the collision-counter map is modelled
as an association list where the most recent binding wins. -/
def sncGet (m : List ((List Nat × List Nat) × Nat)) (key : List Nat × List Nat) : Nat :=
  match m.find? (fun p => p.1 == key) with
  | some p => p.2
  | none => 0

/-- `generate_short_name` (lines 77–103): the 11-byte 8.3 name plus the updated
collision-counter map (the module-level `_short_name_counters`, reset per
formatter instance by `__init__`). -/
def generateShortName (counters : List ((List Nat × List Nat) × Nat))
    (filename : List Nat) : List Nat × List ((List Nat × List Nat) × Nat) :=
  let name := filename.map upcase16
  let base0 := match lastDotIdx name with
    | some i => name.take i
    | none => name
  let ext0 := match lastDotIdx name with
    | some i => name.drop (i + 1)
    | none => []
  let base1 := base0.filter (fun c => ¬ c ∈ (0x2E :: fat16BadChars))
  let ext1 := ext0.filter (fun c => c ≠ 0x20 ∧ c ≠ 0x2E)
  let base2 := base1.take 6
  let ext2 := ext1.take 3
  let key := (base2, ext2)
  let counter := sncGet counters key + 1
  let counters2 := (key, counter) :: counters
  let tail := 0x7E :: decimalDigits counter
  let maxBase := 8 - tail.length
  let shortBase := base2.take maxBase ++ tail
  let short := shortBase ++ List.replicate (8 - shortBase.length) 0x20
  let ext3 := ext2 ++ List.replicate (3 - ext2.length) 0x20
  (short ++ ext3, counters2)

/-- The 13 UTF-16 code units stored in LFN entry `seq` (1-based): name
characters, then one 0x0000 terminator, then 0xFFFF padding (lines 125–134). -/
def lfnChars (utf16 : List Nat) (seq : Nat) : List Nat :=
  (List.range 13).map (fun j =>
    let idx := (seq - 1) * 13 + j
    if idx < utf16.length then utf16.getD idx 0
    else if idx = utf16.length then 0x0000
    else 0xFFFF)

/-- One 32-byte VFAT LFN entry (lines 115–146): sequence byte (bit 0x40 on the
last entry of the group), 5 + 6 + 2 UTF-16LE characters at byte offsets 1, 14
and 28, attribute 0x0F at 11, type 0 at 12, checksum at 13, zero first-cluster
field at 26–27. -/
def lfnEntry (utf16 : List Nat) (chk seq numEntries : Nat) : List Nat :=
  let chars := lfnChars utf16 seq
  let seqByte := if seq = numEntries then seq ||| 0x40 else seq
  [seqByte] ++ ((chars.take 5).flatMap le16 ++ ([0x0F, 0, chk] ++
    (((chars.drop 5).take 6).flatMap le16 ++ ([0, 0] ++ (chars.drop 11).flatMap le16))))

/-- `make_lfn_entries` (lines 106–150): the group of LFN entries in on-disk
order (reverse sequence order). -/
def makeLfnEntries (filename : List Nat) (name83 : List Nat) : List (List Nat) :=
  let chk := lfnChecksum name83
  let numEntries := (filename.length + 12) / 13
  ((List.range numEntries).map (fun k => lfnEntry filename chk (k + 1) numEntries)).reverse

/-- `_make_83_name` (lines 400–411): uppercase, split at the last dot, truncate
and space-pad to 8+3. -/
def make83Name (filename : List Nat) : List Nat :=
  let name := filename.map upcase16
  let base := match lastDotIdx name with
    | some i => name.take i
    | none => name
  let ext := match lastDotIdx name with
    | some i => name.drop (i + 1)
    | none => []
  let base8 := base.take 8 ++ List.replicate (8 - (base.take 8).length) 0x20
  let ext3 := ext.take 3 ++ List.replicate (3 - (ext.take 3).length) 0x20
  base8 ++ ext3

/-- The mutable state of a `Fat16Formatter` (fields assigned in `__init__`,
lines 227–259); the geometry attributes are pure functions of `fs_sectors` and
`sectors_per_cluster`, defined below.  `snc` models the module-level
`_short_name_counters` dict, which `__init__` resets to empty. -/
structure Fat16Formatter where
  image : Mem
  fs_start : Nat
  fs_sectors : Nat
  sectors_per_cluster : Nat
  next_cluster : Nat
  next_root_entry : Nat
  snc : List ((List Nat × List Nat) × Nat)

namespace Fat16Formatter

/-- `self.bytes_per_sector = 512`. -/
def bytes_per_sector : Nat := 512

/-- `self.reserved_sectors = 1`. -/
def reserved_sectors : Nat := 1

/-- `self.num_fats = 2`. -/
def num_fats : Nat := 2

/-- `self.root_entry_count = 512`. -/
def root_entry_count : Nat := 512

/-- `self.root_dir_sectors` (line 241): 32. -/
def root_dir_sectors : Nat := (root_entry_count * 32 + 512 - 1) / 512

/-- The first-pass cluster count (lines 244–245). -/
def total_clusters0 (st : Fat16Formatter) : Nat :=
  (st.fs_sectors - reserved_sectors - root_dir_sectors) / st.sectors_per_cluster

/-- `self.fat_size` (line 247): sectors per FAT copy. -/
def fat_size (st : Fat16Formatter) : Nat := (total_clusters0 st * 2 + 512 - 1) / 512

/-- `self.total_clusters` (lines 249–250). -/
def total_clusters (st : Fat16Formatter) : Nat :=
  (st.fs_sectors - reserved_sectors - num_fats * fat_size st - root_dir_sectors) /
    st.sectors_per_cluster

/-- `self.first_fat_sector` (line 252). -/
def first_fat_sector : Nat := reserved_sectors

/-- `self.first_root_dir_sector` (line 253). -/
def first_root_dir_sector (st : Fat16Formatter) : Nat :=
  reserved_sectors + num_fats * fat_size st

/-- `self.first_data_sector` (line 254). -/
def first_data_sector (st : Fat16Formatter) : Nat :=
  first_root_dir_sector st + root_dir_sectors

/-- `self.cluster_size` as used throughout: `sectors_per_cluster * SECTOR_SIZE`. -/
def cluster_size (st : Fat16Formatter) : Nat := st.sectors_per_cluster * 512

/-- `_abs_sector` (lines 266–268). -/
def absSector (st : Fat16Formatter) (relativeSector : Nat) : Nat :=
  st.fs_start + relativeSector

/-- `_write_sector` (lines 270–273). -/
def writeSector (st : Fat16Formatter) (relativeSector : Nat) (data : List Nat) :
    Fat16Formatter :=
  { st with image := writeBytes st.image (absSector st relativeSector * 512) data }

/-- `_read_sector` (lines 275–278). -/
def readSector (st : Fat16Formatter) (relativeSector : Nat) : List Nat :=
  readBytes st.image (absSector st relativeSector * 512) 512

/-- `_set_fat_entry` (lines 335–345): patch the 2-byte entry of `cluster` in
both FAT copies by read–modify–write of the containing sector. -/
def setFatEntry (st : Fat16Formatter) (cluster value : Nat) : Fat16Formatter :=
  (List.range num_fats).foldl (fun acc fatIdx =>
    let absSec := first_fat_sector + fatIdx * fat_size st + cluster * 2 / 512
    let sectorData := pack16 (readSector acc absSec) (cluster * 2 % 512) value
    writeSector acc absSec sectorData) st

/-- `_cluster_to_sector` (lines 347–349). -/
def clusterToSector (st : Fat16Formatter) (cluster : Nat) : Nat :=
  first_data_sector st + (cluster - 2) * st.sectors_per_cluster

/-- The allocation loop of `_allocate_clusters` (lines 357–364): the remaining
iteration count is the recursion measure; the last iteration (`i ==
num_clusters - 1`, i.e. remaining = 1) writes the end-of-chain marker. -/
def allocateClustersGo : Fat16Formatter → Nat → Fat16Formatter
  | st, 0 => st
  | st, n + 1 =>
    let current := st.next_cluster
    let st1 := { st with next_cluster := current + 1 }
    let st2 := if n = 0 then setFatEntry st1 current 0xFFFF
               else setFatEntry st1 current (current + 1)
    allocateClustersGo st2 n

/-- `_allocate_clusters` (lines 351–366): first-fit sequential allocation of a
chain; returns the first cluster number. -/
def allocateClusters (st : Fat16Formatter) (numClusters : Nat) :
    Nat × Fat16Formatter :=
  if numClusters = 0 then (0, st)
  else (st.next_cluster, allocateClustersGo st numClusters)

/-- The per-sector inner loop of `_write_to_clusters` (lines 379–386): write
the sectors of one cluster covered by `chunk` (`break` past its end),
zero-padding a partial final sector. -/
def writeChunkSectorsGo (chunk : List Nat) :
    Fat16Formatter → Nat → Nat → Nat → Fat16Formatter
  | st, _, _, 0 => st
  | st, sector, s, rem + 1 =>
    if chunk.length ≤ s * 512 then st
    else
      let sData := (chunk.drop (s * 512)).take 512
      writeChunkSectorsGo chunk
        (writeSector st (sector + s) (sData ++ List.replicate (512 - sData.length) 0))
        sector (s + 1) rem

/-- Lines 379–386 for one cluster. -/
def writeChunkSectors (st : Fat16Formatter) (sector : Nat) (chunk : List Nat) :
    Fat16Formatter :=
  writeChunkSectorsGo chunk st sector 0 st.sectors_per_cluster

/-- The cluster loop of `_write_to_clusters` (lines 368–398), fueled by the
iteration count (`offset` advances by one cluster size per pass; the FAT of the
current cluster is consulted for the successor). -/
def writeToClustersGo (data : List Nat) :
    Fat16Formatter → Nat → Nat → Nat → Fat16Formatter
  | st, _, _, 0 => st
  | st, cluster, offset, n + 1 =>
    if offset < data.length then
      let chunk := (data.drop offset).take (cluster_size st)
      let st1 := writeChunkSectors st (clusterToSector st cluster) chunk
      let offset1 := offset + cluster_size st
      if offset1 < data.length then
        let fatSectorData := readSector st1 (first_fat_sector + cluster * 2 / 512)
        let nextCluster := get16 fatSectorData (cluster * 2 % 512)
        if 0xFFF8 ≤ nextCluster then st1
        else writeToClustersGo data st1 nextCluster offset1 n
      else st1
    else st

/-- `_write_to_clusters` (lines 368–398). -/
def writeToClusters (st : Fat16Formatter) (firstCluster : Nat) (data : List Nat) :
    Fat16Formatter :=
  writeToClustersGo data st firstCluster 0
    ((data.length + cluster_size st - 1) / cluster_size st)

/-- `_write_root_entry_at` (lines 413–422): read–modify–write of the root
directory sector containing slot `index`. -/
def writeRootEntryAt (st : Fat16Formatter) (index : Nat) (entryData : List Nat) :
    Fat16Formatter :=
  let sector := first_root_dir_sector st + index * 32 / 512
  let sectorData := setBytes (readSector st sector) (index * 32 % 512) entryData
  writeSector st sector sectorData

/-- The 32-byte 8.3 directory entry built at lines 441–452 (and 502–509):
11-byte name, attribute, zero times/cluster-high, first cluster (low 16 bits)
at 26, file size at 28.  `name83` is the 11-byte name produced by
`_make_83_name` or `generate_short_name`. -/
def entry83 (name83 : List Nat) (attr firstCluster fileSize : Nat) : List Nat :=
  name83 ++ ([attr] ++ (List.replicate 8 0 ++ (le16 0 ++ (List.replicate 4 0 ++
    (le16 (firstCluster % 65536) ++ le32 fileSize)))))

/-- `add_root_dir_entry` (lines 424–455): LFN entries (when needed) then the
8.3 entry, written at successive root-directory slot indexes. -/
def addRootDirEntry (st : Fat16Formatter) (filename : List Nat)
    (firstCluster fileSize : Nat) (isDirectory : Bool) : Fat16Formatter :=
  let useLfn := needsLfn filename
  let name83 := if useLfn then (generateShortName st.snc filename).1
                else make83Name filename
  let st1 := if useLfn then { st with snc := (generateShortName st.snc filename).2 }
             else st
  let st2 :=
    if useLfn then
      (makeLfnEntries filename name83).foldl (fun acc e =>
        let acc2 := writeRootEntryAt acc acc.next_root_entry e
        { acc2 with next_root_entry := acc2.next_root_entry + 1 }) st1
    else st1
  let attr := if isDirectory then 0x10 else 0x20
  let entry := entry83 name83 attr firstCluster (if isDirectory then 0 else fileSize)
  let st3 := writeRootEntryAt st2 st2.next_root_entry entry
  { st3 with next_root_entry := st3.next_root_entry + 1 }

/-- The consecutive-free-slot scan of `add_subdir_entry` (lines 478–491): look
for `totalNeeded` consecutive slots whose first byte is 0x00 or 0xE5 inside the
single parent-directory cluster; `none` models `found_start < 0 or consecutive
< total_needed` (the entry is then dropped with a warning). -/
def subdirScanGo (dirData : List Nat) (totalNeeded : Nat) :
    Nat → Option Nat → Nat → Nat → Option Nat
  | _, _, _, 0 => none
  | idx, foundStart, consecutive, rem + 1 =>
    let b := dirData.getD (idx * 32) 0
    if b = 0x00 ∨ b = 0xE5 then
      let fs := if consecutive = 0 then some (idx * 32) else foundStart
      let c := consecutive + 1
      if totalNeeded ≤ c then fs
      else subdirScanGo dirData totalNeeded (idx + 1) fs c rem
    else subdirScanGo dirData totalNeeded (idx + 1) none 0 rem

/-- `add_subdir_entry` (lines 457–514): scan the parent directory's (single)
cluster for room; if none is found the entry is dropped (only a warning is
printed); otherwise LFN entries and the 8.3 entry are written there and the
cluster is written back. -/
def addSubdirEntry (st : Fat16Formatter) (parentCluster : Nat) (filename : List Nat)
    (firstCluster fileSize : Nat) (isDirectory : Bool) : Fat16Formatter :=
  let useLfn := needsLfn filename
  let name83 := if useLfn then (generateShortName st.snc filename).1
                else make83Name filename
  let lfnEntries := if useLfn then makeLfnEntries filename name83 else []
  let st1 := if useLfn then { st with snc := (generateShortName st.snc filename).2 }
             else st
  let totalNeeded := lfnEntries.length + 1
  let dirData := readBytes st1.image
    (absSector st1 (clusterToSector st1 parentCluster) * 512) (cluster_size st1)
  match subdirScanGo dirData totalNeeded 0 none 0 (cluster_size st1 / 32) with
  | none => st1
  | some foundStart =>
    let attr := if isDirectory then 0x10 else 0x20
    let entry := entry83 name83 attr firstCluster (if isDirectory then 0 else fileSize)
    let dirData2 := setBytes dirData foundStart (lfnEntries.flatten ++ entry)
    (List.range st1.sectors_per_cluster).foldl (fun acc s =>
      writeSector acc (clusterToSector st1 parentCluster + s)
        ((dirData2.drop (s * 512)).take 512)) st1

/-- `Fat16Formatter.add_file` (lines 553–573). -/
def add_file (st : Fat16Formatter) (parentClusterOrRoot : Nat) (filename : List Nat)
    (data : List Nat) (isRootParent : Bool) : Fat16Formatter :=
  if data.length = 0 then
    if isRootParent then addRootDirEntry st filename 0 0 false
    else addSubdirEntry st parentClusterOrRoot filename 0 0 false
  else
    let numClusters := (data.length + cluster_size st - 1) / cluster_size st
    let firstCluster := (allocateClusters st numClusters).1
    let st1 := (allocateClusters st numClusters).2
    let st2 := writeToClusters st1 firstCluster data
    if isRootParent then addRootDirEntry st2 filename firstCluster data.length false
    else addSubdirEntry st2 parentClusterOrRoot filename firstCluster data.length false

end Fat16Formatter

namespace Fat16Formatter

/-! ### Address abbreviations (verification layer)

Absolute byte addresses of the on-disk structures, as determined by the
geometry in `__init__`.  These are not source functions; they name the
addresses at which the source's sector arithmetic lands. -/

/-- Absolute byte address of the 16-bit FAT entry of `cluster` in FAT copy
`copy` (0 or 1). -/
def fatAddr (st : Fat16Formatter) (copy cluster : Nat) : Nat :=
  (st.fs_start + first_fat_sector + copy * fat_size st) * 512 + cluster * 2

/-- The 16-bit FAT entry of `cluster` read back from FAT copy `copy` of the
image. -/
def readFat16 (st : Fat16Formatter) (copy cluster : Nat) : Nat :=
  st.image (fatAddr st copy cluster) + 256 * st.image (fatAddr st copy cluster + 1)

/-- Absolute byte address of root-directory slot `index`. -/
def rootSlotAddr (st : Fat16Formatter) (index : Nat) : Nat :=
  (st.fs_start + first_root_dir_sector st) * 512 + index * 32

/-- Absolute byte address of the first byte of `cluster` in the data region. -/
def dataAddr (st : Fat16Formatter) (cluster : Nat) : Nat :=
  (st.fs_start + clusterToSector st cluster) * 512

end Fat16Formatter

/-! ### C6: FAT16 root-directory overflow is not detected -/

/-- A FAT16 formatter state with the geometry of the EFI System Partition
(`create_uefi_image`: 6144 sectors, 1 sector per cluster, starting at sector
2048) whose root directory already holds its full 512 entries. -/
def fat16EspFullRootState : Fat16Formatter :=
  { image := fun _ => 0, fs_start := 2048, fs_sectors := 6144,
    sectors_per_cluster := 1, next_cluster := 2, next_root_entry := 512, snc := [] }

set_option maxRecDepth 100000 in
/-- C6 (code bug): `add_root_dir_entry` performs no capacity check, so the
513th root entry (slot index 512) is silently written at the first byte of the
data region — `rootSlotAddr 512` coincides with the start of the first data
sector, outside the 32 root-directory sectors — rather than the formatter
reporting an unrecoverable layout error before the write.  The ESP geometry
has `first_root_dir_sector = 49` and `first_data_sector = 81`, so the root
region is sectors 49–80 only. -/
theorem fat16_root_overflow_writes_into_data_region :
    fat16EspFullRootState.next_root_entry = 512 ∧
    Fat16Formatter.first_root_dir_sector fat16EspFullRootState = 49 ∧
    Fat16Formatter.first_data_sector fat16EspFullRootState = 81 ∧
    Fat16Formatter.rootSlotAddr fat16EspFullRootState 512 =
      (fat16EspFullRootState.fs_start +
        Fat16Formatter.first_data_sector fat16EspFullRootState) * 512 ∧
    (Fat16Formatter.writeRootEntryAt fat16EspFullRootState 512
        (Fat16Formatter.entry83 (make83Name [0x41]) 0x20 0 0)).image
      ((fat16EspFullRootState.fs_start +
        Fat16Formatter.first_data_sector fat16EspFullRootState) * 512) = 0x41 := by
  decide

/-! ### C7: capacity exhaustion — exFAT raises, FAT16 does not -/

/-- A FAT16 formatter state (ESP geometry: `total_clusters = 6063`) whose
cluster heap is completely allocated: the valid data clusters are 2..6064 and
`next_cluster` is already 6065. -/
def fat16FullHeapState : Fat16Formatter :=
  { image := fun _ => 0, fs_start := 2048, fs_sectors := 6144,
    sectors_per_cluster := 1, next_cluster := 2 + 6063, next_root_entry := 0, snc := [] }

/-- C7 (code bug): at a full volume, `ExFatFormatter._alloc_cluster` raises
`RuntimeError("exFAT: out of clusters")` as the spec's `CapacityExhausted`
requires, but `Fat16Formatter._allocate_clusters` has no capacity check at all:
on a volume whose 6063 clusters (numbers 2..6064) are all taken it happily
returns cluster 6065 — past the cluster heap — with no error. -/
theorem capacity_exhaustion_fat16_unchecked :
    ExFatFormatter.cluster_count exfatFullState = 507 ∧
    exfatFullState.next_cluster = 2 + 507 ∧
    ExFatFormatter.allocCluster exfatFullState = .error "exFAT: out of clusters" ∧
    Fat16Formatter.total_clusters fat16FullHeapState = 6063 ∧
    fat16FullHeapState.next_cluster = 2 + 6063 ∧
    (Fat16Formatter.allocateClusters fat16FullHeapState 1).1 = 2 + 6063 := by
  refine ⟨by decide, by decide, rfl, by decide, by decide, rfl⟩

/-! ### C5: FAT16 subdirectories do not grow -/

/-- The number of 32-byte slots an entry needs: its LFN entries
(`(len+12)//13` when a long name is required) plus the 8.3 entry. -/
def slotsNeeded (filename : List Nat) : Nat :=
  (if needsLfn filename then (filename.length + 12) / 13 else 0) + 1

theorem makeLfnEntries_length (filename name83 : List Nat) :
    (makeLfnEntries filename name83).length = (filename.length + 12) / 13 := by
  simp [makeLfnEntries]

/-- A FAT16 formatter state (ESP geometry, 1 sector per cluster) in which
directory cluster 2 (sectors 81, byte 1090048 onward) is completely full:
every one of its 16 slots starts with the in-use byte 0x41. -/
def fat16FullDirState : Fat16Formatter :=
  { image := fun a => if 1090048 ≤ a ∧ a < 1090560 ∧ (a - 1090048) % 32 = 0
      then 0x41 else 0,
    fs_start := 2048, fs_sectors := 6144, sectors_per_cluster := 1,
    next_cluster := 3, next_root_entry := 0, snc := [] }

set_option maxRecDepth 1000000 in
/-- C5 (counterexample): adding the file `B` to the full directory cluster 2
leaves the formatter state completely unchanged — no cluster is appended to
the directory's FAT chain (`next_cluster` stays 3, the FAT is untouched) and
no entry is stored anywhere; the claim that the chain is extended and the
entry is always stored is false. -/
theorem fat16_subdir_full_drops_entry :
    Fat16Formatter.addSubdirEntry fat16FullDirState 2 [0x42] 9 5 false =
      fat16FullDirState := by
  rfl

/-- C5 (amended): when the existing parent-directory cluster contains no run of
`slotsNeeded` consecutive free (0x00 or 0xE5) slots, `add_subdir_entry` prints
a warning and drops the entry: the state is returned unchanged apart from the
short-name collision counters (which `generate_short_name` had already bumped
when the name needs LFN entries).  The directory's FAT chain is never
extended; FAT16 directories cannot grow. -/
theorem fat16_subdir_entry_dropped_when_no_run (st : Fat16Formatter)
    (parentCluster : Nat) (filename : List Nat) (firstCluster fileSize : Nat)
    (isDirectory : Bool)
    (hscan : Fat16Formatter.subdirScanGo
      (readBytes st.image
        (Fat16Formatter.absSector st
          (Fat16Formatter.clusterToSector st parentCluster) * 512)
        (Fat16Formatter.cluster_size st))
      (slotsNeeded filename) 0 none 0 (Fat16Formatter.cluster_size st / 32) = none) :
    Fat16Formatter.addSubdirEntry st parentCluster filename firstCluster fileSize
        isDirectory =
      (if needsLfn filename then
        { st with snc := (generateShortName st.snc filename).2 } else st) := by
  unfold Fat16Formatter.addSubdirEntry
  unfold slotsNeeded at hscan
  by_cases hl : needsLfn filename
  · simp only [hl, if_true, makeLfnEntries_length] at hscan ⊢
    simp only [Fat16Formatter.absSector, Fat16Formatter.clusterToSector,
      Fat16Formatter.cluster_size, Fat16Formatter.first_data_sector,
      Fat16Formatter.first_root_dir_sector, Fat16Formatter.fat_size,
      Fat16Formatter.total_clusters0] at hscan ⊢
    rw [hscan]
  · rw [Bool.not_eq_true] at hl
    simp only [hl, Bool.false_eq_true, if_false, List.length_nil] at hscan ⊢
    simp only [Fat16Formatter.absSector, Fat16Formatter.clusterToSector,
      Fat16Formatter.cluster_size, Fat16Formatter.first_data_sector,
      Fat16Formatter.first_root_dir_sector, Fat16Formatter.fat_size,
      Fat16Formatter.total_clusters0] at hscan ⊢
    rw [hscan]

set_option maxRecDepth 1000000 in
/-- Witness for the amended C5 at the concrete full-directory state. -/
theorem fat16_subdir_entry_dropped_when_no_run_witness :
    Fat16Formatter.addSubdirEntry fat16FullDirState 2 [0x43] 9 5 false =
      (if needsLfn [0x43] then
        { fat16FullDirState with
          snc := (generateShortName fat16FullDirState.snc [0x43]).2 }
       else fat16FullDirState) :=
  fat16_subdir_entry_dropped_when_no_run fat16FullDirState 2 [0x43] 9 5 false (by rfl)

/-! ## ELF flattener (`elf_to_flat_binary`, mkimage.py lines 153–221) -/

/-- The two failure modes of the embedded `elf_to_flat_binary`: `malformed`
models the explicit `sys.exit(1)` diagnostics (bad magic, unknown ELF class, no
loadable segment found); `pyError` models an uncaught Python exception
(`struct.error`/`IndexError` on a truncated input, `ValueError` from
`bytearray(negative)`). -/
inductive ElfErr where
  | malformed : ElfErr
  | pyError : ElfErr
deriving DecidableEq

/-- `ELF_MAGIC = b'\x7fELF'` (line 34). -/
def elfMagic : List Nat := [0x7F, 0x45, 0x4C, 0x46]

/-- One program header's fields, in the tuple layout the source keeps
(`(p_paddr, p_offset, p_filesz, p_memsz, p_vaddr)`, line 201). -/
structure ElfSegment where
  paddr : Nat
  offset : Nat
  filesz : Nat
  memsz : Nat
  vaddr : Nat
deriving DecidableEq

/-- The `e_phoff`, `e_phentsize` and `e_phnum` fields of the ELF header
(`struct.unpack_from` at offset 16; ELF64 layout for class 2, ELF32 for
class 1), with the buffer-length check `unpack_from` performs. -/
def parseHeader (elf : List Nat) (eiClass : Nat) : Except ElfErr (Nat × Nat × Nat) :=
  if eiClass = 2 then
    if 16 + 48 ≤ elf.length then .ok (get64 elf 32, get16 elf 54, get16 elf 56)
    else .error .pyError
  else
    if 16 + 36 ≤ elf.length then .ok (get32 elf 28, get16 elf 42, get16 elf 44)
    else .error .pyError

/-- Program header `i` (`struct.unpack_from('<IIQQQQQQ')` for ELF64,
`'<IIIIIIII'` for ELF32, lines 188–198): its `p_type` and segment fields. -/
def readPhdr (elf : List Nat) (eiClass phoff phentsize i : Nat) :
    Except ElfErr (Nat × ElfSegment) :=
  let phOffset := phoff + i * phentsize
  if eiClass = 2 then
    if phOffset + 56 ≤ elf.length then
      .ok (get32 elf phOffset,
        { paddr := get64 elf (phOffset + 24), offset := get64 elf (phOffset + 8),
          filesz := get64 elf (phOffset + 32), memsz := get64 elf (phOffset + 40),
          vaddr := get64 elf (phOffset + 16) })
    else .error .pyError
  else
    if phOffset + 32 ≤ elf.length then
      .ok (get32 elf phOffset,
        { paddr := get32 elf (phOffset + 12), offset := get32 elf (phOffset + 4),
          filesz := get32 elf (phOffset + 16), memsz := get32 elf (phOffset + 20),
          vaddr := get32 elf (phOffset + 8) })
    else .error .pyError

/-- The program-header loop (lines 185–206): collect the segments with
`p_type == PT_LOAD and p_filesz > 0` in table order, tracking `max_paddr_end`.
The remaining header count is the recursion measure. -/
def collectSegmentsGo (elf : List Nat) (eiClass phoff phentsize : Nat) :
    Nat → Nat → List ElfSegment → Nat → Except ElfErr (List ElfSegment × Nat)
  | _, 0, segs, maxEnd => .ok (segs, maxEnd)
  | i, rem + 1, segs, maxEnd =>
    match readPhdr elf eiClass phoff phentsize i with
    | .error e => .error e
    | .ok (ptype, seg) =>
      if ptype = 1 ∧ 0 < seg.filesz then
        let segEnd := seg.paddr + seg.memsz
        let newEnd := if maxEnd < segEnd then segEnd else maxEnd
        collectSegmentsGo elf eiClass phoff phentsize (i + 1) rem (segs ++ [seg]) newEnd
      else collectSegmentsGo elf eiClass phoff phentsize (i + 1) rem segs maxEnd

/-- The parsing phase of `elf_to_flat_binary` (lines 158–210): magic check,
class check, header parse and segment collection. -/
def elfLoadableSegments (elf : List Nat) : Except ElfErr (List ElfSegment × Nat) :=
  if elf.take 4 ≠ elfMagic then .error .malformed
  else if elf.length < 5 then .error .pyError
  else
    let eiClass := elf.getD 4 0
    if eiClass ≠ 2 ∧ eiClass ≠ 1 then .error .malformed
    else
      match parseHeader elf eiClass with
      | .error e => .error e
      | .ok (phoff, phentsize, phnum) =>
        collectSegmentsGo elf eiClass phoff phentsize 0 phnum [] 0

/-- Python `l[start:stop] = repl` on a `bytearray` (step-1 slice): the indices
are clamped the way Python clamps them (negative values count from the end)
and the selected slice is replaced by `repl`, resizing the array when the
lengths differ. -/
def pySliceAssign (l : List Nat) (start stop : Int) (repl : List Nat) : List Nat :=
  let n : Int := l.length
  let s := if start < 0 then max 0 (n + start) else min start n
  let e0 := if stop < 0 then max 0 (n + stop) else min stop n
  let e := max s e0
  l.take s.toNat ++ (repl ++ l.drop e.toNat)

/-- `elf_to_flat_binary` (lines 153–221): after parsing, the flat buffer of
`max_paddr_end - base_paddr` zero bytes is filled by copying each segment's
file bytes to `p_paddr - base_paddr`. -/
def elfToFlatBinary (elf : List Nat) (basePaddr : Nat) : Except ElfErr (List Nat) :=
  match elfLoadableSegments elf with
  | .error e => .error e
  | .ok (segments, maxPaddrEnd) =>
    if segments = [] then .error .malformed
    else if (maxPaddrEnd : Int) - basePaddr < 0 then .error .pyError
    else
      let flat0 := List.replicate (maxPaddrEnd - basePaddr) 0
      .ok (segments.foldl (fun flat seg =>
        pySliceAssign flat ((seg.paddr : Int) - basePaddr)
          ((seg.paddr : Int) - basePaddr + seg.filesz)
          ((elf.drop seg.offset).take seg.filesz)) flat0)

/-! ### C2: flat binary geometry -/

/-- Spec-modelled from the claim's words (the collection loop reused, but
keeping every `PT_LOAD` header regardless of `p_filesz`): the file's `PT_LOAD`
program headers. -/
def specPtLoadHeadersGo (elf : List Nat) (eiClass phoff phentsize : Nat) :
    Nat → Nat → List ElfSegment → List ElfSegment
  | _, 0, acc => acc
  | i, rem + 1, acc =>
    match readPhdr elf eiClass phoff phentsize i with
    | .error _ => acc
    | .ok (ptype, seg) =>
      if ptype = 1 then
        specPtLoadHeadersGo elf eiClass phoff phentsize (i + 1) rem (acc ++ [seg])
      else specPtLoadHeadersGo elf eiClass phoff phentsize (i + 1) rem acc

/-- Spec-modelled from the claim's words: all `PT_LOAD` program headers of an
ELF input. -/
def specPtLoadHeaders (elf : List Nat) : List ElfSegment :=
  if elf.take 4 ≠ elfMagic then []
  else
    match parseHeader elf (elf.getD 4 0) with
    | .error _ => []
    | .ok (phoff, phentsize, phnum) =>
      specPtLoadHeadersGo elf (elf.getD 4 0) phoff phentsize 0 phnum []

/-- Spec-modelled from the claim's words: `max(vaddr+memsz) - min(vaddr)` over
the `PT_LOAD` segments. -/
def specFlatLength (segs : List ElfSegment) : Nat :=
  (segs.map (fun s => s.vaddr + s.memsz)).foldl max 0 -
    (match segs.map (fun s => s.vaddr) with
     | [] => 0
     | v :: rest => rest.foldl min v)

/-- The length of the blob an `elf_to_flat_binary` run returned, if any. -/
def blobLength (r : Except ElfErr (List Nat)) : Option Nat :=
  match r with
  | .ok l => some l.length
  | .error _ => none

/-- A well-formed 88-byte ELF32 input: one `PT_LOAD` header with
`p_vaddr = 0xC0000200`, `p_paddr = 0x200`, `p_filesz = p_memsz = 4`,
file bytes at offset 84. -/
def exElf : List Nat :=
  [0x7F, 0x45, 0x4C, 0x46, 1, 0, 0, 0, 0, 0, 0, 0, 0, 0, 0, 0,
   0, 0, 0, 0, 0, 0, 0, 0, 0, 0, 0, 0, 52, 0, 0, 0,
   0, 0, 0, 0, 0, 0, 0, 0, 0, 0, 32, 0, 1, 0, 0, 0,
   0, 0, 0, 0, 1, 0, 0, 0, 84, 0, 0, 0, 0x00, 0x02, 0x00, 0xC0,
   0x00, 0x02, 0x00, 0x00, 4, 0, 0, 0, 4, 0, 0, 0,
   0, 0, 0, 0, 0, 0, 0, 0, 0xDE, 0xAD, 0xBE, 0xEF]

set_option maxRecDepth 1000000 in
/-- C2 (counterexample): on `exElf` with `base_paddr = 0x100` the code returns
a 260-byte blob (`max(paddr+memsz) - base_paddr = 0x204 - 0x100`), while the
claim's formula `max(vaddr+memsz) - min(vaddr)` over the `PT_LOAD` segments
gives 4: the blob is sized from the physical addresses against the *given*
base, not from the virtual addresses against their minimum. -/
theorem elf_flat_length_counterexample :
    blobLength (elfToFlatBinary exElf 0x100) = some 260 ∧
    specPtLoadHeaders exElf ≠ [] ∧
    specFlatLength (specPtLoadHeaders exElf) = 4 ∧
    blobLength (elfToFlatBinary exElf 0x100) ≠
      some (specFlatLength (specPtLoadHeaders exElf)) := by
  decide

theorem getD_take (l : List Nat) (d j : Nat) (h : j < d) :
    (l.take d).getD j 0 = l.getD j 0 := by
  rcases Nat.lt_or_ge j l.length with hj | hj
  · rw [List.getD_eq_getElem _ _ (by simp; omega), List.getD_eq_getElem _ _ hj]
    simp
  · rw [List.getD_eq_default _ _ (by simp; omega), List.getD_eq_default _ _ hj]

theorem getD_drop (l : List Nat) (d j : Nat) :
    (l.drop d).getD j 0 = l.getD (d + j) 0 := by
  rcases Nat.lt_or_ge (d + j) l.length with hj | hj
  · rw [List.getD_eq_getElem _ _ (by simp; omega), List.getD_eq_getElem _ _ hj]
    simp
  · rw [List.getD_eq_default _ _ (by simp; omega), List.getD_eq_default _ _ hj]

theorem getD_replicate (n j v : Nat) : (List.replicate n v).getD j v = v := by
  rcases Nat.lt_or_ge j n with hj | hj
  · rw [List.getD_eq_getElem _ _ (by simpa using hj)]
    simp
  · exact List.getD_eq_default _ _ (by simpa using hj)

theorem getD_replicate_zero (n j : Nat) : (List.replicate n 0).getD j 0 = 0 :=
  getD_replicate n j 0

/-- `pySliceAssign` with in-bounds nonnegative indices is plain
take/replace/drop surgery. -/
theorem pySliceAssign_eq (l : List Nat) (dest fsz : Nat) (repl : List Nat)
    (hb : dest + fsz ≤ l.length) :
    pySliceAssign l (dest : Int) ((dest : Int) + (fsz : Int)) repl =
      l.take dest ++ (repl ++ l.drop (dest + fsz)) := by
  simp only [pySliceAssign]
  rw [if_neg (by omega), if_neg (by omega)]
  have h3 : min (dest : Int) (l.length : Int) = (dest : Int) := by omega
  have h4 : min ((dest : Int) + (fsz : Int)) (l.length : Int) =
      (dest : Int) + (fsz : Int) := by omega
  rw [h3, h4]
  have h5 : max (dest : Int) ((dest : Int) + (fsz : Int)) =
      (dest : Int) + (fsz : Int) := by omega
  rw [h5]
  have h6 : ((dest : Int)).toNat = dest := by omega
  have h7 : (((dest : Int) + (fsz : Int))).toNat = dest + fsz := by omega
  rw [h6, h7]

theorem spliced_length (l repl : List Nat) (dest fsz : Nat)
    (hb : dest + fsz ≤ l.length) (hr : repl.length = fsz) :
    (l.take dest ++ (repl ++ l.drop (dest + fsz))).length = l.length := by
  simp only [List.length_append, List.length_take, List.length_drop, hr]
  omega

theorem spliced_getD (l repl : List Nat) (dest fsz j : Nat)
    (hb : dest + fsz ≤ l.length) (hr : repl.length = fsz) :
    (l.take dest ++ (repl ++ l.drop (dest + fsz))).getD j 0 =
      if j < dest then l.getD j 0
      else if j < dest + fsz then repl.getD (j - dest) 0
      else l.getD j 0 := by
  have hlt : (l.take dest).length = dest := by simp; omega
  by_cases h1 : j < dest
  · rw [if_pos h1, getD_append_left _ _ _ (by omega), getD_take _ _ _ h1]
  · rw [if_neg h1, getD_append_right _ _ _ (by omega), hlt]
    by_cases h2 : j < dest + fsz
    · rw [if_pos h2, getD_append_left _ _ _ (by omega)]
    · rw [if_neg h2, getD_append_right _ _ _ (by omega), hr, getD_drop]
      congr 1
      omega

/-- The segment-copy fold of `elf_to_flat_binary` (lines 216–218): under
in-bounds, below-base-free and pairwise-disjoint segments, it preserves the
buffer length, copies every segment's file bytes to `paddr - base`, and leaves
all other bytes alone. -/
theorem elfCopyFold_invariant (elf : List Nat) (basePaddr : Nat) :
    ∀ (rest : List ElfSegment) (flat : List Nat),
    (∀ s ∈ rest, basePaddr ≤ s.paddr ∧ s.paddr + s.filesz - basePaddr ≤ flat.length ∧
      s.offset + s.filesz ≤ elf.length) →
    rest.Pairwise (fun a b => a.paddr + a.filesz ≤ b.paddr ∨
      b.paddr + b.filesz ≤ a.paddr) →
    (rest.foldl (fun flat seg =>
        pySliceAssign flat ((seg.paddr : Int) - basePaddr)
          ((seg.paddr : Int) - basePaddr + seg.filesz)
          ((elf.drop seg.offset).take seg.filesz)) flat).length = flat.length ∧
    (∀ s ∈ rest, ∀ j < s.filesz,
      (rest.foldl (fun flat seg =>
        pySliceAssign flat ((seg.paddr : Int) - basePaddr)
          ((seg.paddr : Int) - basePaddr + seg.filesz)
          ((elf.drop seg.offset).take seg.filesz)) flat).getD
            (s.paddr - basePaddr + j) 0 = elf.getD (s.offset + j) 0) ∧
    (∀ j, (∀ s ∈ rest, j < s.paddr - basePaddr ∨ s.paddr - basePaddr + s.filesz ≤ j) →
      (rest.foldl (fun flat seg =>
        pySliceAssign flat ((seg.paddr : Int) - basePaddr)
          ((seg.paddr : Int) - basePaddr + seg.filesz)
          ((elf.drop seg.offset).take seg.filesz)) flat).getD j 0 = flat.getD j 0) := by
  intro rest
  induction rest with
  | nil => intro flat _ _; exact ⟨rfl, by simp, fun j _ => rfl⟩
  | cons seg rest ih =>
    intro flat hin hdisj
    obtain ⟨hseg, hintail⟩ := List.forall_mem_cons.mp hin
    obtain ⟨hdhead, hdtail⟩ := List.pairwise_cons.mp hdisj
    obtain ⟨hb1, hb2, hb3⟩ := hseg
    set dest := seg.paddr - basePaddr with hdest
    set repl := (elf.drop seg.offset).take seg.filesz with hrepl
    have hrlen : repl.length = seg.filesz := by
      rw [hrepl]; simp; omega
    have hcast : ((seg.paddr : Int) - basePaddr) = ((dest : Nat) : Int) := by omega
    have hflat1 : pySliceAssign flat ((seg.paddr : Int) - basePaddr)
        ((seg.paddr : Int) - basePaddr + seg.filesz) repl =
        flat.take dest ++ (repl ++ flat.drop (dest + seg.filesz)) := by
      rw [hcast, show ((dest : Nat) : Int) + (seg.filesz : Int) =
        ((dest : Nat) : Int) + ((seg.filesz : Nat) : Int) from rfl]
      exact pySliceAssign_eq flat dest seg.filesz repl (by omega)
    simp only [List.foldl_cons]
    rw [hflat1]
    set flat1 := flat.take dest ++ (repl ++ flat.drop (dest + seg.filesz)) with hflat1def
    have hlen1 : flat1.length = flat.length :=
      spliced_length flat repl dest seg.filesz (by omega) hrlen
    have ihres := ih flat1 (by
        intro s hs
        obtain ⟨a, b, c⟩ := hintail s hs
        exact ⟨a, by omega, c⟩) hdtail
    obtain ⟨ihlen, ihcopy, ihpres⟩ := ihres
    refine ⟨by rw [ihlen, hlen1], ?_, ?_⟩
    · intro s hs j hj
      rcases List.mem_cons.mp hs with hcase | hcase
      · subst hcase
        have hout : ∀ t ∈ rest, s.paddr - basePaddr + j < t.paddr - basePaddr ∨
            t.paddr - basePaddr + t.filesz ≤ s.paddr - basePaddr + j := by
          intro t ht
          rcases hdhead t ht with hd | hd
          · left
            obtain ⟨ta, tb, tc⟩ := hintail t ht
            omega
          · right
            obtain ⟨ta, tb, tc⟩ := hintail t ht
            omega
        rw [ihpres _ hout]
        rw [hflat1def, spliced_getD flat repl dest s.filesz _ (by omega) hrlen]
        rw [if_neg (by omega), if_pos (by omega)]
        rw [hrepl, show dest + j - dest = j by omega]
        rw [getD_take _ _ _ (by omega), getD_drop]
      · exact ihcopy s hcase j hj
    · intro j hout
      have houttail : ∀ s ∈ rest, j < s.paddr - basePaddr ∨
          s.paddr - basePaddr + s.filesz ≤ j :=
        fun s hs => hout s (List.mem_cons_of_mem _ hs)
      rw [ihpres _ houttail, hflat1def,
        spliced_getD flat repl dest seg.filesz _ (by omega) hrlen]
      rcases hout seg (List.mem_cons_self _ _) with hc | hc
      · rw [if_pos (by omega)]
      · rw [if_neg (by omega), if_neg (by omega)]

/-- Along `collectSegmentsGo`, `max_paddr_end` is monotone and bounds
`paddr + memsz` of every collected segment. -/
theorem collectSegmentsGo_maxEnd (elf : List Nat) (eiClass phoff phentsize : Nat) :
    ∀ (rem i : Nat) (acc : List ElfSegment) (me : Nat) (segsF : List ElfSegment)
      (meF : Nat),
    collectSegmentsGo elf eiClass phoff phentsize i rem acc me = .ok (segsF, meF) →
    me ≤ meF ∧ ∀ s ∈ segsF, s ∈ acc ∨ s.paddr + s.memsz ≤ meF := by
  intro rem
  induction rem with
  | zero =>
    intro i acc me segsF meF h
    simp only [collectSegmentsGo, Except.ok.injEq, Prod.mk.injEq] at h
    obtain ⟨h1, h2⟩ := h
    subst h1; subst h2
    exact ⟨le_refl _, fun s hs => Or.inl hs⟩
  | succ rem ih =>
    intro i acc me segsF meF h
    rw [collectSegmentsGo] at h
    cases hr : readPhdr elf eiClass phoff phentsize i with
    | error e => rw [hr] at h; exact absurd h (by simp)
    | ok v =>
      obtain ⟨ptype, seg⟩ := v
      rw [hr] at h
      simp only at h
      by_cases hc : ptype = 1 ∧ 0 < seg.filesz
      · rw [if_pos hc] at h
        obtain ⟨hmono, hall⟩ := ih (i + 1) (acc ++ [seg]) _ segsF meF h
        have hstep : me ≤ (if me < seg.paddr + seg.memsz then seg.paddr + seg.memsz
            else me) := by split <;> omega
        have hsegle : seg.paddr + seg.memsz ≤
            (if me < seg.paddr + seg.memsz then seg.paddr + seg.memsz else me) := by
          split <;> omega
        refine ⟨by omega, fun s hs => ?_⟩
        rcases hall s hs with hmem | hb
        · rcases List.mem_append.mp hmem with hmem2 | hmem2
          · exact Or.inl hmem2
          · have : s = seg := by simpa using hmem2
            subst this
            exact Or.inr (by omega)
        · exact Or.inr hb
      · rw [if_neg hc] at h
        obtain ⟨hmono, hall⟩ := ih (i + 1) acc me segsF meF h
        exact ⟨hmono, hall⟩

/-- Inversion of a successful parse: the magic matched, the class byte is 1 or
2, and the segment collection produced the result. -/
theorem elfLoadableSegments_ok_inv (elf : List Nat) (segs : List ElfSegment)
    (maxEnd : Nat) (h : elfLoadableSegments elf = .ok (segs, maxEnd)) :
    elf.take 4 = elfMagic ∧ (elf.getD 4 0 = 2 ∨ elf.getD 4 0 = 1) ∧
    ∃ phoff phentsize phnum,
      parseHeader elf (elf.getD 4 0) = .ok (phoff, phentsize, phnum) ∧
      collectSegmentsGo elf (elf.getD 4 0) phoff phentsize 0 phnum [] 0 =
        .ok (segs, maxEnd) := by
  simp only [elfLoadableSegments] at h
  split at h
  · exact absurd h (by simp)
  · next hmagic =>
    split at h
    · exact absurd h (by simp)
    · split at h
      · exact absurd h (by simp)
      · next hcls =>
        split at h
        · exact absurd h (by simp)
        · next phoff phentsize phnum heq =>
          refine ⟨not_not.mp hmagic, by omega, phoff, phentsize, phnum, heq, h⟩

/-- C2 (amended): for every ELF input on which `elf_to_flat_binary` succeeds
(parse result `segs, maxEnd` with `segs ≠ []`), provided the segments are
standard (file size within memory size, file bytes within the input, load
addresses at or above the given `base_paddr`, pairwise disjoint file ranges),
the returned blob's length equals `max(paddr+memsz) - base_paddr`, taken over
the `PT_LOAD` segments with `filesz > 0` (not `max(vaddr+memsz) - min(vaddr)`),
the blob bytes at `paddr - base_paddr .. + filesz` equal the segment's file
bytes, and every other blob byte — in particular any byte inside a `memsz`
range but outside all `filesz` ranges — is zero. -/
theorem elf_flat_binary_geometry (elf : List Nat) (basePaddr : Nat)
    (segs : List ElfSegment) (maxEnd : Nat)
    (hsegs : elfLoadableSegments elf = .ok (segs, maxEnd))
    (hne : segs ≠ [])
    (hbase : basePaddr ≤ maxEnd)
    (hin : ∀ s ∈ segs, basePaddr ≤ s.paddr ∧ s.filesz ≤ s.memsz ∧
      s.offset + s.filesz ≤ elf.length)
    (hdisj : segs.Pairwise (fun a b => a.paddr + a.filesz ≤ b.paddr ∨
      b.paddr + b.filesz ≤ a.paddr)) :
    blobLength (elfToFlatBinary elf basePaddr) = some (maxEnd - basePaddr) ∧
    (∀ s ∈ segs, ∀ j < s.filesz,
      (elfToFlatBinary elf basePaddr).map (fun f => f.getD (s.paddr - basePaddr + j) 0) =
        .ok (elf.getD (s.offset + j) 0)) ∧
    (∀ j < maxEnd - basePaddr,
      (∀ s ∈ segs, j < s.paddr - basePaddr ∨ s.paddr - basePaddr + s.filesz ≤ j) →
      (elfToFlatBinary elf basePaddr).map (fun f => f.getD j 0) = .ok 0) := by
  have hflat : elfToFlatBinary elf basePaddr = .ok (segs.foldl (fun flat seg =>
      pySliceAssign flat ((seg.paddr : Int) - basePaddr)
        ((seg.paddr : Int) - basePaddr + seg.filesz)
        ((elf.drop seg.offset).take seg.filesz))
      (List.replicate (maxEnd - basePaddr) 0)) := by
    unfold elfToFlatBinary
    rw [hsegs]
    simp only
    rw [if_neg hne, if_neg (by omega)]
  have hme : ∀ s ∈ segs, s.paddr + s.memsz ≤ maxEnd := by
    obtain ⟨-, -, phoff, phentsize, phnum, -, hcoll⟩ :=
      elfLoadableSegments_ok_inv elf segs maxEnd hsegs
    intro s hs
    obtain ⟨-, hall⟩ :=
      collectSegmentsGo_maxEnd elf (elf.getD 4 0) phoff phentsize phnum 0 [] 0
        segs maxEnd hcoll
    rcases hall s hs with hmem | hb
    · simp at hmem
    · exact hb
  have hin2 : ∀ s ∈ segs, basePaddr ≤ s.paddr ∧
      s.paddr + s.filesz - basePaddr ≤ (List.replicate (maxEnd - basePaddr) 0).length ∧
      s.offset + s.filesz ≤ elf.length := by
    intro s hs
    obtain ⟨a, b, c⟩ := hin s hs
    have := hme s hs
    refine ⟨a, ?_, c⟩
    rw [List.length_replicate]
    omega
  obtain ⟨hlen, hcopy, hpres⟩ :=
    elfCopyFold_invariant elf basePaddr segs (List.replicate (maxEnd - basePaddr) 0)
      hin2 hdisj
  refine ⟨?_, ?_, ?_⟩
  · rw [hflat]
    unfold blobLength
    simp only
    rw [hlen, List.length_replicate]
  · intro s hs j hj
    rw [hflat]
    simp only [Except.map]
    rw [hcopy s hs j hj]
  · intro j hjn hout
    rw [hflat]
    simp only [Except.map]
    rw [hpres j hout, getD_replicate_zero]

/-- The single loadable segment of `exElf`, as the parse collects it. -/
def exSeg : ElfSegment :=
  { paddr := 0x200, offset := 84, filesz := 4, memsz := 4, vaddr := 0xC0000200 }

set_option maxRecDepth 1000000 in
/-- Witness for the amended C2 at the concrete ELF32 input `exElf`. -/
theorem elf_flat_binary_geometry_witness :
    blobLength (elfToFlatBinary exElf 0x100) = some (0x204 - 0x100) ∧
    (∀ s ∈ [exSeg], ∀ j < s.filesz,
      (elfToFlatBinary exElf 0x100).map (fun f => f.getD (s.paddr - 0x100 + j) 0) =
        .ok (exElf.getD (s.offset + j) 0)) ∧
    (∀ j < 0x204 - 0x100,
      (∀ s ∈ [exSeg], j < s.paddr - 0x100 ∨ s.paddr - 0x100 + s.filesz ≤ j) →
      (elfToFlatBinary exElf 0x100).map (fun f => f.getD j 0) = .ok 0) :=
  elf_flat_binary_geometry exElf 0x100 [exSeg] 0x204
    (by rfl) (by simp) (by omega)
    (by intro s hs; simp at hs; subst hs; refine ⟨by decide, by decide, by decide⟩)
    (by simp)

/-! ### C9: error conditions of `elf_to_flat_binary` -/

/-- The error a run produced, if any. -/
def elfErrOf (r : Except ElfErr (List Nat)) : Option ElfErr :=
  match r with
  | .ok _ => none
  | .error e => some e

theorem parseHeader_error (elf : List Nat) (c : Nat) (e : ElfErr)
    (h : parseHeader elf c = .error e) : e = .pyError := by
  unfold parseHeader at h
  split at h
  · split at h
    · exact absurd h (by simp)
    · simpa using h.symm
  · split at h
    · exact absurd h (by simp)
    · simpa using h.symm

theorem readPhdr_error (elf : List Nat) (c po pe i : Nat) (e : ElfErr)
    (h : readPhdr elf c po pe i = .error e) : e = .pyError := by
  simp only [readPhdr] at h
  split at h
  · split at h
    · exact absurd h (by simp)
    · simpa using h.symm
  · split at h
    · exact absurd h (by simp)
    · simpa using h.symm

theorem collectSegmentsGo_error (elf : List Nat) (c po pe : Nat) :
    ∀ (rem i : Nat) (acc : List ElfSegment) (me : Nat) (e : ElfErr),
    collectSegmentsGo elf c po pe i rem acc me = .error e → e = .pyError := by
  intro rem
  induction rem with
  | zero => intro i acc me e h; exact absurd h (by simp [collectSegmentsGo])
  | succ rem ih =>
    intro i acc me e h
    rw [collectSegmentsGo] at h
    cases hr : readPhdr elf c po pe i with
    | error e2 =>
      rw [hr] at h
      simp only [Except.error.injEq] at h
      exact h ▸ readPhdr_error elf c po pe i e2 hr
    | ok v =>
      obtain ⟨ptype, seg⟩ := v
      rw [hr] at h
      simp only at h
      by_cases hc : ptype = 1 ∧ 0 < seg.filesz
      · rw [if_pos hc] at h; exact ih _ _ _ _ h
      · rw [if_neg hc] at h; exact ih _ _ _ _ h

/-- A `collectSegmentsGo` run only ever appends to its accumulator. -/
theorem collectSegmentsGo_prefix (elf : List Nat) (c po pe : Nat) :
    ∀ (rem i : Nat) (acc : List ElfSegment) (me : Nat) (segsF : List ElfSegment)
      (meF : Nat),
    collectSegmentsGo elf c po pe i rem acc me = .ok (segsF, meF) →
    ∃ ext, segsF = acc ++ ext := by
  intro rem
  induction rem with
  | zero =>
    intro i acc me segsF meF h
    simp only [collectSegmentsGo, Except.ok.injEq, Prod.mk.injEq] at h
    exact ⟨[], by rw [← h.1]; simp⟩
  | succ rem ih =>
    intro i acc me segsF meF h
    rw [collectSegmentsGo] at h
    cases hr : readPhdr elf c po pe i with
    | error e2 => rw [hr] at h; exact absurd h (by simp)
    | ok v =>
      obtain ⟨ptype, seg⟩ := v
      rw [hr] at h
      simp only at h
      by_cases hc : ptype = 1 ∧ 0 < seg.filesz
      · rw [if_pos hc] at h
        obtain ⟨ext, hext⟩ := ih _ _ _ _ _ h
        exact ⟨seg :: ext, by rw [hext]; simp⟩
      · rw [if_neg hc] at h
        exact ih _ _ _ _ _ h

/-- When the collection ends with no segment, `max_paddr_end` is still 0. -/
theorem collectSegmentsGo_empty_maxEnd (elf : List Nat) (c po pe : Nat) :
    ∀ (rem i meF : Nat),
    collectSegmentsGo elf c po pe i rem [] 0 = .ok ([], meF) → meF = 0 := by
  intro rem
  induction rem with
  | zero =>
    intro i meF h
    simp only [collectSegmentsGo, Except.ok.injEq, Prod.mk.injEq] at h
    exact h.2.symm
  | succ rem ih =>
    intro i meF h
    rw [collectSegmentsGo] at h
    cases hr : readPhdr elf c po pe i with
    | error e2 => rw [hr] at h; exact absurd h (by simp)
    | ok v =>
      obtain ⟨ptype, seg⟩ := v
      rw [hr] at h
      simp only at h
      by_cases hc : ptype = 1 ∧ 0 < seg.filesz
      · rw [if_pos hc] at h
        obtain ⟨ext, hext⟩ := collectSegmentsGo_prefix elf c po pe _ _ _ _ _ _ h
        exact absurd hext (by simp)
      · rw [if_neg hc] at h
        exact ih _ _ h

/-- A `.malformed` outcome of the parse phase comes from the magic or the
class check. -/
theorem elfLoadableSegments_malformed_inv (elf : List Nat)
    (h : elfLoadableSegments elf = .error .malformed) :
    elf.take 4 ≠ elfMagic ∨ (elf.getD 4 0 ≠ 2 ∧ elf.getD 4 0 ≠ 1) := by
  simp only [elfLoadableSegments] at h
  split at h
  · next hmagic => exact Or.inl hmagic
  · next hmagic =>
    split at h
    · exact absurd h (by simp)
    · split at h
      · next hcls => exact Or.inr hcls
      · next hcls =>
        split at h
        · next e heq =>
          have he := parseHeader_error elf _ e heq
          simp only [Except.error.injEq] at h
          rw [he] at h
          exact absurd h (by simp)
        · next phoff phentsize phnum heq =>
          have := collectSegmentsGo_error elf _ phoff phentsize phnum 0 [] 0 _ h
          exact absurd this (by simp)

/-- C9 (amended): for inputs that do not crash the interpreter (no
`struct.error`/`IndexError`/`ValueError`), `elf_to_flat_binary` fails with a
`MalformedInput` diagnostic if and only if the magic is wrong, the class byte
is neither 1 nor 2, or the collection finds no `PT_LOAD` segment **with
`p_filesz > 0`** (the parse returning the empty segment list); on every other
such input it returns a blob. -/
theorem elf_to_flat_binary_error_iff (elf : List Nat) (basePaddr : Nat)
    (hnp : elfErrOf (elfToFlatBinary elf basePaddr) ≠ some .pyError) :
    (elfErrOf (elfToFlatBinary elf basePaddr) = some .malformed ↔
      elf.take 4 ≠ elfMagic ∨ (elf.getD 4 0 ≠ 2 ∧ elf.getD 4 0 ≠ 1) ∨
      elfLoadableSegments elf = .ok ([], 0)) ∧
    ((∃ blob, elfToFlatBinary elf basePaddr = .ok blob) ↔
      ¬ (elf.take 4 ≠ elfMagic ∨ (elf.getD 4 0 ≠ 2 ∧ elf.getD 4 0 ≠ 1) ∨
        elfLoadableSegments elf = .ok ([], 0))) := by
  cases hls : elfLoadableSegments elf with
  | error e =>
    cases e with
    | pyError =>
      exfalso
      apply hnp
      unfold elfToFlatBinary
      rw [hls]
      rfl
    | malformed =>
      have hres : elfToFlatBinary elf basePaddr = .error .malformed := by
        unfold elfToFlatBinary; rw [hls]
      refine ⟨⟨fun _ => ?_, fun _ => by rw [hres]; rfl⟩, ?_, ?_⟩
      · rcases elfLoadableSegments_malformed_inv elf hls with h | h
        · exact Or.inl h
        · exact Or.inr (Or.inl h)
      · rintro ⟨blob, hblob⟩
        rw [hres] at hblob
        exact absurd hblob (by simp)
      · intro hnot
        exfalso
        apply hnot
        rcases elfLoadableSegments_malformed_inv elf hls with h | h
        · exact Or.inl h
        · exact Or.inr (Or.inl h)
  | ok v =>
    obtain ⟨segs, me⟩ := v
    by_cases hemp : segs = []
    · subst hemp
      have hme0 : me = 0 := by
        obtain ⟨-, -, phoff, phentsize, phnum, -, hcoll⟩ :=
          elfLoadableSegments_ok_inv elf [] me hls
        exact collectSegmentsGo_empty_maxEnd elf _ phoff phentsize phnum 0 me hcoll
      subst hme0
      have hres : elfToFlatBinary elf basePaddr = .error .malformed := by
        unfold elfToFlatBinary
        rw [hls]
        rfl
      refine ⟨⟨fun _ => Or.inr (Or.inr rfl), fun _ => by rw [hres]; rfl⟩, ?_, ?_⟩
      · rintro ⟨blob, hblob⟩
        rw [hres] at hblob
        exact absurd hblob (by simp)
      · intro hnot
        exact absurd (Or.inr (Or.inr rfl)) hnot
    · by_cases hneg : (me : Int) - (basePaddr : Int) < 0
      · exfalso
        apply hnp
        unfold elfToFlatBinary
        rw [hls]
        simp only
        rw [if_neg hemp, if_pos hneg]
        rfl
      · have hres : ∃ blob, elfToFlatBinary elf basePaddr = .ok blob := by
          refine ⟨segs.foldl (fun flat seg =>
            pySliceAssign flat ((seg.paddr : Int) - basePaddr)
              ((seg.paddr : Int) - basePaddr + seg.filesz)
              ((elf.drop seg.offset).take seg.filesz))
            (List.replicate (me - basePaddr) 0), ?_⟩
          unfold elfToFlatBinary
          rw [hls]
          simp only
          rw [if_neg hemp, if_neg hneg]
        obtain ⟨hm, hcl, -⟩ := elfLoadableSegments_ok_inv elf segs me hls
        have hnRHS : ¬ (elf.take 4 ≠ elfMagic ∨
            (elf.getD 4 0 ≠ 2 ∧ elf.getD 4 0 ≠ 1) ∨
            (Except.ok (segs, me) : Except ElfErr (List ElfSegment × Nat)) =
              .ok ([], 0)) := by
          intro hRHS
          rcases hRHS with h | h | h
          · exact h hm
          · rcases hcl with h2 | h1
            · exact h.1 h2
            · exact h.2 h1
          · simp only [Except.ok.injEq, Prod.mk.injEq] at h
            exact hemp h.1
        obtain ⟨blob, hblob⟩ := hres
        refine ⟨⟨fun habs => ?_, fun hr => absurd hr hnRHS⟩, ?_, fun _ => ⟨blob, hblob⟩⟩
        · rw [hblob] at habs
          exact absurd habs (by simp [elfErrOf])
        · intro _
          exact hnRHS

/-- The same ELF32 input as `exElf` but with `p_filesz = 0` in its single
`PT_LOAD` program header. -/
def exElfZeroFilesz : List Nat :=
  [0x7F, 0x45, 0x4C, 0x46, 1, 0, 0, 0, 0, 0, 0, 0, 0, 0, 0, 0,
   0, 0, 0, 0, 0, 0, 0, 0, 0, 0, 0, 0, 52, 0, 0, 0,
   0, 0, 0, 0, 0, 0, 0, 0, 0, 0, 32, 0, 1, 0, 0, 0,
   0, 0, 0, 0, 1, 0, 0, 0, 84, 0, 0, 0, 0x00, 0x02, 0x00, 0xC0,
   0x00, 0x02, 0x00, 0x00, 0, 0, 0, 0, 4, 0, 0, 0,
   0, 0, 0, 0, 0, 0, 0, 0, 0xDE, 0xAD, 0xBE, 0xEF]

set_option maxRecDepth 1000000 in
/-- C9 (counterexample): `exElfZeroFilesz` has good magic, class 1, and does
contain a `PT_LOAD` program header — so by the claim it should return a blob —
yet the code fails with the `MalformedInput` diagnostic ("No PT_LOAD segments
found"), because the collection also requires `p_filesz > 0`. -/
theorem elf_error_iff_counterexample :
    elfErrOf (elfToFlatBinary exElfZeroFilesz 0x100) = some .malformed ∧
    exElfZeroFilesz.take 4 = elfMagic ∧
    exElfZeroFilesz.getD 4 0 = 1 ∧
    specPtLoadHeaders exElfZeroFilesz ≠ [] := by
  decide

set_option maxRecDepth 1000000 in
/-- Witness for the amended C9 at the concrete input `exElf`. -/
theorem elf_to_flat_binary_error_iff_witness :
    (elfErrOf (elfToFlatBinary exElf 0x100) = some .malformed ↔
      exElf.take 4 ≠ elfMagic ∨ (exElf.getD 4 0 ≠ 2 ∧ exElf.getD 4 0 ≠ 1) ∨
      elfLoadableSegments exElf = .ok ([], 0)) ∧
    ((∃ blob, elfToFlatBinary exElf 0x100 = .ok blob) ↔
      ¬ (exElf.take 4 ≠ elfMagic ∨ (exElf.getD 4 0 ≠ 2 ∧ exElf.getD 4 0 ≠ 1) ∨
        elfLoadableSegments exElf = .ok ([], 0))) :=
  elf_to_flat_binary_error_iff exElf 0x100 (by decide)

/-! ## GPT partitioner (`create_gpt`, mkimage.py lines 1236–1301)

GUIDs are modelled by their 16-byte GPT (mixed-endian) encodings, i.e. the
value of `guid_to_bytes` / `uuid.bytes_le`; the random `uuid.uuid4()` disk GUID
is a parameter. -/

/-- One bit step of the reflected IEEE CRC-32 (polynomial 0xEDB88320) that
`zlib.crc32` computes: shift right, conditionally (on the bit shifted out)
xoring in the polynomial. -/
def crc32Bit (c : Nat) : Nat := (c >>> 1) ^^^ ((c &&& 1) * 0xEDB88320)

/-- One byte step of `zlib.crc32`. -/
def crc32Byte (c b : Nat) : Nat :=
  crc32Bit (crc32Bit (crc32Bit (crc32Bit (crc32Bit (crc32Bit (crc32Bit (crc32Bit
    (c ^^^ (b &&& 0xFF)))))))))

/-- The byte loop of `zlib.crc32`.  The case split on the accumulator value is
semantically the identity; it forces the accumulator so that concrete
evaluation of long inputs runs in constant stack. -/
def crc32Go : Nat → List Nat → Nat
  | c, [] => c
  | c, b :: bs =>
    match crc32Byte c b with
    | 0 => crc32Go 0 bs
    | c2 + 1 => crc32Go (c2 + 1) bs

/-- `zlib.crc32(data) & 0xFFFFFFFF`. -/
def crc32 (data : List Nat) : Nat := crc32Go 0xFFFFFFFF data ^^^ 0xFFFFFFFF

theorem crc32Go_eq_foldl : ∀ (l : List Nat) (c : Nat),
    crc32Go c l = l.foldl crc32Byte c := by
  intro l
  induction l with
  | nil => intro c; rfl
  | cons b bs ih =>
    intro c
    rw [crc32Go]
    cases hcb : crc32Byte c b with
    | zero => rw [List.foldl_cons, hcb]; exact ih 0
    | succ c2 => rw [List.foldl_cons, hcb]; exact ih (c2 + 1)

/-- One 128-byte GPT partition entry prefix (lines 1246–1254): type GUID,
unique GUID, first/last LBA, zero attributes, then the UTF-16LE name truncated
to 72 bytes; the remainder of the 128-byte slot stays zero. -/
def gptEntryBytes (p : List Nat × List Nat × Nat × Nat × List Nat) : List Nat :=
  p.1 ++ (p.2.1 ++ (le64 p.2.2.1 ++ (le64 p.2.2.2.1 ++ (le64 0 ++
    ((p.2.2.2.2.flatMap le16).take 72)))))

/-- The 128-entry, 16384-byte GPT partition entry array (lines 1245–1254). -/
def gptEntries (partitions : List (List Nat × List Nat × Nat × Nat × List Nat)) :
    List Nat :=
  partitions.enum.foldl (fun acc ip => setBytes acc (ip.1 * 128) (gptEntryBytes ip.2))
    (List.replicate (128 * 128) 0)

/-- The first 24 bytes of a GPT header: signature, revision 0x00010000, header
size 92, zeroed CRC placeholder, reserved zeros. -/
def gptHeaderPrefix : List Nat :=
  [0x45, 0x46, 0x49, 0x20, 0x50, 0x41, 0x52, 0x54] ++
    (le32 0x00010000 ++ (le32 92 ++ (le32 0 ++ le32 0)))

/-- Header bytes 40–71: first/last usable LBA and the disk GUID. -/
def gptHeaderMid (firstUsable lastUsable : Nat) (diskGuid : List Nat) : List Nat :=
  le64 firstUsable ++ (le64 lastUsable ++ diskGuid)

/-- Header bytes 80–511: entry count 128, entry size 128, the entry-array
CRC32, then zeros to the end of the sector. -/
def gptHeaderSuffix (entriesCrc : Nat) : List Nat :=
  le32 128 ++ (le32 128 ++ (le32 entriesCrc ++ List.replicate 420 0))

/-- The 512-byte header sector of `make_header` (lines 1261–1280) before the
header CRC is patched in. -/
def gptHeaderBase (myLba altLba entriesLba firstUsable lastUsable : Nat)
    (diskGuid : List Nat) (entriesCrc : Nat) : List Nat :=
  gptHeaderPrefix ++ (le64 myLba ++ (le64 altLba ++
    (gptHeaderMid firstUsable lastUsable diskGuid ++
      (le64 entriesLba ++ gptHeaderSuffix entriesCrc))))

/-- `make_header` (lines 1261–1280): the header sector with its CRC32 (over
the first 92 bytes, CRC field zeroed) packed into bytes 16–19. -/
def gptMakeHeader (myLba altLba entriesLba firstUsable lastUsable : Nat)
    (diskGuid : List Nat) (entriesCrc : Nat) : List Nat :=
  let hdr := gptHeaderBase myLba altLba entriesLba firstUsable lastUsable
    diskGuid entriesCrc
  pack32 hdr 16 (crc32 (hdr.take 92))

/-- `create_gpt` (lines 1236–1301): primary header at LBA 1, primary entries
at LBA 2, backup entries just below the backup header, backup header at the
last LBA. -/
def create_gpt (image : Mem) (totalSectors : Nat)
    (partitions : List (List Nat × List Nat × Nat × Nat × List Nat))
    (diskGuid : List Nat) : Mem :=
  let entrySectors := (128 * 128 + 511) / 512
  let entries := gptEntries partitions
  let entriesCrc := crc32 entries
  let firstUsable := 2 + entrySectors
  let lastUsable := totalSectors - 1 - entrySectors - 1
  let primary := gptMakeHeader 1 (totalSectors - 1) 2 firstUsable lastUsable
    diskGuid entriesCrc
  let image1 := writeBytes image 512 primary
  let image2 := writeBytes image1 (2 * 512) entries
  let backupEntriesLba := totalSectors - 1 - entrySectors
  let image3 := writeBytes image2 (backupEntriesLba * 512) entries
  let backup := gptMakeHeader (totalSectors - 1) 1 backupEntriesLba firstUsable
    lastUsable diskGuid entriesCrc
  writeBytes image3 ((totalSectors - 1) * 512) backup

theorem crc32Go_append (c : Nat) (l1 l2 : List Nat) :
    crc32Go c (l1 ++ l2) = crc32Go (crc32Go c l1) l2 := by
  rw [crc32Go_eq_foldl, crc32Go_eq_foldl, crc32Go_eq_foldl, List.foldl_append]

theorem crc32Go_replicate_split (c m n : Nat) :
    crc32Go c (List.replicate (m + n) 0) =
      crc32Go (crc32Go c (List.replicate m 0)) (List.replicate n 0) := by
  rw [List.replicate_add, crc32Go_append]

set_option maxRecDepth 100000 in
/-- The CRC32 of the 16384 zero bytes of an empty GPT entry array, evaluated
in 1024-byte stages. -/
theorem crc32_replicate_16384 : crc32 (List.replicate 16384 0) = 0xab54d286 := by
  have s01 : crc32Go 0xFFFFFFFF (List.replicate 1024 0) = 0x104a50d1 := by decide
  have s02 : crc32Go 0x104a50d1 (List.replicate 1024 0) = 0xe174561 := by decide
  have s03 : crc32Go 0xe174561 (List.replicate 1024 0) = 0x9819367b := by decide
  have s04 : crc32Go 0x9819367b (List.replicate 1024 0) = 0x38e3ffee := by decide
  have s05 : crc32Go 0x38e3ffee (List.replicate 1024 0) = 0x94c33195 := by decide
  have s06 : crc32Go 0x94c33195 (List.replicate 1024 0) = 0x35013cc0 := by decide
  have s07 : crc32Go 0x35013cc0 (List.replicate 1024 0) = 0xcf6ec82b := by decide
  have s08 : crc32Go 0xcf6ec82b (List.replicate 1024 0) = 0x270b666b := by decide
  have s09 : crc32Go 0x270b666b (List.replicate 1024 0) = 0x34079eee := by decide
  have s10 : crc32Go 0x34079eee (List.replicate 1024 0) = 0xd8e22165 := by decide
  have s11 : crc32Go 0xd8e22165 (List.replicate 1024 0) = 0x1cd4c6fa := by decide
  have s12 : crc32Go 0x1cd4c6fa (List.replicate 1024 0) = 0x75da7513 := by decide
  have s13 : crc32Go 0x75da7513 (List.replicate 1024 0) = 0xc2e81776 := by decide
  have s14 : crc32Go 0xc2e81776 (List.replicate 1024 0) = 0xf6714b3 := by decide
  have s15 : crc32Go 0xf6714b3 (List.replicate 1024 0) = 0x633f7f01 := by decide
  have s16 : crc32Go 0x633f7f01 (List.replicate 1024 0) = 0x54ab2d79 := by decide
  unfold crc32
  rw [show (16384 : Nat) = 1024 + 15360 by rfl, crc32Go_replicate_split, s01]
  rw [show (15360 : Nat) = 1024 + 14336 by rfl, crc32Go_replicate_split, s02]
  rw [show (14336 : Nat) = 1024 + 13312 by rfl, crc32Go_replicate_split, s03]
  rw [show (13312 : Nat) = 1024 + 12288 by rfl, crc32Go_replicate_split, s04]
  rw [show (12288 : Nat) = 1024 + 11264 by rfl, crc32Go_replicate_split, s05]
  rw [show (11264 : Nat) = 1024 + 10240 by rfl, crc32Go_replicate_split, s06]
  rw [show (10240 : Nat) = 1024 + 9216 by rfl, crc32Go_replicate_split, s07]
  rw [show (9216 : Nat) = 1024 + 8192 by rfl, crc32Go_replicate_split, s08]
  rw [show (8192 : Nat) = 1024 + 7168 by rfl, crc32Go_replicate_split, s09]
  rw [show (7168 : Nat) = 1024 + 6144 by rfl, crc32Go_replicate_split, s10]
  rw [show (6144 : Nat) = 1024 + 5120 by rfl, crc32Go_replicate_split, s11]
  rw [show (5120 : Nat) = 1024 + 4096 by rfl, crc32Go_replicate_split, s12]
  rw [show (4096 : Nat) = 1024 + 3072 by rfl, crc32Go_replicate_split, s13]
  rw [show (3072 : Nat) = 1024 + 2048 by rfl, crc32Go_replicate_split, s14]
  rw [show (2048 : Nat) = 1024 + 1024 by rfl, crc32Go_replicate_split, s15]
  rw [s16]
  decide

theorem gptEntriesFold_length :
    ∀ (l : List (Nat × (List Nat × List Nat × Nat × Nat × List Nat))) (acc : List Nat),
      (l.foldl (fun acc ip => setBytes acc (ip.1 * 128) (gptEntryBytes ip.2)) acc).length
        = acc.length := by
  intro l
  induction l with
  | nil => intro acc; rfl
  | cons p t ih => intro acc; rw [List.foldl_cons, ih, length_setBytes]

theorem gptEntries_length (ps : List (List Nat × List Nat × Nat × Nat × List Nat)) :
    (gptEntries ps).length = 16384 := by
  unfold gptEntries
  rw [gptEntriesFold_length, List.length_replicate]

theorem gptEntries_nil :
    gptEntries ([] : List (List Nat × List Nat × Nat × Nat × List Nat)) =
      List.replicate 16384 0 := rfl

set_option maxRecDepth 10000 in
theorem gptHeaderBase_length (my alt el fu lu : Nat) (guid : List Nat) (ec : Nat)
    (hg : guid.length = 16) :
    (gptHeaderBase my alt el fu lu guid ec).length = 512 := by
  simp [gptHeaderBase, gptHeaderPrefix, gptHeaderMid, gptHeaderSuffix,
    le64_length, le32_length, hg]

theorem gptMakeHeader_length (my alt el fu lu : Nat) (guid : List Nat) (ec : Nat)
    (hg : guid.length = 16) :
    (gptMakeHeader my alt el fu lu guid ec).length = 512 := by
  simp only [gptMakeHeader, pack32]
  rw [length_setBytes, gptHeaderBase_length _ _ _ _ _ _ _ hg]

/-- The primary GPT header sector that `create_gpt` builds for LBA 1
(`make_header(1, total_sectors - 1, 2)`). -/
def gptPrimaryHeader (ts : Nat) (ps : List (List Nat × List Nat × Nat × Nat × List Nat))
    (guid : List Nat) : List Nat :=
  gptMakeHeader 1 (ts - 1) 2 (2 + (128 * 128 + 511) / 512)
    (ts - 1 - (128 * 128 + 511) / 512 - 1) guid (crc32 (gptEntries ps))

/-- The backup GPT header sector that `create_gpt` builds for the last LBA
(`make_header(total_sectors - 1, 1, backup_entries_lba)`). -/
def gptBackupHeader (ts : Nat) (ps : List (List Nat × List Nat × Nat × Nat × List Nat))
    (guid : List Nat) : List Nat :=
  gptMakeHeader (ts - 1) 1 (ts - 1 - (128 * 128 + 511) / 512)
    (2 + (128 * 128 + 511) / 512) (ts - 1 - (128 * 128 + 511) / 512 - 1) guid
    (crc32 (gptEntries ps))

theorem create_gpt_eq (image : Mem) (ts : Nat)
    (ps : List (List Nat × List Nat × Nat × Nat × List Nat)) (guid : List Nat) :
    create_gpt image ts ps guid =
      writeBytes
        (writeBytes
          (writeBytes (writeBytes image 512 (gptPrimaryHeader ts ps guid))
            (2 * 512) (gptEntries ps))
          ((ts - 1 - (128 * 128 + 511) / 512) * 512) (gptEntries ps))
        ((ts - 1) * 512) (gptBackupHeader ts ps guid) := rfl

theorem create_gpt_primary_byte (image : Mem) (ts : Nat)
    (ps : List (List Nat × List Nat × Nat × Nat × List Nat)) (guid : List Nat)
    (i : Nat) (hts : 67 ≤ ts) (hg : guid.length = 16) (hi : i < 512) :
    create_gpt image ts ps guid (512 + i) = (gptPrimaryHeader ts ps guid).getD i 0 := by
  have hpl := gptMakeHeader_length 1 (ts - 1) 2 (2 + (128 * 128 + 511) / 512)
    (ts - 1 - (128 * 128 + 511) / 512 - 1) guid (crc32 (gptEntries ps)) hg
  have hbl := gptMakeHeader_length (ts - 1) 1 (ts - 1 - (128 * 128 + 511) / 512)
    (2 + (128 * 128 + 511) / 512) (ts - 1 - (128 * 128 + 511) / 512 - 1) guid
    (crc32 (gptEntries ps)) hg
  have hel := gptEntries_length ps
  rw [create_gpt_eq]
  simp only [writeBytes, gptPrimaryHeader, gptBackupHeader, hpl, hbl, hel]
  rw [if_neg (by omega), if_neg (by omega), if_neg (by omega), if_pos (by omega),
    show 512 + i - 512 = i from by omega]

theorem create_gpt_entries_byte (image : Mem) (ts : Nat)
    (ps : List (List Nat × List Nat × Nat × Nat × List Nat)) (guid : List Nat)
    (j : Nat) (hts : 67 ≤ ts) (hg : guid.length = 16) (hj : j < 16384) :
    create_gpt image ts ps guid (2 * 512 + j) = (gptEntries ps).getD j 0 := by
  have hbl := gptMakeHeader_length (ts - 1) 1 (ts - 1 - (128 * 128 + 511) / 512)
    (2 + (128 * 128 + 511) / 512) (ts - 1 - (128 * 128 + 511) / 512 - 1) guid
    (crc32 (gptEntries ps)) hg
  have hel := gptEntries_length ps
  rw [create_gpt_eq]
  simp only [writeBytes, gptBackupHeader, hbl, hel]
  rw [if_neg (by omega), if_neg (by omega), if_pos (by omega),
    show 2 * 512 + j - 2 * 512 = j from by omega]

theorem create_gpt_backup_entries_byte (image : Mem) (ts : Nat)
    (ps : List (List Nat × List Nat × Nat × Nat × List Nat)) (guid : List Nat)
    (j : Nat) (hts : 67 ≤ ts) (hg : guid.length = 16) (hj : j < 16384) :
    create_gpt image ts ps guid ((ts - 33) * 512 + j) = (gptEntries ps).getD j 0 := by
  have hbl := gptMakeHeader_length (ts - 1) 1 (ts - 1 - (128 * 128 + 511) / 512)
    (2 + (128 * 128 + 511) / 512) (ts - 1 - (128 * 128 + 511) / 512 - 1) guid
    (crc32 (gptEntries ps)) hg
  have hel := gptEntries_length ps
  rw [create_gpt_eq]
  simp only [writeBytes, gptBackupHeader, hbl, hel]
  rw [if_neg (by omega), if_pos (by omega),
    show (ts - 33) * 512 + j - (ts - 1 - (128 * 128 + 511) / 512) * 512 = j from by omega]

theorem create_gpt_backup_byte (image : Mem) (ts : Nat)
    (ps : List (List Nat × List Nat × Nat × Nat × List Nat)) (guid : List Nat)
    (i : Nat) (hts : 67 ≤ ts) (hg : guid.length = 16) (hi : i < 512) :
    create_gpt image ts ps guid ((ts - 1) * 512 + i) =
      (gptBackupHeader ts ps guid).getD i 0 := by
  have hbl := gptMakeHeader_length (ts - 1) 1 (ts - 1 - (128 * 128 + 511) / 512)
    (2 + (128 * 128 + 511) / 512) (ts - 1 - (128 * 128 + 511) / 512 - 1) guid
    (crc32 (gptEntries ps)) hg
  rw [create_gpt_eq]
  simp only [writeBytes, gptBackupHeader, hbl]
  rw [if_pos (by omega),
    show (ts - 1) * 512 + i - (ts - 1) * 512 = i from by omega]

theorem getD_append_right_sub (l₁ l₂ : List Nat) (i k : Nat) (hk : l₁.length = k)
    (h : k ≤ i) : (l₁ ++ l₂).getD i 0 = l₂.getD (i - k) 0 := by
  subst hk
  exact getD_append_right _ _ _ h

/-- Two GPT base header sectors built from the same usable range, disk GUID and
entry-array CRC agree on every byte outside the my_lba (24–31), alt_lba
(32–39) and partition_entries_lba (72–79) fields. -/
theorem gptHeaderBase_agree (my1 alt1 el1 my2 alt2 el2 fu lu ec i : Nat)
    (guid : List Nat) (hg : guid.length = 16)
    (h : i < 24 ∨ (40 ≤ i ∧ i < 72) ∨ 80 ≤ i) :
    (gptHeaderBase my1 alt1 el1 fu lu guid ec).getD i 0 =
      (gptHeaderBase my2 alt2 el2 fu lu guid ec).getD i 0 := by
  have hpfx : gptHeaderPrefix.length = 24 := rfl
  have hmid : (gptHeaderMid fu lu guid).length = 32 := by
    simp only [gptHeaderMid, List.length_append, le64_length, hg]
  rcases h with h | h | h
  · unfold gptHeaderBase
    rw [getD_append_left _ _ _ (by rw [hpfx]; omega),
      getD_append_left _ _ _ (by rw [hpfx]; omega)]
  · unfold gptHeaderBase
    rw [getD_append_right_sub _ _ _ 24 hpfx (by omega),
      getD_append_right_sub _ _ _ 8 (le64_length _) (by omega),
      getD_append_right_sub _ _ _ 8 (le64_length _) (by omega),
      getD_append_left _ _ _ (by rw [hmid]; omega),
      getD_append_right_sub _ _ _ 24 hpfx (by omega),
      getD_append_right_sub _ _ _ 8 (le64_length _) (by omega),
      getD_append_right_sub _ _ _ 8 (le64_length _) (by omega),
      getD_append_left _ _ _ (by rw [hmid]; omega)]
  · unfold gptHeaderBase
    rw [getD_append_right_sub _ _ _ 24 hpfx (by omega),
      getD_append_right_sub _ _ _ 8 (le64_length _) (by omega),
      getD_append_right_sub _ _ _ 8 (le64_length _) (by omega),
      getD_append_right_sub _ _ _ 32 hmid (by omega),
      getD_append_right_sub _ _ _ 8 (le64_length _) (by omega),
      getD_append_right_sub _ _ _ 24 hpfx (by omega),
      getD_append_right_sub _ _ _ 8 (le64_length _) (by omega),
      getD_append_right_sub _ _ _ 8 (le64_length _) (by omega),
      getD_append_right_sub _ _ _ 32 hmid (by omega),
      getD_append_right_sub _ _ _ 8 (le64_length _) (by omega)]

/-- Two finished GPT header sectors built from the same usable range, disk
GUID and entry-array CRC agree on every byte outside the header-CRC field
(16–19) and the my_lba, alt_lba and partition_entries_lba fields. -/
theorem gptMakeHeader_agree (my1 alt1 el1 my2 alt2 el2 fu lu ec i : Nat)
    (guid : List Nat) (hg : guid.length = 16)
    (h16 : ¬ (16 ≤ i ∧ i < 20)) (h24 : ¬ (24 ≤ i ∧ i < 40))
    (h72 : ¬ (72 ≤ i ∧ i < 80)) :
    (gptMakeHeader my1 alt1 el1 fu lu guid ec).getD i 0 =
      (gptMakeHeader my2 alt2 el2 fu lu guid ec).getD i 0 := by
  simp only [gptMakeHeader, pack32]
  rcases Nat.lt_or_ge i 16 with h | h
  · rw [getD_setBytes_lt _ _ _ _ h, getD_setBytes_lt _ _ _ _ h]
    exact gptHeaderBase_agree my1 alt1 el1 my2 alt2 el2 fu lu ec i guid hg
      (Or.inl (by omega))
  · rw [getD_setBytes_ge _ _ _ _ (by rw [le32_length]; omega),
      getD_setBytes_ge _ _ _ _ (by rw [le32_length]; omega)]
    exact gptHeaderBase_agree my1 alt1 el1 my2 alt2 el2 fu lu ec i guid hg
      (by omega)

/-- C4 (amended): `create_gpt` writes the primary header at LBA 1 with its
entry array adjacent at LBA 2, the backup entry array immediately below the
backup header at LBA total_sectors−33, and the backup header at LBA
total_sectors−1; and the two 512-byte header sectors agree on every byte
outside the header-CRC field (bytes 16–19) as well as the my_lba (24–31),
alt_lba (32–39) and partition_entries_lba (72–79) fields. -/
theorem gpt_layout_and_header_agreement (image : Mem) (ts : Nat)
    (ps : List (List Nat × List Nat × Nat × Nat × List Nat)) (guid : List Nat)
    (i j : Nat) (hts : 67 ≤ ts) (hg : guid.length = 16) (hi : i < 512)
    (hj : j < 16384) (h16 : ¬ (16 ≤ i ∧ i < 20)) (h24 : ¬ (24 ≤ i ∧ i < 40))
    (h72 : ¬ (72 ≤ i ∧ i < 80)) :
    create_gpt image ts ps guid (512 + i) = (gptPrimaryHeader ts ps guid).getD i 0 ∧
    create_gpt image ts ps guid (2 * 512 + j) = (gptEntries ps).getD j 0 ∧
    create_gpt image ts ps guid ((ts - 33) * 512 + j) = (gptEntries ps).getD j 0 ∧
    create_gpt image ts ps guid ((ts - 1) * 512 + i) =
      (gptBackupHeader ts ps guid).getD i 0 ∧
    (gptPrimaryHeader ts ps guid).getD i 0 = (gptBackupHeader ts ps guid).getD i 0 := by
  refine ⟨create_gpt_primary_byte image ts ps guid i hts hg hi,
    create_gpt_entries_byte image ts ps guid j hts hg hj,
    create_gpt_backup_entries_byte image ts ps guid j hts hg hj,
    create_gpt_backup_byte image ts ps guid i hts hg hi, ?_⟩
  unfold gptPrimaryHeader gptBackupHeader
  exact gptMakeHeader_agree 1 (ts - 1) 2 (ts - 1) 1 (ts - 1 - (128 * 128 + 511) / 512)
    (2 + (128 * 128 + 511) / 512) (ts - 1 - (128 * 128 + 511) / 512 - 1)
    (crc32 (gptEntries ps)) i guid hg h16 h24 h72

theorem gpt_layout_and_header_agreement_witness :
    create_gpt (fun _ => 0) 128 [] (List.replicate 16 0) (512 + 0) =
      (gptPrimaryHeader 128 [] (List.replicate 16 0)).getD 0 0 ∧
    create_gpt (fun _ => 0) 128 [] (List.replicate 16 0) (2 * 512 + 0) =
      (gptEntries []).getD 0 0 ∧
    create_gpt (fun _ => 0) 128 [] (List.replicate 16 0) ((128 - 33) * 512 + 0) =
      (gptEntries []).getD 0 0 ∧
    create_gpt (fun _ => 0) 128 [] (List.replicate 16 0) ((128 - 1) * 512 + 0) =
      (gptBackupHeader 128 [] (List.replicate 16 0)).getD 0 0 ∧
    (gptPrimaryHeader 128 [] (List.replicate 16 0)).getD 0 0 =
      (gptBackupHeader 128 [] (List.replicate 16 0)).getD 0 0 :=
  gpt_layout_and_header_agreement (fun _ => 0) 128 [] (List.replicate 16 0) 0 0
    (by decide) (by decide) (by decide) (by decide) (by decide) (by decide) (by decide)

set_option maxRecDepth 400000 in
/-- C4 counterexample: for a 128-sector disk with an empty partition list,
byte 16 of the primary header sector (at LBA 1) is 0x57 while byte 16 of the
backup header sector (at LBA 127) is 0x53 — the two header sectors differ in
their header-CRC32 field, which lies outside the my_lba (24–31), alt_lba
(32–39) and partition_entries_lba (72–79) fields that the claim exempts. -/
theorem gpt_header_crc_differs :
    create_gpt (fun _ => 0) 128 [] (List.replicate 16 0) (512 + 16) = 0x57 ∧
    create_gpt (fun _ => 0) 128 [] (List.replicate 16 0) ((128 - 1) * 512 + 16) = 0x53 ∧
    ¬ (24 ≤ 16 ∧ 16 < 40) ∧ ¬ (32 ≤ 16 ∧ 16 < 40) ∧ ¬ (72 ≤ 16 ∧ 16 < 80) := by
  have hp : (gptPrimaryHeader 128 [] (List.replicate 16 0)).getD 16 0 = 0x57 := by
    unfold gptPrimaryHeader
    rw [gptEntries_nil, crc32_replicate_16384]
    decide
  have hb : (gptBackupHeader 128 [] (List.replicate 16 0)).getD 16 0 = 0x53 := by
    unfold gptBackupHeader
    rw [gptEntries_nil, crc32_replicate_16384]
    decide
  refine ⟨?_, ?_, by decide, by decide, by decide⟩
  · rw [create_gpt_primary_byte (fun _ => 0) 128 [] (List.replicate 16 0) 16
      (by decide) (by decide) (by decide)]
    exact hp
  · rw [create_gpt_backup_byte (fun _ => 0) 128 [] (List.replicate 16 0) 16
      (by decide) (by decide) (by decide)]
    exact hb

/-! ### C1: FAT16 cluster-chain round trip

Effect lemmas for `_set_fat_entry`, `_allocate_clusters`, `_write_to_clusters`
and `add_root_dir_entry`, leading to the round-trip theorem for
`Fat16Formatter.add_file`. -/

namespace Fat16Formatter

theorem writeSector_fs_start (st : Fat16Formatter) (sec : Nat) (d : List Nat) :
    (writeSector st sec d).fs_start = st.fs_start := rfl

theorem setFatEntry_fs_start (st : Fat16Formatter) (c v : Nat) :
    (setFatEntry st c v).fs_start = st.fs_start := rfl

theorem setFatEntry_fs_sectors (st : Fat16Formatter) (c v : Nat) :
    (setFatEntry st c v).fs_sectors = st.fs_sectors := rfl

theorem setFatEntry_spc (st : Fat16Formatter) (c v : Nat) :
    (setFatEntry st c v).sectors_per_cluster = st.sectors_per_cluster := rfl

theorem setFatEntry_next_cluster (st : Fat16Formatter) (c v : Nat) :
    (setFatEntry st c v).next_cluster = st.next_cluster := rfl

theorem setFatEntry_next_root_entry (st : Fat16Formatter) (c v : Nat) :
    (setFatEntry st c v).next_root_entry = st.next_root_entry := rfl

theorem setFatEntry_snc (st : Fat16Formatter) (c v : Nat) :
    (setFatEntry st c v).snc = st.snc := rfl

theorem fat_size_congr (st st' : Fat16Formatter) (h1 : st'.fs_sectors = st.fs_sectors)
    (h2 : st'.sectors_per_cluster = st.sectors_per_cluster) :
    fat_size st' = fat_size st := by
  unfold fat_size total_clusters0
  rw [h1, h2]

theorem fatAddr_congr (st st' : Fat16Formatter) (h0 : st'.fs_start = st.fs_start)
    (h1 : st'.fs_sectors = st.fs_sectors)
    (h2 : st'.sectors_per_cluster = st.sectors_per_cluster) (copy c : Nat) :
    fatAddr st' copy c = fatAddr st copy c := by
  unfold fatAddr
  rw [h0, fat_size_congr st st' h1 h2]

theorem dataAddr_congr (st st' : Fat16Formatter) (h0 : st'.fs_start = st.fs_start)
    (h1 : st'.fs_sectors = st.fs_sectors)
    (h2 : st'.sectors_per_cluster = st.sectors_per_cluster) (c : Nat) :
    dataAddr st' c = dataAddr st c := by
  unfold dataAddr clusterToSector first_data_sector first_root_dir_sector
  rw [h0, h2, fat_size_congr st st' h1 h2]

theorem rootSlotAddr_congr (st st' : Fat16Formatter) (h0 : st'.fs_start = st.fs_start)
    (h1 : st'.fs_sectors = st.fs_sectors)
    (h2 : st'.sectors_per_cluster = st.sectors_per_cluster) (idx : Nat) :
    rootSlotAddr st' idx = rootSlotAddr st idx := by
  unfold rootSlotAddr first_root_dir_sector
  rw [h0, fat_size_congr st st' h1 h2]

theorem cluster_size_congr (st st' : Fat16Formatter)
    (h2 : st'.sectors_per_cluster = st.sectors_per_cluster) :
    cluster_size st' = cluster_size st := by
  unfold cluster_size
  rw [h2]

set_option maxRecDepth 40000 in
/-- Net effect of `_set_fat_entry` on the image: exactly the two bytes of the
entry in each FAT copy change, to the little-endian encoding of `value`. -/
theorem setFatEntry_image (st : Fat16Formatter) (c v a : Nat) :
    (setFatEntry st c v).image a =
      if fatAddr st 1 c ≤ a ∧ a < fatAddr st 1 c + 2
      then (le16 v).getD (a - fatAddr st 1 c) 0
      else if fatAddr st 0 c ≤ a ∧ a < fatAddr st 0 c + 2
      then (le16 v).getD (a - fatAddr st 0 c) 0
      else st.image a := by
  simp only [setFatEntry, num_fats]
  rw [show List.range 2 = [0, 1] from rfl]
  simp only [List.foldl_cons, List.foldl_nil, writeSector, readSector, pack16, absSector]
  rw [writeBytes_rmw _ _ 512 _ _ (by rw [le16_length]; omega),
    writeBytes_rmw _ _ 512 _ _ (by rw [le16_length]; omega)]
  simp only [le16_length, fatAddr, first_fat_sector, reserved_sectors]
  split_ifs <;> first | rfl | (congr 1; omega) | omega

theorem setFatEntry_untouched (st : Fat16Formatter) (c v a : Nat)
    (h0 : a < fatAddr st 0 c ∨ fatAddr st 0 c + 2 ≤ a)
    (h1 : a < fatAddr st 1 c ∨ fatAddr st 1 c + 2 ≤ a) :
    (setFatEntry st c v).image a = st.image a := by
  rw [setFatEntry_image, if_neg (by omega), if_neg (by omega)]

theorem allocateClustersGo_fields (n : Nat) : ∀ (st : Fat16Formatter),
    (allocateClustersGo st n).fs_start = st.fs_start ∧
    (allocateClustersGo st n).fs_sectors = st.fs_sectors ∧
    (allocateClustersGo st n).sectors_per_cluster = st.sectors_per_cluster ∧
    (allocateClustersGo st n).next_cluster = st.next_cluster + n ∧
    (allocateClustersGo st n).next_root_entry = st.next_root_entry ∧
    (allocateClustersGo st n).snc = st.snc := by
  induction n with
  | zero => intro st; exact ⟨rfl, rfl, rfl, rfl, rfl, rfl⟩
  | succ m ih =>
    intro st
    simp only [allocateClustersGo]
    by_cases hm : m = 0
    · subst hm
      rw [if_pos rfl]
      simp only [allocateClustersGo]
      refine ⟨rfl, rfl, rfl, ?_, rfl, rfl⟩
      show st.next_cluster + 1 = st.next_cluster + (0 + 1)
      omega
    · rw [if_neg hm]
      obtain ⟨a1, a2, a3, a4, a5, a6⟩ := ih (setFatEntry
        { st with next_cluster := st.next_cluster + 1 } st.next_cluster
        (st.next_cluster + 1))
      refine ⟨?_, ?_, ?_, ?_, ?_, ?_⟩
      · rw [a1]; rfl
      · rw [a2]; rfl
      · rw [a3]; rfl
      · rw [a4, setFatEntry_next_cluster]
        show st.next_cluster + 1 + m = st.next_cluster + (m + 1)
        omega
      · rw [a5]; rfl
      · rw [a6]; rfl

theorem allocateClustersGo_untouched (n : Nat) : ∀ (st : Fat16Formatter) (a : Nat),
    (∀ i, i < n →
      (a < fatAddr st 0 (st.next_cluster + i) ∨
        fatAddr st 0 (st.next_cluster + i) + 2 ≤ a) ∧
      (a < fatAddr st 1 (st.next_cluster + i) ∨
        fatAddr st 1 (st.next_cluster + i) + 2 ≤ a)) →
    (allocateClustersGo st n).image a = st.image a := by
  induction n with
  | zero => intro st a _; rfl
  | succ m ih =>
    intro st a ha
    have h0 := ha 0 (by omega)
    simp only [Nat.add_zero] at h0
    have c0 : fatAddr { st with next_cluster := st.next_cluster + 1 } 0
        st.next_cluster = fatAddr st 0 st.next_cluster :=
      fatAddr_congr st _ rfl rfl rfl 0 _
    have c1 : fatAddr { st with next_cluster := st.next_cluster + 1 } 1
        st.next_cluster = fatAddr st 1 st.next_cluster :=
      fatAddr_congr st _ rfl rfl rfl 1 _
    simp only [allocateClustersGo]
    by_cases hm : m = 0
    · subst hm
      rw [if_pos rfl]
      simp only [allocateClustersGo]
      rw [setFatEntry_untouched _ _ _ _ (by rw [c0]; omega) (by rw [c1]; omega)]
    · rw [if_neg hm]
      have hrec : ∀ i, i < m →
          (a < fatAddr (setFatEntry { st with next_cluster := st.next_cluster + 1 }
              st.next_cluster (st.next_cluster + 1)) 0
              ((setFatEntry { st with next_cluster := st.next_cluster + 1 }
                st.next_cluster (st.next_cluster + 1)).next_cluster + i) ∨
            fatAddr (setFatEntry { st with next_cluster := st.next_cluster + 1 }
              st.next_cluster (st.next_cluster + 1)) 0
              ((setFatEntry { st with next_cluster := st.next_cluster + 1 }
                st.next_cluster (st.next_cluster + 1)).next_cluster + i) + 2 ≤ a) ∧
          (a < fatAddr (setFatEntry { st with next_cluster := st.next_cluster + 1 }
              st.next_cluster (st.next_cluster + 1)) 1
              ((setFatEntry { st with next_cluster := st.next_cluster + 1 }
                st.next_cluster (st.next_cluster + 1)).next_cluster + i) ∨
            fatAddr (setFatEntry { st with next_cluster := st.next_cluster + 1 }
              st.next_cluster (st.next_cluster + 1)) 1
              ((setFatEntry { st with next_cluster := st.next_cluster + 1 }
                st.next_cluster (st.next_cluster + 1)).next_cluster + i) + 2 ≤ a) := by
        intro i him
        have h := ha (i + 1) (by omega)
        have e0 : fatAddr (setFatEntry { st with next_cluster := st.next_cluster + 1 }
            st.next_cluster (st.next_cluster + 1)) 0
            ((setFatEntry { st with next_cluster := st.next_cluster + 1 }
              st.next_cluster (st.next_cluster + 1)).next_cluster + i) =
            fatAddr st 0 (st.next_cluster + (i + 1)) := by
          rw [fatAddr_congr st _ rfl rfl rfl]
          show fatAddr st 0 (st.next_cluster + 1 + i) =
            fatAddr st 0 (st.next_cluster + (i + 1))
          rw [show st.next_cluster + 1 + i = st.next_cluster + (i + 1) from by omega]
        have e1 : fatAddr (setFatEntry { st with next_cluster := st.next_cluster + 1 }
            st.next_cluster (st.next_cluster + 1)) 1
            ((setFatEntry { st with next_cluster := st.next_cluster + 1 }
              st.next_cluster (st.next_cluster + 1)).next_cluster + i) =
            fatAddr st 1 (st.next_cluster + (i + 1)) := by
          rw [fatAddr_congr st _ rfl rfl rfl]
          show fatAddr st 1 (st.next_cluster + 1 + i) =
            fatAddr st 1 (st.next_cluster + (i + 1))
          rw [show st.next_cluster + 1 + i = st.next_cluster + (i + 1) from by omega]
        rw [e0, e1]
        exact h
      rw [ih _ a hrec]
      rw [setFatEntry_untouched _ _ _ _ (by rw [c0]; omega) (by rw [c1]; omega)]

theorem setFatEntry_bytes (st : Fat16Formatter) (c v copy : Nat) (hc : copy < 2) :
    (setFatEntry st c v).image (fatAddr st copy c) = (le16 v).getD 0 0 ∧
    (setFatEntry st c v).image (fatAddr st copy c + 1) = (le16 v).getD 1 0 := by
  have h10 : fatAddr st 1 c = fatAddr st 0 c + fat_size st * 512 := by
    simp only [fatAddr, first_fat_sector, reserved_sectors]
    omega
  rcases (by omega : copy = 0 ∨ copy = 1) with h | h <;> subst h <;>
    refine ⟨?_, ?_⟩ <;> rw [setFatEntry_image] <;> split_ifs <;>
      first | rfl | (congr 1; omega) | omega

theorem allocateClustersGo_entry (n : Nat) : ∀ (st : Fat16Formatter) (i copy : Nat),
    i < n → copy < 2 → 2 * (st.next_cluster + n) ≤ fat_size st * 512 →
    (allocateClustersGo st n).image (fatAddr st copy (st.next_cluster + i)) =
      (le16 (if i + 1 = n then 0xFFFF else st.next_cluster + i + 1)).getD 0 0 ∧
    (allocateClustersGo st n).image (fatAddr st copy (st.next_cluster + i) + 1) =
      (le16 (if i + 1 = n then 0xFFFF else st.next_cluster + i + 1)).getD 1 0 := by
  induction n with
  | zero => intro st i copy hi; exact absurd hi (Nat.not_lt_zero i)
  | succ m ih =>
    intro st i copy hi hc hsep
    have hF10 : ∀ cl, fatAddr st 1 cl = fatAddr st 0 cl + fat_size st * 512 := by
      intro cl
      simp only [fatAddr, first_fat_sector, reserved_sectors]
      omega
    have hFstep : ∀ cp cl d, fatAddr st cp (cl + d) = fatAddr st cp cl + 2 * d := by
      intro cp cl d
      simp only [fatAddr]
      omega
    have hnc1 : (setFatEntry { st with next_cluster := st.next_cluster + 1 }
        st.next_cluster (st.next_cluster + 1)).next_cluster = st.next_cluster + 1 := rfl
    have hncF : (setFatEntry { st with next_cluster := st.next_cluster + 1 }
        st.next_cluster 0xFFFF).next_cluster = st.next_cluster + 1 := rfl
    simp only [allocateClustersGo]
    by_cases hm : m = 0
    · subst hm
      have hi0 : i = 0 := by omega
      subst hi0
      rw [if_pos rfl]
      simp only [allocateClustersGo]
      have e0 : fatAddr st copy (st.next_cluster + 0) =
          fatAddr { st with next_cluster := st.next_cluster + 1 } copy
            st.next_cluster := by
        rw [fatAddr_congr st { st with next_cluster := st.next_cluster + 1 }
          rfl rfl rfl, Nat.add_zero]
      rw [e0]
      simp only [reduceIte]
      exact setFatEntry_bytes _ _ _ copy hc
    · rw [if_neg hm]
      rcases i with _ | i'
      · -- the entry of the first cluster: written now, untouched by the recursion
        have hval : (if 0 + 1 = m + 1 then (0xFFFF : Nat)
            else st.next_cluster + 0 + 1) = st.next_cluster + 1 := by
          rw [if_neg (by omega), Nat.add_zero]
        rw [hval]
        have hunt : ∀ b, b = fatAddr st copy (st.next_cluster + 0) ∨
            b = fatAddr st copy (st.next_cluster + 0) + 1 →
            (allocateClustersGo (setFatEntry
              { st with next_cluster := st.next_cluster + 1 } st.next_cluster
              (st.next_cluster + 1)) m).image b =
            (setFatEntry { st with next_cluster := st.next_cluster + 1 }
              st.next_cluster (st.next_cluster + 1)).image b := by
          intro b hb
          apply allocateClustersGo_untouched
          intro j hj
          have ej0 : fatAddr (setFatEntry { st with next_cluster := st.next_cluster + 1 }
              st.next_cluster (st.next_cluster + 1)) 0
              ((setFatEntry { st with next_cluster := st.next_cluster + 1 }
                st.next_cluster (st.next_cluster + 1)).next_cluster + j) =
              fatAddr st 0 (st.next_cluster + (1 + j)) := by
            rw [fatAddr_congr st (setFatEntry
              { st with next_cluster := st.next_cluster + 1 } st.next_cluster
              (st.next_cluster + 1)) rfl rfl rfl, hnc1]
            rw [show st.next_cluster + 1 + j = st.next_cluster + (1 + j) from by omega]
          have ej1 : fatAddr (setFatEntry { st with next_cluster := st.next_cluster + 1 }
              st.next_cluster (st.next_cluster + 1)) 1
              ((setFatEntry { st with next_cluster := st.next_cluster + 1 }
                st.next_cluster (st.next_cluster + 1)).next_cluster + j) =
              fatAddr st 1 (st.next_cluster + (1 + j)) := by
            rw [fatAddr_congr st (setFatEntry
              { st with next_cluster := st.next_cluster + 1 } st.next_cluster
              (st.next_cluster + 1)) rfl rfl rfl, hnc1]
            rw [show st.next_cluster + 1 + j = st.next_cluster + (1 + j) from by omega]
          rw [ej0, ej1]
          have k0 := hFstep 0 st.next_cluster (1 + j)
          have k1 := hFstep 1 st.next_cluster (1 + j)
          have k2 := hF10 st.next_cluster
          have k3 := hF10 (st.next_cluster + (1 + j))
          rcases (by omega : copy = 0 ∨ copy = 1) with h | h <;> subst h <;>
            simp only [Nat.add_zero] at hb <;> rcases hb with hb | hb <;> subst hb <;>
              constructor <;> omega
        have e0 : fatAddr st copy (st.next_cluster + 0) =
            fatAddr { st with next_cluster := st.next_cluster + 1 } copy
              st.next_cluster := by
          rw [fatAddr_congr st { st with next_cluster := st.next_cluster + 1 }
            rfl rfl rfl, Nat.add_zero]
        refine ⟨?_, ?_⟩
        · rw [hunt _ (Or.inl rfl), e0]
          exact (setFatEntry_bytes _ _ _ copy hc).1
        · rw [hunt _ (Or.inr rfl), e0]
          exact (setFatEntry_bytes _ _ _ copy hc).2
      · -- a later entry: by the induction hypothesis on the advanced state
        have hsep2 : 2 * ((setFatEntry { st with next_cluster := st.next_cluster + 1 }
            st.next_cluster (st.next_cluster + 1)).next_cluster + m) ≤
            fat_size (setFatEntry { st with next_cluster := st.next_cluster + 1 }
              st.next_cluster (st.next_cluster + 1)) * 512 := by
          rw [hnc1, fat_size_congr st (setFatEntry
            { st with next_cluster := st.next_cluster + 1 } st.next_cluster
            (st.next_cluster + 1)) rfl rfl]
          omega
        have hIH := ih (setFatEntry { st with next_cluster := st.next_cluster + 1 }
          st.next_cluster (st.next_cluster + 1)) i' copy (by omega) hc hsep2
        have ea : fatAddr (setFatEntry { st with next_cluster := st.next_cluster + 1 }
            st.next_cluster (st.next_cluster + 1)) copy
            ((setFatEntry { st with next_cluster := st.next_cluster + 1 }
              st.next_cluster (st.next_cluster + 1)).next_cluster + i') =
            fatAddr st copy (st.next_cluster + (i' + 1)) := by
          rw [fatAddr_congr st (setFatEntry
            { st with next_cluster := st.next_cluster + 1 } st.next_cluster
            (st.next_cluster + 1)) rfl rfl rfl, hnc1]
          rw [show st.next_cluster + 1 + i' = st.next_cluster + (i' + 1) from by omega]
        have ev : (if i' + 1 = m then (0xFFFF : Nat)
            else (setFatEntry { st with next_cluster := st.next_cluster + 1 }
              st.next_cluster (st.next_cluster + 1)).next_cluster + i' + 1) =
            (if i' + 1 + 1 = m + 1 then (0xFFFF : Nat)
              else st.next_cluster + (i' + 1) + 1) := by
          rw [hnc1]
          split_ifs with h1 h2
          · rfl
          · omega
          · omega
          · omega
        rw [ea, ev] at hIH
        exact hIH

theorem writeSector_image (st : Fat16Formatter) (sec : Nat) (d : List Nat) (a : Nat) :
    (writeSector st sec d).image a =
      if (st.fs_start + sec) * 512 ≤ a ∧ a < (st.fs_start + sec) * 512 + d.length
      then d.getD (a - (st.fs_start + sec) * 512) 0 else st.image a := by
  simp only [writeSector, absSector, writeBytes]

theorem writeChunkSectorsGo_fields (chunk : List Nat) : ∀ (rem : Nat)
    (st : Fat16Formatter) (sector s : Nat),
    (writeChunkSectorsGo chunk st sector s rem).fs_start = st.fs_start ∧
    (writeChunkSectorsGo chunk st sector s rem).fs_sectors = st.fs_sectors ∧
    (writeChunkSectorsGo chunk st sector s rem).sectors_per_cluster =
      st.sectors_per_cluster ∧
    (writeChunkSectorsGo chunk st sector s rem).next_cluster = st.next_cluster ∧
    (writeChunkSectorsGo chunk st sector s rem).next_root_entry =
      st.next_root_entry ∧
    (writeChunkSectorsGo chunk st sector s rem).snc = st.snc := by
  intro rem
  induction rem with
  | zero => intro st sector s; exact ⟨rfl, rfl, rfl, rfl, rfl, rfl⟩
  | succ m ih =>
    intro st sector s
    simp only [writeChunkSectorsGo]
    split_ifs with h
    · exact ⟨rfl, rfl, rfl, rfl, rfl, rfl⟩
    · exact ih _ sector (s + 1)

theorem writeChunkSectorsGo_untouched (chunk : List Nat) : ∀ (rem : Nat)
    (st : Fat16Formatter) (sector s a : Nat),
    (a < (st.fs_start + sector) * 512 + s * 512 ∨
      (st.fs_start + sector) * 512 + (s + rem) * 512 ≤ a) →
    (writeChunkSectorsGo chunk st sector s rem).image a = st.image a := by
  intro rem
  induction rem with
  | zero => intro st sector s a _; rfl
  | succ m ih =>
    intro st sector s a ha
    simp only [writeChunkSectorsGo]
    split_ifs with h
    · rfl
    · have hlen : ((chunk.drop (s * 512)).take 512 ++
          List.replicate (512 - ((chunk.drop (s * 512)).take 512).length) 0).length
          = 512 := by
        simp only [List.length_append, List.length_take, List.length_drop,
          List.length_replicate]
        omega
      rw [ih _ sector (s + 1) a (by
        show a < (st.fs_start + sector) * 512 + (s + 1) * 512 ∨
          (st.fs_start + sector) * 512 + (s + 1 + m) * 512 ≤ a
        omega)]
      rw [writeSector_image, hlen, if_neg (by omega)]

theorem writeChunkSectorsGo_inside (chunk : List Nat) : ∀ (rem : Nat)
    (st : Fat16Formatter) (sector s j : Nat),
    s * 512 ≤ j → j < chunk.length → j < (s + rem) * 512 →
    (writeChunkSectorsGo chunk st sector s rem).image
      ((st.fs_start + sector) * 512 + j) = chunk.getD j 0 := by
  intro rem
  induction rem with
  | zero => intro st sector s j h1 h2 h3; omega
  | succ m ih =>
    intro st sector s j h1 h2 h3
    simp only [writeChunkSectorsGo]
    rw [if_neg (by omega)]
    have hsd : ((chunk.drop (s * 512)).take 512).length =
        min 512 (chunk.length - s * 512) := by
      simp only [List.length_take, List.length_drop]
    have hlen : ((chunk.drop (s * 512)).take 512 ++
        List.replicate (512 - ((chunk.drop (s * 512)).take 512).length) 0).length
        = 512 := by
      simp only [List.length_append, List.length_take, List.length_drop,
        List.length_replicate]
      omega
    by_cases hj : j < (s + 1) * 512
    · rw [writeChunkSectorsGo_untouched chunk m _ sector (s + 1)
        ((st.fs_start + sector) * 512 + j) (by
          show (st.fs_start + sector) * 512 + j <
              (st.fs_start + sector) * 512 + (s + 1) * 512 ∨
            (st.fs_start + sector) * 512 + (s + 1 + m) * 512 ≤
              (st.fs_start + sector) * 512 + j
          omega)]
      rw [writeSector_image, hlen, if_pos (by omega)]
      rw [show (st.fs_start + sector) * 512 + j - (st.fs_start + (sector + s)) * 512
        = j - s * 512 from by omega]
      rw [getD_append_left _ _ _ (by rw [hsd]; omega)]
      rw [getD_take _ _ _ (by omega), getD_drop]
      rw [show s * 512 + (j - s * 512) = j from by omega]
    · exact ih _ sector (s + 1) j (by omega) h2 (by omega)

theorem dataAddr_succ (st : Fat16Formatter) (c : Nat) (hc : 2 ≤ c) :
    dataAddr st (c + 1) = dataAddr st c + cluster_size st := by
  unfold dataAddr clusterToSector cluster_size
  rw [show c + 1 - 2 = (c - 2) + 1 from by omega, Nat.succ_mul]
  omega

theorem dataAddr_add (st : Fat16Formatter) (c : Nat) (hc : 2 ≤ c) : ∀ d,
    dataAddr st (c + d) = dataAddr st c + d * cluster_size st := by
  intro d
  induction d with
  | zero => simp
  | succ e ihe =>
    rw [show c + (e + 1) = (c + e) + 1 from by omega,
      dataAddr_succ st (c + e) (by omega), ihe, Nat.succ_mul]
    omega

theorem fatAddr_lt_dataAddr (st : Fat16Formatter) (c cl : Nat)
    (hcl : 2 ≤ cl) (hc : 2 * c + 2 ≤ fat_size st * 512) :
    fatAddr st 0 c + 2 ≤ dataAddr st cl := by
  unfold fatAddr dataAddr clusterToSector first_data_sector first_root_dir_sector
    first_fat_sector reserved_sectors num_fats root_dir_sectors root_entry_count
  omega

set_option maxRecDepth 100000 in
theorem writeToClustersGo_effect (data : List Nat) : ∀ (n : Nat)
    (st : Fat16Formatter) (f k N : Nat),
    0 < st.sectors_per_cluster →
    2 ≤ f →
    f + N ≤ 0xFFF8 →
    2 * (f + N) ≤ fat_size st * 512 →
    k < N →
    n = N - k →
    data.length ≤ N * cluster_size st →
    (N - 1) * cluster_size st < data.length →
    (∀ i, k ≤ i → i < N → readFat16 st 0 (f + i) =
      (if i + 1 = N then 0xFFFF else f + i + 1)) →
    ((writeToClustersGo data st (f + k) (k * cluster_size st) n).fs_start =
        st.fs_start ∧
      (writeToClustersGo data st (f + k) (k * cluster_size st) n).fs_sectors =
        st.fs_sectors ∧
      (writeToClustersGo data st (f + k) (k * cluster_size st) n).sectors_per_cluster =
        st.sectors_per_cluster ∧
      (writeToClustersGo data st (f + k) (k * cluster_size st) n).next_cluster =
        st.next_cluster ∧
      (writeToClustersGo data st (f + k) (k * cluster_size st) n).next_root_entry =
        st.next_root_entry ∧
      (writeToClustersGo data st (f + k) (k * cluster_size st) n).snc = st.snc) ∧
    (∀ k' j, k ≤ k' → k' * cluster_size st + j < data.length → j < cluster_size st →
      (writeToClustersGo data st (f + k) (k * cluster_size st) n).image
        (dataAddr st (f + k') + j) = data.getD (k' * cluster_size st + j) 0) ∧
    (∀ a, a < dataAddr st (f + k) ∨ dataAddr st (f + N) ≤ a →
      (writeToClustersGo data st (f + k) (k * cluster_size st) n).image a =
        st.image a) := by
  intro n
  induction n with
  | zero =>
    intro st f k N _ _ _ _ hk hn
    exact absurd hn (by omega)
  | succ m ih =>
    intro st f k N hspc hf2 hFFF8 hsep hk hn hLN1 hLN2 hchain
    have hcspos : 0 < cluster_size st := by
      unfold cluster_size
      omega
    have hkL : k * cluster_size st < data.length := by
      have h1 : k * cluster_size st ≤ (N - 1) * cluster_size st :=
        Nat.mul_le_mul_right _ (by omega)
      omega
    simp only [writeToClustersGo, writeChunkSectors]
    rw [if_pos hkL]
    -- facts about the chunk and the state after writing this cluster
    have hchunklen : ((data.drop (k * cluster_size st)).take (cluster_size st)).length =
        min (cluster_size st) (data.length - k * cluster_size st) := by
      simp only [List.length_take, List.length_drop]
    have hst1F := writeChunkSectorsGo_fields
      ((data.drop (k * cluster_size st)).take (cluster_size st))
      st.sectors_per_cluster st (clusterToSector st (f + k)) 0
    obtain ⟨g1, g2, g3, g4, g5, g6⟩ := hst1F
    have hst1_inside : ∀ j, j < cluster_size st →
        k * cluster_size st + j < data.length →
        (writeChunkSectorsGo ((data.drop (k * cluster_size st)).take (cluster_size st))
          st (clusterToSector st (f + k)) 0 st.sectors_per_cluster).image
          (dataAddr st (f + k) + j) =
        data.getD (k * cluster_size st + j) 0 := by
      intro j hj hjL
      have h := writeChunkSectorsGo_inside
        ((data.drop (k * cluster_size st)).take (cluster_size st))
        st.sectors_per_cluster st (clusterToSector st (f + k)) 0 j
        (by omega) (by rw [hchunklen]; omega)
        (by show j < (0 + st.sectors_per_cluster) * 512; unfold cluster_size at hj; omega)
      rw [getD_take _ _ _ hj, getD_drop] at h
      exact h
    have hst1_untouch : ∀ a, a < dataAddr st (f + k) ∨
        dataAddr st (f + k) + cluster_size st ≤ a →
        (writeChunkSectorsGo ((data.drop (k * cluster_size st)).take (cluster_size st))
          st (clusterToSector st (f + k)) 0 st.sectors_per_cluster).image a =
        st.image a := by
      intro a ha
      apply writeChunkSectorsGo_untouched
      show a < (st.fs_start + clusterToSector st (f + k)) * 512 + 0 * 512 ∨
        (st.fs_start + clusterToSector st (f + k)) * 512 +
          (0 + st.sectors_per_cluster) * 512 ≤ a
      unfold dataAddr cluster_size at ha
      omega
    by_cases hoff1 : k * cluster_size st + cluster_size st < data.length
    · -- more clusters follow: consult the FAT and recurse
      rw [if_pos hoff1]
      have hk1N : k + 1 < N := by
        by_contra hcon
        have h2 : N * cluster_size st ≤ (k + 1) * cluster_size st :=
          Nat.mul_le_mul_right _ (by omega)
        rw [Nat.succ_mul] at h2
        omega
      have hfatlt : ∀ i, i < N → fatAddr st 0 (f + i) + 2 ≤ dataAddr st (f + k) :=
        fun i hi => fatAddr_lt_dataAddr st (f + i) (f + k) (by omega) (by omega)
      have hfatread : get16 (readSector
          (writeChunkSectorsGo ((data.drop (k * cluster_size st)).take (cluster_size st))
            st (clusterToSector st (f + k)) 0 st.sectors_per_cluster)
          (first_fat_sector + (f + k) * 2 / 512)) ((f + k) * 2 % 512) =
          readFat16 st 0 (f + k) := by
        unfold get16 readSector readFat16
        rw [getD_readBytes _ _ _ _ (by omega), getD_readBytes _ _ _ _ (by omega)]
        have ha0 : absSector (writeChunkSectorsGo
            ((data.drop (k * cluster_size st)).take (cluster_size st))
            st (clusterToSector st (f + k)) 0 st.sectors_per_cluster)
            (first_fat_sector + (f + k) * 2 / 512) * 512 + (f + k) * 2 % 512 =
            fatAddr st 0 (f + k) := by
          unfold absSector fatAddr first_fat_sector reserved_sectors
          rw [g1]
          omega
        rw [ha0, show absSector (writeChunkSectorsGo
            ((data.drop (k * cluster_size st)).take (cluster_size st))
            st (clusterToSector st (f + k)) 0 st.sectors_per_cluster)
            (first_fat_sector + (f + k) * 2 / 512) * 512 + ((f + k) * 2 % 512 + 1) =
            fatAddr st 0 (f + k) + 1 from by
          unfold absSector fatAddr first_fat_sector reserved_sectors
          rw [g1]
          omega]
        rw [hst1_untouch _ (Or.inl (by have := hfatlt k (by omega); omega)),
          hst1_untouch _ (Or.inl (by have := hfatlt k (by omega); omega))]
      have hsucc : get16 (readSector
          (writeChunkSectorsGo ((data.drop (k * cluster_size st)).take (cluster_size st))
            st (clusterToSector st (f + k)) 0 st.sectors_per_cluster)
          (first_fat_sector + (f + k) * 2 / 512)) ((f + k) * 2 % 512) = f + k + 1 := by
        rw [hfatread, hchain k (le_refl k) (by omega), if_neg (by omega)]
      rw [hsucc, if_neg (by omega)]
      -- apply the induction hypothesis at the advanced state
      have hrw1 : f + k + 1 = f + (k + 1) := by omega
      have hrw2 : k * cluster_size st + cluster_size st =
          (k + 1) * cluster_size (writeChunkSectorsGo
            ((data.drop (k * cluster_size st)).take (cluster_size st))
            st (clusterToSector st (f + k)) 0 st.sectors_per_cluster) := by
        rw [cluster_size_congr st _ g3, Nat.succ_mul]
      rw [hrw1, hrw2]
      have hcs1 : cluster_size (writeChunkSectorsGo
          ((data.drop (k * cluster_size st)).take (cluster_size st))
          st (clusterToSector st (f + k)) 0 st.sectors_per_cluster) =
          cluster_size st := cluster_size_congr st _ g3
      have hda1 : ∀ c, dataAddr (writeChunkSectorsGo
          ((data.drop (k * cluster_size st)).take (cluster_size st))
          st (clusterToSector st (f + k)) 0 st.sectors_per_cluster) c =
          dataAddr st c := dataAddr_congr st _ g1 g2 g3
      have hfa1 : ∀ copy c, fatAddr (writeChunkSectorsGo
          ((data.drop (k * cluster_size st)).take (cluster_size st))
          st (clusterToSector st (f + k)) 0 st.sectors_per_cluster) copy c =
          fatAddr st copy c := fatAddr_congr st _ g1 g2 g3
      obtain ⟨ihF, ihA, ihB⟩ := ih (writeChunkSectorsGo
          ((data.drop (k * cluster_size st)).take (cluster_size st))
          st (clusterToSector st (f + k)) 0 st.sectors_per_cluster) f (k + 1) N
        (by rw [g3]; exact hspc) hf2 hFFF8
        (by rw [fat_size_congr st _ g2 g3]; exact hsep)
        hk1N (by omega) (by rw [hcs1]; exact hLN1) (by rw [hcs1]; exact hLN2)
        (by
          intro i hi1 hi2
          unfold readFat16
          rw [hfa1]
          rw [hst1_untouch _ (Or.inl (by have := hfatlt i hi2; omega)),
            hst1_untouch _ (Or.inl (by have := hfatlt i hi2; omega))]
          exact hchain i (by omega) hi2)
      refine ⟨⟨ihF.1.trans g1, ihF.2.1.trans g2, ihF.2.2.1.trans g3,
        ihF.2.2.2.1.trans g4, ihF.2.2.2.2.1.trans g5, ihF.2.2.2.2.2.trans g6⟩,
        ?_, ?_⟩
      · intro k' j hkk' hk'L hjc
        rcases Nat.lt_or_ge k' (k + 1) with hlt | hge
        · have hk'' : k' = k := by omega
          subst hk''
          rw [ihB _ (Or.inl (by
            rw [hda1, show f + (k' + 1) = f + k' + 1 from by omega,
              dataAddr_succ st (f + k') (by omega)]
            omega))]
          exact hst1_inside j hjc (by omega)
        · have h := ihA k' j hge (by rw [hcs1]; exact hk'L) (by rw [hcs1]; exact hjc)
          rw [hda1 (f + k')] at h
          nth_rewrite 2 [hcs1] at h
          exact h
      · intro a ha
        rw [ihB a (by
          rw [hda1, hda1, show f + (k + 1) = f + k + 1 from by omega,
            dataAddr_succ st (f + k) (by omega)]
          rcases ha with ha | ha
          · exact Or.inl (by omega)
          · right
            have hNk : dataAddr st (f + N) =
                dataAddr st (f + k + 1) + (N - (k + 1)) * cluster_size st := by
              rw [show f + N = f + k + 1 + (N - (k + 1)) from by omega]
              exact dataAddr_add st (f + k + 1) (by omega) (N - (k + 1))
            rw [dataAddr_succ st (f + k) (by omega)] at hNk
            omega)]
        apply hst1_untouch a
        rcases ha with ha | ha
        · exact Or.inl ha
        · right
          have hNk : dataAddr st (f + N) =
              dataAddr st (f + k) + (N - k) * cluster_size st := by
            rw [show f + N = f + k + (N - k) from by omega]
            exact dataAddr_add st (f + k) (by omega) (N - k)
          have hge1 : cluster_size st ≤ (N - k) * cluster_size st :=
            Nat.le_mul_of_pos_left _ (by omega)
          omega
    · -- this is the last cluster
      rw [if_neg hoff1]
      have hkN : k + 1 = N := by
        by_contra hcon
        have h2 : (k + 1) * cluster_size st ≤ (N - 1) * cluster_size st :=
          Nat.mul_le_mul_right _ (by omega)
        rw [Nat.succ_mul] at h2
        omega
      refine ⟨⟨g1, g2, g3, g4, g5, g6⟩, ?_, ?_⟩
      · intro k' j hkk' hk'L hjc
        have hk'' : k' = k := by
          by_contra hcon
          have h2 : (k + 1) * cluster_size st ≤ k' * cluster_size st :=
            Nat.mul_le_mul_right _ (by omega)
          rw [Nat.succ_mul] at h2
          omega
        subst hk''
        exact hst1_inside j hjc (by omega)
      · intro a ha
        apply hst1_untouch a
        rcases ha with ha | ha
        · exact Or.inl ha
        · right
          rw [show f + N = (f + k) + 1 from by omega,
            dataAddr_succ st (f + k) (by omega)] at ha
          omega

theorem writeRootEntryAt_fields (st : Fat16Formatter) (index : Nat)
    (entryData : List Nat) :
    (writeRootEntryAt st index entryData).fs_start = st.fs_start ∧
    (writeRootEntryAt st index entryData).fs_sectors = st.fs_sectors ∧
    (writeRootEntryAt st index entryData).sectors_per_cluster =
      st.sectors_per_cluster ∧
    (writeRootEntryAt st index entryData).next_cluster = st.next_cluster ∧
    (writeRootEntryAt st index entryData).next_root_entry = st.next_root_entry ∧
    (writeRootEntryAt st index entryData).snc = st.snc :=
  ⟨rfl, rfl, rfl, rfl, rfl, rfl⟩

set_option maxRecDepth 40000 in
/-- Net effect of `_write_root_entry_at` with a 32-byte entry: exactly the 32
bytes of the slot change. -/
theorem writeRootEntryAt_image (st : Fat16Formatter) (index : Nat)
    (entryData : List Nat) (a : Nat) (hlen : entryData.length = 32) :
    (writeRootEntryAt st index entryData).image a =
      if rootSlotAddr st index ≤ a ∧ a < rootSlotAddr st index + 32
      then entryData.getD (a - rootSlotAddr st index) 0 else st.image a := by
  simp only [writeRootEntryAt, writeSector, readSector]
  rw [writeBytes_rmw _ _ 512 _ _ (by rw [hlen]; omega)]
  rw [hlen]
  simp only [absSector, rootSlotAddr]
  split_ifs <;> first | rfl | (congr 1; omega) | omega

/-- `add_root_dir_entry` on a name that needs no LFN entries: a single 8.3
entry is written at the next root slot. -/
theorem addRootDirEntry_noLfn (st : Fat16Formatter) (filename : List Nat)
    (fc fsz : Nat) (isDir : Bool) (hlfn : needsLfn filename = false) :
    addRootDirEntry st filename fc fsz isDir =
      { writeRootEntryAt st st.next_root_entry
          (entry83 (make83Name filename) (if isDir then 0x10 else 0x20) fc
            (if isDir then 0 else fsz)) with
        next_root_entry := st.next_root_entry + 1 } := by
  simp only [addRootDirEntry, hlfn, Bool.false_eq_true, if_false]
  rfl

theorem make83Name_length (filename : List Nat) :
    (make83Name filename).length = 11 := by
  unfold make83Name
  cases hdot : lastDotIdx (filename.map upcase16) <;>
    simp [List.length_append, List.length_take, List.length_replicate] <;> omega

theorem entry83_length (name83 : List Nat) (attr fc fsz : Nat)
    (h : name83.length = 11) :
    (entry83 name83 attr fc fsz).length = 32 := by
  simp [entry83, le16, le32, h]

theorem entry83_tail (name83 : List Nat) (attr fc fsz : Nat) (h : name83.length = 11) :
    (entry83 name83 attr fc fsz).getD 26 0 = fc % 65536 % 256 ∧
    (entry83 name83 attr fc fsz).getD 27 0 = fc % 65536 / 256 % 256 ∧
    (entry83 name83 attr fc fsz).getD 28 0 = fsz % 256 ∧
    (entry83 name83 attr fc fsz).getD 29 0 = fsz / 256 % 256 ∧
    (entry83 name83 attr fc fsz).getD 30 0 = fsz / 65536 % 256 ∧
    (entry83 name83 attr fc fsz).getD 31 0 = fsz / 16777216 % 256 := by
  unfold entry83
  refine ⟨?_, ?_, ?_, ?_, ?_, ?_⟩ <;>
    rw [getD_append_right_sub name83 _ _ 11 h (by omega),
      getD_append_right_sub [attr] _ _ 1 rfl (by omega),
      getD_append_right_sub (List.replicate 8 0) _ _ 8 rfl (by omega),
      getD_append_right_sub (le16 0) _ _ 2 rfl (by omega),
      getD_append_right_sub (List.replicate 4 0) _ _ 4 rfl (by omega)] <;>
    first
      | (rw [getD_append_left _ _ _ (by rw [le16_length]; omega)]; rfl)
      | (rw [getD_append_right_sub _ _ _ 2 (le16_length _) (by omega)]; rfl)

theorem fatAddr_lt_rootSlotAddr (st : Fat16Formatter) (c copy idx : Nat)
    (hcopy : copy < 2) (h : 2 * c + 2 ≤ fat_size st * 512) :
    fatAddr st copy c + 2 ≤ rootSlotAddr st idx := by
  rcases (by omega : copy = 0 ∨ copy = 1) with hc | hc <;> subst hc <;>
    (unfold fatAddr rootSlotAddr first_root_dir_sector first_fat_sector
      reserved_sectors num_fats
     omega)

theorem rootSlotAddr_lt_dataAddr (st : Fat16Formatter) (idx cl : Nat)
    (hidx : idx < 512) (hcl : 2 ≤ cl) :
    rootSlotAddr st idx + 32 ≤ dataAddr st cl := by
  unfold rootSlotAddr dataAddr clusterToSector first_data_sector
    first_root_dir_sector reserved_sectors num_fats
    root_dir_sectors root_entry_count
  omega

/-- Read the cluster chain of the written FAT (copy 0), starting at `c`,
following successor entries until an end-of-chain value (≥ 0xFFF8). -/
def fatChain (st : Fat16Formatter) : Nat → Nat → List Nat
  | 0, _ => []
  | fuel + 1, c =>
    if 0xFFF8 ≤ readFat16 st 0 c then [c]
    else c :: fatChain st fuel (readFat16 st 0 c)

theorem fatChain_range' (st : Fat16Formatter) : ∀ (n f : Nat),
    0 < n →
    (∀ i, i + 1 < n → readFat16 st 0 (f + i) = f + i + 1) →
    readFat16 st 0 (f + (n - 1)) = 0xFFFF →
    (∀ i, i + 1 < n → f + i + 1 < 0xFFF8) →
    fatChain st n f = List.range' f n := by
  intro n
  induction n with
  | zero => intro f hpos; exact absurd hpos (by omega)
  | succ m ihn =>
    intro f hpos hsucc hterm hlt
    simp only [fatChain]
    by_cases hm : m = 0
    · subst hm
      have h0 : readFat16 st 0 f = 0xFFFF := by
        have h := hterm
        rw [show f + (0 + 1 - 1) = f from by omega] at h
        exact h
      rw [h0, if_pos (by omega)]
      rfl
    · have h0 : readFat16 st 0 f = f + 1 := by
        have h := hsucc 0 (by omega)
        rw [Nat.add_zero] at h
        exact h
      rw [h0, if_neg (by
        have h := hlt 0 (by omega)
        rw [Nat.add_zero] at h
        omega)]
      rw [List.range'_succ]
      congr 1
      apply ihn (f + 1) (by omega)
      · intro i hi
        have h := hsucc (i + 1) (by omega)
        rw [show f + (i + 1) = f + 1 + i from by omega] at h
        exact h
      · have h := hterm
        rw [show f + (m + 1 - 1) = f + 1 + (m - 1) from by omega] at h
        exact h
      · intro i hi
        have h := hlt (i + 1) (by omega)
        rw [show f + (i + 1) + 1 = f + 1 + i + 1 from by omega] at h
        exact h

theorem fat16_update_nre_image (st : Fat16Formatter) (n : Nat) :
    ({ st with next_root_entry := n }).image = st.image := rfl

theorem fat16_le16_sum (v : Nat) (hv : v < 65536) :
    (le16 v).getD 0 0 + 256 * (le16 v).getD 1 0 = v := by
  show v % 256 + 256 * (v / 256 % 256) = v
  omega

end Fat16Formatter


/-- A concrete 2 MiB FAT16 volume (4096 sectors, 1 sector per cluster) in its
freshly formatted state. -/
def fat16WitnessState : Fat16Formatter :=
  { image := fun _ => 0, fs_start := 0, fs_sectors := 4096,
    sectors_per_cluster := 1, next_cluster := 2, next_root_entry := 0, snc := [] }

/-! ### Length lemmas for the VFAT long-file-name machinery -/

theorem decimalDigits_length_le : ∀ (d : Nat), 1 ≤ d → ∀ n, n < 10 ^ d →
    (decimalDigits n).length ≤ d := by
  intro d
  induction d with
  | zero => intro h; omega
  | succ e ihe =>
    intro _ n hn
    by_cases h10 : n < 10
    · rw [decimalDigits, dif_pos h10]
      simp
    · rw [decimalDigits, dif_neg h10]
      rw [List.length_append]
      have he : 1 ≤ e := by
        by_contra hc
        have he0 : e = 0 := by omega
        subst he0
        have : (10 : Nat) ^ (0 + 1) = 10 := by norm_num
        omega
      have hpow : (10 : Nat) ^ (e + 1) = 10 ^ e * 10 := pow_succ 10 e
      have hd : n / 10 < 10 ^ e := by omega
      have hrec := ihe he (n / 10) hd
      simp only [List.length_cons, List.length_nil]
      omega

theorem sncGet_succ_lt (counters : List ((List Nat × List Nat) × Nat))
    (hsnc : ∀ key, sncGet counters key < 9999999) (key : List Nat × List Nat) :
    sncGet counters key + 1 < 10 ^ 7 := by
  have h1 := hsnc key
  have h2 : (10 : Nat) ^ 7 = 10000000 := by norm_num
  omega

theorem padTo_length (l : List Nat) (n : Nat) (h : l.length ≤ n) :
    (l ++ List.replicate (n - l.length) 0x20).length = n := by
  simp only [List.length_append, List.length_replicate]
  omega

theorem min_tail_bound (D M : Nat) (hD : D ≤ 7) :
    min (8 - (D + 1)) M + (D + 1) ≤ 8 := by omega

theorem generateShortName_length (counters : List ((List Nat × List Nat) × Nat))
    (filename : List Nat) (hsnc : ∀ key, sncGet counters key < 9999999) :
    ((generateShortName counters filename).1).length = 11 := by
  simp only [generateShortName]
  rw [List.length_append, padTo_length, padTo_length]
  · simp only [List.length_take]
    omega
  · simp only [List.length_append, List.length_take, List.length_cons]
    exact min_tail_bound _ _
      (decimalDigits_length_le 7 (by omega) _ (sncGet_succ_lt counters hsnc _))

theorem lfnChars_length (u : List Nat) (seq : Nat) : (lfnChars u seq).length = 13 := by
  simp [lfnChars]

theorem flatMap_le16_length : ∀ (l : List Nat), (l.flatMap le16).length = 2 * l.length := by
  intro l
  induction l with
  | nil => rfl
  | cons x xs ih =>
    simp only [List.flatMap_cons, List.length_append, ih, le16_length, List.length_cons]
    omega

theorem lfnEntry_length (u : List Nat) (chk seq ne : Nat) :
    (lfnEntry u chk seq ne).length = 32 := by
  simp only [lfnEntry, List.length_append, List.length_cons, List.length_nil,
    flatMap_le16_length, List.length_take, List.length_drop, lfnChars_length]
  omega

theorem makeLfnEntries_mem_length (fn n83 e : List Nat)
    (he : e ∈ makeLfnEntries fn n83) : e.length = 32 := by
  simp only [makeLfnEntries, List.mem_reverse, List.mem_map] at he
  obtain ⟨k, _, hk⟩ := he
  rw [← hk]
  exact lfnEntry_length _ _ _ _

theorem flatten_length_mul32 : ∀ (ls : List (List Nat)),
    (∀ e ∈ ls, e.length = 32) → ls.flatten.length = ls.length * 32 := by
  intro ls
  induction ls with
  | nil => intro _; rfl
  | cons x xs ih =>
    intro h
    simp only [List.flatten_cons, List.length_append, List.length_cons]
    rw [h x (by simp), ih (fun e he => h e (by simp [he]))]
    omega

namespace Fat16Formatter

theorem rootSlotAddr_add (st : Fat16Formatter) (i d : Nat) :
    rootSlotAddr st (i + d) = rootSlotAddr st i + d * 32 := by
  unfold rootSlotAddr
  omega

theorem rootFold_fields : ∀ (es : List (List Nat)) (acc : Fat16Formatter),
    ((es.foldl (fun acc e =>
        let acc2 := writeRootEntryAt acc acc.next_root_entry e
        { acc2 with next_root_entry := acc2.next_root_entry + 1 }) acc)).fs_start =
      acc.fs_start ∧
    ((es.foldl (fun acc e =>
        let acc2 := writeRootEntryAt acc acc.next_root_entry e
        { acc2 with next_root_entry := acc2.next_root_entry + 1 }) acc)).fs_sectors =
      acc.fs_sectors ∧
    ((es.foldl (fun acc e =>
        let acc2 := writeRootEntryAt acc acc.next_root_entry e
        { acc2 with next_root_entry := acc2.next_root_entry + 1 }) acc)).sectors_per_cluster =
      acc.sectors_per_cluster ∧
    ((es.foldl (fun acc e =>
        let acc2 := writeRootEntryAt acc acc.next_root_entry e
        { acc2 with next_root_entry := acc2.next_root_entry + 1 }) acc)).next_cluster =
      acc.next_cluster ∧
    ((es.foldl (fun acc e =>
        let acc2 := writeRootEntryAt acc acc.next_root_entry e
        { acc2 with next_root_entry := acc2.next_root_entry + 1 }) acc)).next_root_entry =
      acc.next_root_entry + es.length ∧
    ((es.foldl (fun acc e =>
        let acc2 := writeRootEntryAt acc acc.next_root_entry e
        { acc2 with next_root_entry := acc2.next_root_entry + 1 }) acc)).snc = acc.snc := by
  intro es
  induction es with
  | nil => intro acc; exact ⟨rfl, rfl, rfl, rfl, rfl, rfl⟩
  | cons e es' ih =>
    intro acc
    rw [List.foldl_cons]
    obtain ⟨a1, a2, a3, a4, a5, a6⟩ := ih
      { writeRootEntryAt acc acc.next_root_entry e with
        next_root_entry := (writeRootEntryAt acc acc.next_root_entry e).next_root_entry + 1 }
    refine ⟨?_, ?_, ?_, ?_, ?_, ?_⟩
    · rw [a1]; rfl
    · rw [a2]; rfl
    · rw [a3]; rfl
    · rw [a4]; rfl
    · rw [a5]
      show acc.next_root_entry + 1 + es'.length = acc.next_root_entry + (es'.length + 1)
      omega
    · rw [a6]; rfl

theorem rootFold_untouched : ∀ (es : List (List Nat)) (acc : Fat16Formatter) (a : Nat),
    (∀ e ∈ es, e.length = 32) →
    (a < rootSlotAddr acc acc.next_root_entry ∨
      rootSlotAddr acc acc.next_root_entry + es.length * 32 ≤ a) →
    ((es.foldl (fun acc e =>
        let acc2 := writeRootEntryAt acc acc.next_root_entry e
        { acc2 with next_root_entry := acc2.next_root_entry + 1 }) acc)).image a =
      acc.image a := by
  intro es
  induction es with
  | nil => intro acc a _ _; rfl
  | cons e es' ih =>
    intro acc a h32 ha
    rw [List.foldl_cons]
    have hsucc : rootSlotAddr acc (acc.next_root_entry + 1) =
        rootSlotAddr acc acc.next_root_entry + 32 := by
      rw [rootSlotAddr_add]
    have hcong : rootSlotAddr
        { writeRootEntryAt acc acc.next_root_entry e with
          next_root_entry := (writeRootEntryAt acc acc.next_root_entry e).next_root_entry + 1 }
        (acc.next_root_entry + 1) = rootSlotAddr acc (acc.next_root_entry + 1) :=
      rootSlotAddr_congr acc _ rfl rfl rfl _
    rw [ih _ a (fun x hx => h32 x (by simp [hx])) (by
      show a < rootSlotAddr
          { writeRootEntryAt acc acc.next_root_entry e with
            next_root_entry :=
              (writeRootEntryAt acc acc.next_root_entry e).next_root_entry + 1 }
          (acc.next_root_entry + 1) ∨
        rootSlotAddr
          { writeRootEntryAt acc acc.next_root_entry e with
            next_root_entry :=
              (writeRootEntryAt acc acc.next_root_entry e).next_root_entry + 1 }
          (acc.next_root_entry + 1) + es'.length * 32 ≤ a
      rw [hcong, hsucc]
      simp only [List.length_cons] at ha
      omega)]
    rw [fat16_update_nre_image,
      writeRootEntryAt_image _ _ _ a (h32 e (by simp)),
      if_neg (by simp only [List.length_cons] at ha; omega)]

/-- One iteration of the LFN-entry loop of `add_root_dir_entry` (lines
430–439): write the entry at the next root slot and advance the slot
counter. -/
def lfnFoldStep : Fat16Formatter → List Nat → Fat16Formatter :=
  fun acc e =>
    let acc2 := writeRootEntryAt acc acc.next_root_entry e
    { acc2 with next_root_entry := acc2.next_root_entry + 1 }

theorem rootFold_fields' (es : List (List Nat)) (acc : Fat16Formatter) :
    (es.foldl lfnFoldStep acc).fs_start = acc.fs_start ∧
    (es.foldl lfnFoldStep acc).fs_sectors = acc.fs_sectors ∧
    (es.foldl lfnFoldStep acc).sectors_per_cluster = acc.sectors_per_cluster ∧
    (es.foldl lfnFoldStep acc).next_cluster = acc.next_cluster ∧
    (es.foldl lfnFoldStep acc).next_root_entry = acc.next_root_entry + es.length ∧
    (es.foldl lfnFoldStep acc).snc = acc.snc :=
  rootFold_fields es acc

theorem rootFold_untouched' (es : List (List Nat)) (acc : Fat16Formatter) (a : Nat)
    (h32 : ∀ e ∈ es, e.length = 32)
    (ha : a < rootSlotAddr acc acc.next_root_entry ∨
      rootSlotAddr acc acc.next_root_entry + es.length * 32 ≤ a) :
    (es.foldl lfnFoldStep acc).image a = acc.image a :=
  rootFold_untouched es acc a h32 ha

/-- The short 8.3 alias that `add_root_dir_entry`/`add_subdir_entry` use for a
name that needs LFN entries. -/
def lfnShortName (st : Fat16Formatter) (filename : List Nat) : List Nat :=
  (generateShortName st.snc filename).1

/-- The state of `add_root_dir_entry` after the LFN entries have been written
(collision counters updated, LFN slots filled). -/
def lfnFoldState (st : Fat16Formatter) (filename : List Nat) : Fat16Formatter :=
  (makeLfnEntries filename (lfnShortName st filename)).foldl lfnFoldStep
    { st with snc := (generateShortName st.snc filename).2 }

/-- The result of `add_root_dir_entry` on a name that needs LFN entries, with
the three stages written out. -/
def addRootDirEntryLfn (st : Fat16Formatter) (filename : List Nat) (fc fsz : Nat)
    (isDir : Bool) : Fat16Formatter :=
  { writeRootEntryAt (lfnFoldState st filename)
      (lfnFoldState st filename).next_root_entry
      (entry83 (lfnShortName st filename) (if isDir then 0x10 else 0x20) fc
        (if isDir then 0 else fsz)) with
    next_root_entry := (writeRootEntryAt (lfnFoldState st filename)
      (lfnFoldState st filename).next_root_entry
      (entry83 (lfnShortName st filename) (if isDir then 0x10 else 0x20) fc
        (if isDir then 0 else fsz))).next_root_entry + 1 }

theorem addRootDirEntry_eq_lfn (st : Fat16Formatter) (filename : List Nat)
    (fc fsz : Nat) (isDir : Bool) (hl : needsLfn filename = true) :
    addRootDirEntry st filename fc fsz isDir =
      addRootDirEntryLfn st filename fc fsz isDir := by
  simp only [addRootDirEntry]
  rw [hl]
  rfl

set_option maxRecDepth 40000 in
theorem addRootDirEntryLfn_effect (st : Fat16Formatter) (filename : List Nat)
    (fc fsz : Nat) (isDir : Bool) (hsnc : ∀ key, sncGet st.snc key < 9999999) :
    (addRootDirEntryLfn st filename fc fsz isDir).fs_start = st.fs_start ∧
    (addRootDirEntryLfn st filename fc fsz isDir).fs_sectors = st.fs_sectors ∧
    (addRootDirEntryLfn st filename fc fsz isDir).sectors_per_cluster =
      st.sectors_per_cluster ∧
    (addRootDirEntryLfn st filename fc fsz isDir).next_cluster = st.next_cluster ∧
    (addRootDirEntryLfn st filename fc fsz isDir).next_root_entry =
      st.next_root_entry + ((filename.length + 12) / 13 + 1) ∧
    (∀ a, a < rootSlotAddr st st.next_root_entry ∨
        rootSlotAddr st st.next_root_entry +
          ((filename.length + 12) / 13 + 1) * 32 ≤ a →
      (addRootDirEntryLfn st filename fc fsz isDir).image a = st.image a) ∧
    (∀ off, off < 32 →
      (addRootDirEntryLfn st filename fc fsz isDir).image
          (rootSlotAddr st (st.next_root_entry + (filename.length + 12) / 13) + off) =
        (entry83 (lfnShortName st filename) (if isDir then 0x10 else 0x20) fc
          (if isDir then 0 else fsz)).getD off 0) := by
  have h11 : (lfnShortName st filename).length = 11 :=
    generateShortName_length _ _ hsnc
  have hE : (entry83 (lfnShortName st filename) (if isDir then 0x10 else 0x20) fc
      (if isDir then 0 else fsz)).length = 32 := entry83_length _ _ _ _ h11
  obtain ⟨b1, b2, b3, b4, b5, b6⟩ := rootFold_fields'
    (makeLfnEntries filename (lfnShortName st filename))
    { st with snc := (generateShortName st.snc filename).2 }
  have b1' : (lfnFoldState st filename).fs_start = st.fs_start := b1
  have b2' : (lfnFoldState st filename).fs_sectors = st.fs_sectors := b2
  have b3' : (lfnFoldState st filename).sectors_per_cluster =
    st.sectors_per_cluster := b3
  have b4' : (lfnFoldState st filename).next_cluster = st.next_cluster := b4
  have hnre2 : (lfnFoldState st filename).next_root_entry =
      st.next_root_entry + (filename.length + 12) / 13 := by
    have h := b5
    rw [makeLfnEntries_length] at h
    exact h
  have hslot2 : ∀ idx, rootSlotAddr (lfnFoldState st filename) idx =
      rootSlotAddr st idx := fun idx => rootSlotAddr_congr st _ b1' b2' b3' idx
  have hlin := rootSlotAddr_add st st.next_root_entry ((filename.length + 12) / 13)
  refine ⟨b1', b2', b3', b4', ?_, ?_, ?_⟩
  · show (writeRootEntryAt (lfnFoldState st filename)
        (lfnFoldState st filename).next_root_entry
        (entry83 (lfnShortName st filename) (if isDir then 0x10 else 0x20) fc
          (if isDir then 0 else fsz))).next_root_entry + 1 =
      st.next_root_entry + ((filename.length + 12) / 13 + 1)
    rw [(writeRootEntryAt_fields _ _ _).2.2.2.2.1, hnre2]
    omega
  · intro a ha
    simp only [addRootDirEntryLfn]
    rw [fat16_update_nre_image, writeRootEntryAt_image _ _ _ a hE, hslot2, hnre2]
    rw [if_neg (by omega)]
    have hmem : ∀ e ∈ makeLfnEntries filename (lfnShortName st filename),
        e.length = 32 := fun e he => makeLfnEntries_mem_length _ _ _ he
    have hu := rootFold_untouched'
      (makeLfnEntries filename (lfnShortName st filename))
      { st with snc := (generateShortName st.snc filename).2 } a hmem
      (by
        show a < rootSlotAddr st st.next_root_entry ∨
          rootSlotAddr st st.next_root_entry +
            (makeLfnEntries filename (lfnShortName st filename)).length * 32 ≤ a
        rw [makeLfnEntries_length]
        omega)
    exact hu
  · intro off hoff
    simp only [addRootDirEntryLfn]
    rw [fat16_update_nre_image, writeRootEntryAt_image _ _ _ _ hE, hslot2, hnre2]
    rw [if_pos (by omega)]
    rw [show rootSlotAddr st (st.next_root_entry + (filename.length + 12) / 13) + off -
      rootSlotAddr st (st.next_root_entry + (filename.length + 12) / 13) = off
      from by omega]

set_option maxRecDepth 40000 in
/-- The full effect of `add_root_dir_entry` on any name (LFN or plain 8.3),
given that the collision counters are below the seven-digit bound the short
name format can hold: the geometry and `next_cluster` are untouched,
`next_root_entry` advances by the number of slots used, bytes outside the
written slot band are unchanged, and the final slot holds the 8.3 entry with
the given first cluster and size. -/
theorem addRootDirEntry_effect (st : Fat16Formatter) (filename : List Nat)
    (fc fsz : Nat) (isDir : Bool) (hsnc : ∀ key, sncGet st.snc key < 9999999) :
    (addRootDirEntry st filename fc fsz isDir).fs_start = st.fs_start ∧
    (addRootDirEntry st filename fc fsz isDir).fs_sectors = st.fs_sectors ∧
    (addRootDirEntry st filename fc fsz isDir).sectors_per_cluster =
      st.sectors_per_cluster ∧
    (addRootDirEntry st filename fc fsz isDir).next_cluster = st.next_cluster ∧
    (addRootDirEntry st filename fc fsz isDir).next_root_entry =
      st.next_root_entry + slotsNeeded filename ∧
    (∀ a, a < rootSlotAddr st st.next_root_entry ∨
        rootSlotAddr st st.next_root_entry + slotsNeeded filename * 32 ≤ a →
      (addRootDirEntry st filename fc fsz isDir).image a = st.image a) ∧
    (∃ name83 : List Nat, name83.length = 11 ∧ ∀ off, off < 32 →
      (addRootDirEntry st filename fc fsz isDir).image
          (rootSlotAddr st (st.next_root_entry + (slotsNeeded filename - 1)) + off) =
        (entry83 name83 (if isDir then 0x10 else 0x20) fc
          (if isDir then 0 else fsz)).getD off 0) := by
  by_cases hl : needsLfn filename = true
  · obtain ⟨c1, c2, c3, c4, c5, c6, c7⟩ :=
      addRootDirEntryLfn_effect st filename fc fsz isDir hsnc
    rw [addRootDirEntry_eq_lfn st filename fc fsz isDir hl]
    unfold slotsNeeded
    rw [hl]
    simp only [reduceIte]
    refine ⟨c1, c2, c3, c4, c5, c6,
      ⟨lfnShortName st filename, generateShortName_length _ _ hsnc, ?_⟩⟩
    rw [show (filename.length + 12) / 13 + 1 - 1 = (filename.length + 12) / 13
      from by omega]
    exact c7
  · have hl' : needsLfn filename = false := by
      rw [Bool.not_eq_true] at hl
      exact hl
    have h11 := make83Name_length filename
    have hE : (entry83 (make83Name filename) (if isDir then 0x10 else 0x20) fc
        (if isDir then 0 else fsz)).length = 32 := entry83_length _ _ _ _ h11
    have hs : slotsNeeded filename = 1 := by simp [slotsNeeded, hl']
    rw [addRootDirEntry_noLfn st filename fc fsz isDir hl', hs]
    refine ⟨rfl, rfl, rfl, rfl, ?_, ?_, ⟨make83Name filename, h11, ?_⟩⟩
    · show (writeRootEntryAt st st.next_root_entry
          (entry83 (make83Name filename) (if isDir then 0x10 else 0x20) fc
            (if isDir then 0 else fsz))).next_root_entry + 1 =
        st.next_root_entry + 1
      rw [(writeRootEntryAt_fields _ _ _).2.2.2.2.1]
    · intro a ha
      rw [fat16_update_nre_image, writeRootEntryAt_image _ _ _ a hE]
      rw [if_neg (by omega)]
    · intro off hoff
      rw [fat16_update_nre_image, writeRootEntryAt_image _ _ _ _ hE]
      rw [show st.next_root_entry + (1 - 1) = st.next_root_entry from by omega]
      rw [if_pos (by omega)]
      rw [show rootSlotAddr st st.next_root_entry + off -
        rootSlotAddr st st.next_root_entry = off from by omega]

theorem fatAddr_lt_dataAddr2 (st : Fat16Formatter) (c cl copy : Nat)
    (hcopy : copy < 2) (hcl : 2 ≤ cl) (hc : 2 * c + 2 ≤ fat_size st * 512) :
    fatAddr st copy c + 2 ≤ dataAddr st cl := by
  rcases (by omega : copy = 0 ∨ copy = 1) with h | h <;> subst h <;>
    (unfold fatAddr dataAddr clusterToSector first_data_sector first_root_dir_sector
      first_fat_sector reserved_sectors num_fats root_dir_sectors root_entry_count
     omega)

theorem clusterToSector_congr (st st' : Fat16Formatter)
    (h1 : st'.fs_sectors = st.fs_sectors)
    (h2 : st'.sectors_per_cluster = st.sectors_per_cluster) (c : Nat) :
    clusterToSector st' c = clusterToSector st c := by
  unfold clusterToSector first_data_sector first_root_dir_sector
  rw [h2, fat_size_congr st st' h1 h2]

theorem readBytes_congr (m m' : Mem) (base n : Nat)
    (h : ∀ off, off < n → m (base + off) = m' (base + off)) :
    readBytes m base n = readBytes m' base n := by
  unfold readBytes
  apply List.map_congr_left
  intro i hi
  exact h i (List.mem_range.mp hi)

/-- A successful free-slot scan returns a run that fits inside the scanned
slot range. -/
theorem subdirScanGo_some_le (dirData : List Nat) (tn : Nat) : ∀ (rem idx c : Nat)
    (fs : Option Nat) (r : Nat),
    (c = 0 ∨ ∃ s, fs = some s ∧ s + c * 32 = idx * 32) →
    subdirScanGo dirData tn idx fs c rem = some r →
    r + tn * 32 ≤ (idx + rem) * 32 := by
  intro rem
  induction rem with
  | zero =>
    intro idx c fs r _ heq
    exact absurd heq (by simp [subdirScanGo])
  | succ m ih =>
    intro idx c fs r hinv heq
    simp only [subdirScanGo] at heq
    by_cases hb : dirData.getD (idx * 32) 0 = 0x00 ∨ dirData.getD (idx * 32) 0 = 0xE5
    · rw [if_pos hb] at heq
      by_cases htc : tn ≤ c + 1
      · rw [if_pos htc] at heq
        by_cases hc : c = 0
        · rw [if_pos hc] at heq
          have hr : r = idx * 32 := by
            injection heq with h
            omega
          subst hc
          omega
        · rw [if_neg hc] at heq
          rcases hinv with hc0 | ⟨s, hfs, hrel⟩
          · exact absurd hc0 hc
          · rw [hfs] at heq
            have hr : r = s := by
              injection heq with h
              omega
            omega
      · rw [if_neg htc] at heq
        have hinv2 : c + 1 = 0 ∨ ∃ s, (if c = 0 then some (idx * 32) else fs) = some s ∧
            s + (c + 1) * 32 = (idx + 1) * 32 := by
          right
          by_cases hc : c = 0
          · exact ⟨idx * 32, by rw [if_pos hc], by subst hc; omega⟩
          · rcases hinv with hc0 | ⟨s, hfs, hrel⟩
            · exact absurd hc0 hc
            · exact ⟨s, by rw [if_neg hc]; exact hfs, by omega⟩
        have := ih (idx + 1) (c + 1) (if c = 0 then some (idx * 32) else fs) r hinv2 heq
        omega
    · rw [if_neg hb] at heq
      have := ih (idx + 1) 0 none r (Or.inl rfl) heq
      omega

/-- The sector write-back loop of `add_subdir_entry` (lines 510–513):
write the patched directory cluster back, one sector at a time. -/
def clusterWriteBack (st : Fat16Formatter) (sec : Nat) (D : List Nat) :
    Fat16Formatter :=
  (List.range st.sectors_per_cluster).foldl (fun acc s =>
    writeSector acc (sec + s) ((D.drop (s * 512)).take 512)) st

theorem sectorRangeFold_fields (D : List Nat) (sec : Nat) : ∀ (n s0 : Nat)
    (st : Fat16Formatter),
    ((List.range' s0 n).foldl (fun acc s =>
        writeSector acc (sec + s) ((D.drop (s * 512)).take 512)) st).fs_start =
      st.fs_start ∧
    ((List.range' s0 n).foldl (fun acc s =>
        writeSector acc (sec + s) ((D.drop (s * 512)).take 512)) st).fs_sectors =
      st.fs_sectors ∧
    ((List.range' s0 n).foldl (fun acc s =>
        writeSector acc (sec + s) ((D.drop (s * 512)).take 512)) st).sectors_per_cluster =
      st.sectors_per_cluster ∧
    ((List.range' s0 n).foldl (fun acc s =>
        writeSector acc (sec + s) ((D.drop (s * 512)).take 512)) st).next_cluster =
      st.next_cluster ∧
    ((List.range' s0 n).foldl (fun acc s =>
        writeSector acc (sec + s) ((D.drop (s * 512)).take 512)) st).next_root_entry =
      st.next_root_entry ∧
    ((List.range' s0 n).foldl (fun acc s =>
        writeSector acc (sec + s) ((D.drop (s * 512)).take 512)) st).snc = st.snc := by
  intro n
  induction n with
  | zero => intro s0 st; exact ⟨rfl, rfl, rfl, rfl, rfl, rfl⟩
  | succ m ih =>
    intro s0 st
    rw [List.range'_succ, List.foldl_cons]
    exact ih (s0 + 1) _

theorem sectorRangeFold_image (D : List Nat) (sec : Nat) : ∀ (n s0 : Nat)
    (st : Fat16Formatter) (a : Nat),
    (s0 + n) * 512 ≤ D.length →
    ((List.range' s0 n).foldl (fun acc s =>
        writeSector acc (sec + s) ((D.drop (s * 512)).take 512)) st).image a =
      if (st.fs_start + sec) * 512 + s0 * 512 ≤ a ∧
          a < (st.fs_start + sec) * 512 + (s0 + n) * 512
      then D.getD (a - (st.fs_start + sec) * 512) 0 else st.image a := by
  intro n
  induction n with
  | zero =>
    intro s0 st a _
    rw [if_neg (by omega)]
    rfl
  | succ m ih =>
    intro s0 st a hlen
    rw [List.range'_succ, List.foldl_cons]
    have hchunk : ((D.drop (s0 * 512)).take 512).length = 512 := by
      simp only [List.length_take, List.length_drop]
      omega
    rw [ih (s0 + 1) _ a (by
      show (s0 + 1 + m) * 512 ≤ D.length
      omega)]
    have hfs : (writeSector st (sec + s0) ((D.drop (s0 * 512)).take 512)).fs_start =
      st.fs_start := rfl
    rw [hfs, writeSector_image, hchunk]
    by_cases hin : (st.fs_start + sec) * 512 + (s0 + 1) * 512 ≤ a ∧
        a < (st.fs_start + sec) * 512 + (s0 + 1 + m) * 512
    · rw [if_pos hin,
        if_pos (show (st.fs_start + sec) * 512 + s0 * 512 ≤ a ∧
          a < (st.fs_start + sec) * 512 + (s0 + (m + 1)) * 512 from by omega)]
    · rw [if_neg hin]
      by_cases hcur : (st.fs_start + (sec + s0)) * 512 ≤ a ∧
          a < (st.fs_start + (sec + s0)) * 512 + 512
      · rw [if_pos hcur, if_pos (by omega)]
        rw [show a - (st.fs_start + (sec + s0)) * 512 =
          a - (st.fs_start + sec) * 512 - s0 * 512 from by omega]
        rw [getD_take _ _ _ (by omega), getD_drop]
        rw [show s0 * 512 + (a - (st.fs_start + sec) * 512 - s0 * 512) =
          a - (st.fs_start + sec) * 512 from by omega]
      · rw [if_neg hcur, if_neg (by omega)]

theorem clusterWriteBack_fields (st : Fat16Formatter) (sec : Nat) (D : List Nat) :
    (clusterWriteBack st sec D).fs_start = st.fs_start ∧
    (clusterWriteBack st sec D).fs_sectors = st.fs_sectors ∧
    (clusterWriteBack st sec D).sectors_per_cluster = st.sectors_per_cluster ∧
    (clusterWriteBack st sec D).next_cluster = st.next_cluster ∧
    (clusterWriteBack st sec D).next_root_entry = st.next_root_entry ∧
    (clusterWriteBack st sec D).snc = st.snc := by
  unfold clusterWriteBack
  rw [List.range_eq_range']
  exact sectorRangeFold_fields D sec st.sectors_per_cluster 0 st

theorem clusterWriteBack_image (st : Fat16Formatter) (sec : Nat) (D : List Nat)
    (a : Nat) (hD : st.sectors_per_cluster * 512 ≤ D.length) :
    (clusterWriteBack st sec D).image a =
      if (st.fs_start + sec) * 512 ≤ a ∧
          a < (st.fs_start + sec) * 512 + st.sectors_per_cluster * 512
      then D.getD (a - (st.fs_start + sec) * 512) 0 else st.image a := by
  unfold clusterWriteBack
  rw [List.range_eq_range']
  rw [sectorRangeFold_image D sec st.sectors_per_cluster 0 st a (by omega)]
  by_cases h : (st.fs_start + sec) * 512 ≤ a ∧
      a < (st.fs_start + sec) * 512 + st.sectors_per_cluster * 512
  · rw [if_pos (by omega), if_pos h]
  · rw [if_neg (by omega), if_neg h]

/-- The parent-directory cluster as `add_subdir_entry` reads it (line 475). -/
def subdirDirData (st : Fat16Formatter) (parentCluster : Nat) : List Nat :=
  readBytes st.image (absSector st (clusterToSector st parentCluster) * 512)
    (cluster_size st)

theorem addSubdirEntry_eq_found (st : Fat16Formatter) (parentCluster : Nat)
    (filename : List Nat) (fc fsz : Nat) (isDir : Bool) (r : Nat)
    (hscan : subdirScanGo (subdirDirData st parentCluster) (slotsNeeded filename)
      0 none 0 (cluster_size st / 32) = some r) :
    addSubdirEntry st parentCluster filename fc fsz isDir =
      (if needsLfn filename then
        clusterWriteBack { st with snc := (generateShortName st.snc filename).2 }
          (clusterToSector st parentCluster)
          (setBytes (subdirDirData st parentCluster) r
            ((makeLfnEntries filename (lfnShortName st filename)).flatten ++
              entry83 (lfnShortName st filename) (if isDir then 0x10 else 0x20) fc
                (if isDir then 0 else fsz)))
      else
        clusterWriteBack st (clusterToSector st parentCluster)
          (setBytes (subdirDirData st parentCluster) r
            (entry83 (make83Name filename) (if isDir then 0x10 else 0x20) fc
              (if isDir then 0 else fsz)))) := by
  unfold addSubdirEntry
  unfold slotsNeeded at hscan
  unfold subdirDirData at hscan
  by_cases hl : needsLfn filename = true
  · simp only [hl, if_true, makeLfnEntries_length] at hscan ⊢
    simp only [absSector, clusterToSector, cluster_size, first_data_sector,
      first_root_dir_sector, fat_size, total_clusters0] at hscan ⊢
    rw [hscan]
    rfl
  · rw [Bool.not_eq_true] at hl
    simp only [hl, Bool.false_eq_true, if_false, List.length_nil] at hscan ⊢
    simp only [absSector, clusterToSector, cluster_size, first_data_sector,
      first_root_dir_sector, fat_size, total_clusters0] at hscan ⊢
    rw [hscan]
    rfl

set_option maxRecDepth 40000 in
/-- The effect of a successful `add_subdir_entry`: geometry, `next_cluster`
and `next_root_entry` are untouched, only the parent directory's single
cluster is rewritten, and the found slot run ends with the 8.3 entry carrying
the given first cluster and size. -/
theorem addSubdirEntry_found_effect (st : Fat16Formatter) (parentCluster : Nat)
    (filename : List Nat) (fc fsz : Nat) (isDir : Bool) (r : Nat)
    (hsnc : ∀ key, sncGet st.snc key < 9999999)
    (hscan : subdirScanGo (subdirDirData st parentCluster) (slotsNeeded filename)
      0 none 0 (cluster_size st / 32) = some r) :
    (addSubdirEntry st parentCluster filename fc fsz isDir).fs_start = st.fs_start ∧
    (addSubdirEntry st parentCluster filename fc fsz isDir).fs_sectors =
      st.fs_sectors ∧
    (addSubdirEntry st parentCluster filename fc fsz isDir).sectors_per_cluster =
      st.sectors_per_cluster ∧
    (addSubdirEntry st parentCluster filename fc fsz isDir).next_cluster =
      st.next_cluster ∧
    (addSubdirEntry st parentCluster filename fc fsz isDir).next_root_entry =
      st.next_root_entry ∧
    (∀ a, a < dataAddr st parentCluster ∨
        dataAddr st parentCluster + cluster_size st ≤ a →
      (addSubdirEntry st parentCluster filename fc fsz isDir).image a = st.image a) ∧
    (∃ name83 : List Nat, name83.length = 11 ∧ ∀ off, off < 32 →
      (addSubdirEntry st parentCluster filename fc fsz isDir).image
          (dataAddr st parentCluster + (r + (slotsNeeded filename - 1) * 32 + off)) =
        (entry83 name83 (if isDir then 0x10 else 0x20) fc
          (if isDir then 0 else fsz)).getD off 0) := by
  have h0 := subdirScanGo_some_le (subdirDirData st parentCluster)
    (slotsNeeded filename) (cluster_size st / 32) 0 0 none r (Or.inl rfl) hscan
  have hr : r + slotsNeeded filename * 32 ≤ cluster_size st := by omega
  have hdd : (subdirDirData st parentCluster).length = cluster_size st := by
    unfold subdirDirData
    rw [readBytes_length]
  have hcs : cluster_size st = st.sectors_per_cluster * 512 := rfl
  rw [addSubdirEntry_eq_found st parentCluster filename fc fsz isDir r hscan]
  by_cases hl : needsLfn filename = true
  · simp only [hl, if_true]
    have h11 : (lfnShortName st filename).length = 11 :=
      generateShortName_length _ _ hsnc
    have hEl : (entry83 (lfnShortName st filename) (if isDir then 0x10 else 0x20) fc
        (if isDir then 0 else fsz)).length = 32 := entry83_length _ _ _ _ h11
    have hflat : ((makeLfnEntries filename (lfnShortName st filename)).flatten).length =
        (filename.length + 12) / 13 * 32 := by
      rw [flatten_length_mul32 _ (fun e he => makeLfnEntries_mem_length _ _ _ he),
        makeLfnEntries_length]
    have hslots : slotsNeeded filename = (filename.length + 12) / 13 + 1 := by
      simp [slotsNeeded, hl]
    have hD2 : (setBytes (subdirDirData st parentCluster) r
        ((makeLfnEntries filename (lfnShortName st filename)).flatten ++
          entry83 (lfnShortName st filename) (if isDir then 0x10 else 0x20) fc
            (if isDir then 0 else fsz))).length = cluster_size st := by
      rw [length_setBytes, hdd]
    have himg : ∀ a, (clusterWriteBack
        { st with snc := (generateShortName st.snc filename).2 }
        (clusterToSector st parentCluster)
        (setBytes (subdirDirData st parentCluster) r
          ((makeLfnEntries filename (lfnShortName st filename)).flatten ++
            entry83 (lfnShortName st filename) (if isDir then 0x10 else 0x20) fc
              (if isDir then 0 else fsz)))).image a =
        (if dataAddr st parentCluster ≤ a ∧
            a < dataAddr st parentCluster + cluster_size st
          then (setBytes (subdirDirData st parentCluster) r
            ((makeLfnEntries filename (lfnShortName st filename)).flatten ++
              entry83 (lfnShortName st filename) (if isDir then 0x10 else 0x20) fc
                (if isDir then 0 else fsz))).getD (a - dataAddr st parentCluster) 0
          else st.image a) := by
      intro a
      rw [clusterWriteBack_image _ _ _ a (by rw [hD2]; exact le_of_eq hcs.symm)]
      rfl
    refine ⟨(clusterWriteBack_fields _ _ _).1, (clusterWriteBack_fields _ _ _).2.1,
      (clusterWriteBack_fields _ _ _).2.2.1, (clusterWriteBack_fields _ _ _).2.2.2.1,
      (clusterWriteBack_fields _ _ _).2.2.2.2.1, ?_,
      ⟨lfnShortName st filename, h11, ?_⟩⟩
    · intro a ha
      rw [himg a, if_neg (by omega)]
    · intro off hoff
      rw [hslots] at hr ⊢
      rw [show (filename.length + 12) / 13 + 1 - 1 = (filename.length + 12) / 13
        from by omega]
      rw [himg _, if_pos (by omega)]
      rw [show dataAddr st parentCluster +
        (r + (filename.length + 12) / 13 * 32 + off) - dataAddr st parentCluster =
        r + ((filename.length + 12) / 13 * 32 + off) from by omega]
      rw [getD_setBytes_inside _ _ _ _
        (by rw [List.length_append, hflat, hEl]; omega)
        (by rw [List.length_append, hflat, hEl, hdd]; omega)]
      rw [getD_append_right_sub _ _ _ ((filename.length + 12) / 13 * 32) hflat
        (by omega)]
      rw [show (filename.length + 12) / 13 * 32 + off -
        (filename.length + 12) / 13 * 32 = off from by omega]
  · rw [Bool.not_eq_true] at hl
    simp only [hl, Bool.false_eq_true, if_false]
    have h11 := make83Name_length filename
    have hEl : (entry83 (make83Name filename) (if isDir then 0x10 else 0x20) fc
        (if isDir then 0 else fsz)).length = 32 := entry83_length _ _ _ _ h11
    have hslots : slotsNeeded filename = 1 := by simp [slotsNeeded, hl]
    have hD2 : (setBytes (subdirDirData st parentCluster) r
        (entry83 (make83Name filename) (if isDir then 0x10 else 0x20) fc
          (if isDir then 0 else fsz))).length = cluster_size st := by
      rw [length_setBytes, hdd]
    have himg : ∀ a, (clusterWriteBack st (clusterToSector st parentCluster)
        (setBytes (subdirDirData st parentCluster) r
          (entry83 (make83Name filename) (if isDir then 0x10 else 0x20) fc
            (if isDir then 0 else fsz)))).image a =
        (if dataAddr st parentCluster ≤ a ∧
            a < dataAddr st parentCluster + cluster_size st
          then (setBytes (subdirDirData st parentCluster) r
            (entry83 (make83Name filename) (if isDir then 0x10 else 0x20) fc
              (if isDir then 0 else fsz))).getD (a - dataAddr st parentCluster) 0
          else st.image a) := by
      intro a
      rw [clusterWriteBack_image _ _ _ a (by rw [hD2]; exact le_of_eq hcs.symm)]
      rfl
    refine ⟨(clusterWriteBack_fields _ _ _).1, (clusterWriteBack_fields _ _ _).2.1,
      (clusterWriteBack_fields _ _ _).2.2.1, (clusterWriteBack_fields _ _ _).2.2.2.1,
      (clusterWriteBack_fields _ _ _).2.2.2.2.1, ?_,
      ⟨make83Name filename, h11, ?_⟩⟩
    · intro a ha
      rw [himg a, if_neg (by omega)]
    · intro off hoff
      rw [hslots] at hr ⊢
      rw [show (1 : Nat) - 1 = 0 from rfl]
      rw [show r + 0 * 32 + off = r + off from by omega]
      rw [himg _, if_pos (by omega)]
      rw [show dataAddr st parentCluster + (r + off) - dataAddr st parentCluster =
        r + off from by omega]
      rw [getD_setBytes_inside _ _ _ _ (by rw [hEl]; omega)
        (by rw [hEl, hdd]; omega)]

end Fat16Formatter

section C1RoundTrip

open Fat16Formatter

set_option maxRecDepth 100000 in
/-- C1: for every file written through `Fat16Formatter.add_file` with non-empty
data — whether into the root directory (`isRoot = true`, any name, 8.3 or LFN,
provided the root has room for the needed slots and the short-name collision
counters are below the seven-digit bound) or into a subdirectory
(`isRoot = false`, provided the parent cluster is an allocated cluster and the
free-slot scan of its single cluster finds room at `r`) — the cluster chain
read back from the written FAT starting at the first cluster recorded in the
file's directory entry is the consecutive run of allocated clusters, the FAT
entry of the chain's last cluster is 0xFFFF, every in-range byte of the visited
clusters reproduces the corresponding input byte (so the concatenation
truncated to the stored size equals the input), and the 8.3 directory entry —
in the root directory or inside the parent's cluster — records the first
cluster and the byte length. -/
theorem fat16_add_file_cluster_chain_roundtrip
    (st : Fat16Formatter) (parentCluster : Nat) (filename data : List Nat)
    (isRoot : Bool) (i k j r : Nat)
    (hspc : 0 < st.sectors_per_cluster)
    (hf2 : 2 ≤ st.next_cluster)
    (hL : 0 < data.length)
    (hL32 : data.length < 4294967296)
    (hsnc : ∀ key, sncGet st.snc key < 9999999)
    (hFFF8 : st.next_cluster +
      (data.length + cluster_size st - 1) / cluster_size st ≤ 0xFFF8)
    (hsep : 2 * (st.next_cluster +
      (data.length + cluster_size st - 1) / cluster_size st) ≤ fat_size st * 512)
    (hi : i + 1 < (data.length + cluster_size st - 1) / cluster_size st)
    (hkj : k * cluster_size st + j < data.length)
    (hj : j < cluster_size st)
    (hroot : isRoot = true → st.next_root_entry + slotsNeeded filename ≤ 512)
    (hpar : isRoot = false → 2 ≤ parentCluster ∧ parentCluster < st.next_cluster)
    (hfound : isRoot = false →
      subdirScanGo (subdirDirData st parentCluster) (slotsNeeded filename)
        0 none 0 (cluster_size st / 32) = some r) :
    fatChain (add_file st parentCluster filename data isRoot)
        ((data.length + cluster_size st - 1) / cluster_size st) st.next_cluster =
      List.range' st.next_cluster
        ((data.length + cluster_size st - 1) / cluster_size st) ∧
    readFat16 (add_file st parentCluster filename data isRoot) 0
        (st.next_cluster + i) = st.next_cluster + i + 1 ∧
    readFat16 (add_file st parentCluster filename data isRoot) 0 (st.next_cluster +
        ((data.length + cluster_size st - 1) / cluster_size st - 1)) = 0xFFFF ∧
    (add_file st parentCluster filename data isRoot).image
        (dataAddr st (st.next_cluster + k) + j) =
      data.getD (k * cluster_size st + j) 0 ∧
    (isRoot = true →
      get16 (readBytes (add_file st parentCluster filename data isRoot).image
          (rootSlotAddr st (st.next_root_entry + (slotsNeeded filename - 1))) 32)
          26 = st.next_cluster ∧
      get32 (readBytes (add_file st parentCluster filename data isRoot).image
          (rootSlotAddr st (st.next_root_entry + (slotsNeeded filename - 1))) 32)
          28 = data.length) ∧
    (isRoot = false →
      get16 (readBytes (add_file st parentCluster filename data isRoot).image
          (dataAddr st parentCluster + (r + (slotsNeeded filename - 1) * 32)) 32)
          26 = st.next_cluster ∧
      get32 (readBytes (add_file st parentCluster filename data isRoot).image
          (dataAddr st parentCluster + (r + (slotsNeeded filename - 1) * 32)) 32)
          28 = data.length) := by
  have hcspos : 0 < cluster_size st := by
    unfold cluster_size
    omega
  have hdm := Nat.div_add_mod (data.length + cluster_size st - 1) (cluster_size st)
  have hmod : (data.length + cluster_size st - 1) % cluster_size st <
      cluster_size st := Nat.mod_lt _ hcspos
  have hmc : cluster_size st * ((data.length + cluster_size st - 1) / cluster_size st)
      = ((data.length + cluster_size st - 1) / cluster_size st) * cluster_size st :=
    Nat.mul_comm _ _
  have hN0 : 0 < (data.length + cluster_size st - 1) / cluster_size st := by
    rcases Nat.eq_zero_or_pos ((data.length + cluster_size st - 1) / cluster_size st)
      with h | h
    · rw [h] at hdm
      omega
    · exact h
  have hLN1 : data.length ≤ ((data.length + cluster_size st - 1) / cluster_size st) *
      cluster_size st := by
    omega
  have hLN2 : (((data.length + cluster_size st - 1) / cluster_size st) - 1) *
      cluster_size st < data.length := by
    have hsm := Nat.sub_one_mul
      ((data.length + cluster_size st - 1) / cluster_size st) (cluster_size st)
    omega
  have hslots1 : 1 ≤ slotsNeeded filename := by
    unfold slotsNeeded
    exact Nat.succ_le_succ (Nat.zero_le _)
  -- unfold add_file down to its three stages
  have hunf : add_file st parentCluster filename data isRoot =
      (if isRoot then
        addRootDirEntry (writeToClusters (allocateClustersGo st
            ((data.length + cluster_size st - 1) / cluster_size st))
            st.next_cluster data)
          filename st.next_cluster data.length false
      else
        addSubdirEntry (writeToClusters (allocateClustersGo st
            ((data.length + cluster_size st - 1) / cluster_size st))
            st.next_cluster data)
          parentCluster filename st.next_cluster data.length false) := by
    simp only [add_file, allocateClusters]
    rw [if_neg (show ¬data.length = 0 from by omega),
      if_neg (show ¬(data.length + cluster_size st - 1) / cluster_size st = 0 from
        by omega)]
  -- the state after allocation
  obtain ⟨f1, f2, f3, f4, f5, f6⟩ := allocateClustersGo_fields
    ((data.length + cluster_size st - 1) / cluster_size st) st
  have hcs1 : cluster_size (allocateClustersGo st
      ((data.length + cluster_size st - 1) / cluster_size st)) = cluster_size st :=
    cluster_size_congr st _ f3
  have hda1 : ∀ c, dataAddr (allocateClustersGo st
      ((data.length + cluster_size st - 1) / cluster_size st)) c = dataAddr st c :=
    dataAddr_congr st _ f1 f2 f3
  have hwts : writeToClusters (allocateClustersGo st
      ((data.length + cluster_size st - 1) / cluster_size st)) st.next_cluster data =
      writeToClustersGo data (allocateClustersGo st
        ((data.length + cluster_size st - 1) / cluster_size st)) st.next_cluster 0
        ((data.length + cluster_size st - 1) / cluster_size st) := by
    unfold writeToClusters
    rw [hcs1]
  rw [hwts] at hunf
  -- chain entries present in the allocated state's FAT
  have hchain1 : ∀ i', 0 ≤ i' →
      i' < (data.length + cluster_size st - 1) / cluster_size st →
      readFat16 (allocateClustersGo st
        ((data.length + cluster_size st - 1) / cluster_size st)) 0
        (st.next_cluster + i') =
      (if i' + 1 = (data.length + cluster_size st - 1) / cluster_size st
        then 0xFFFF else st.next_cluster + i' + 1) := by
    intro i' _ hi'
    have hbytes := allocateClustersGo_entry
      ((data.length + cluster_size st - 1) / cluster_size st) st i' 0 hi'
      (by omega) hsep
    unfold readFat16
    rw [fatAddr_congr st (allocateClustersGo st
      ((data.length + cluster_size st - 1) / cluster_size st)) f1 f2 f3]
    rw [hbytes.1, hbytes.2]
    apply fat16_le16_sum
    split_ifs <;> omega
  -- effect of the data writes
  obtain ⟨hWF, hWA, hWB⟩ := writeToClustersGo_effect data
    ((data.length + cluster_size st - 1) / cluster_size st)
    (allocateClustersGo st ((data.length + cluster_size st - 1) / cluster_size st))
    st.next_cluster 0 ((data.length + cluster_size st - 1) / cluster_size st)
    (by rw [f3]; exact hspc) hf2 hFFF8
    (by rw [fat_size_congr st _ f2 f3]; exact hsep)
    hN0 (by omega) (by rw [hcs1]; exact hLN1) (by rw [hcs1]; exact hLN2)
    hchain1
  simp only [Nat.add_zero, Nat.zero_mul] at hWF hWA hWB
  simp only [hcs1, hda1] at hWA hWB
  obtain ⟨w1, w2, w3, w4, w5, w6⟩ := hWF
  have s21 := w1.trans f1
  have s22 := w2.trans f2
  have s23 := w3.trans f3
  have s25 := w5.trans f5
  have s26 := w6.trans f6
  have hsncW : ∀ key, sncGet (writeToClustersGo data (allocateClustersGo st
      ((data.length + cluster_size st - 1) / cluster_size st)) st.next_cluster 0
      ((data.length + cluster_size st - 1) / cluster_size st)).snc key < 9999999 := by
    intro key
    rw [s26]
    exact hsnc key
  cases isRoot with
  | true =>
    have hroot' := hroot rfl
    have hunf' : add_file st parentCluster filename data true =
        addRootDirEntry (writeToClustersGo data (allocateClustersGo st
            ((data.length + cluster_size st - 1) / cluster_size st))
            st.next_cluster 0
            ((data.length + cluster_size st - 1) / cluster_size st))
          filename st.next_cluster data.length false := hunf.trans (if_pos rfl)
    obtain ⟨c1, c2, c3, c4, c5, c6, c7⟩ := addRootDirEntry_effect
      (writeToClustersGo data (allocateClustersGo st
        ((data.length + cluster_size st - 1) / cluster_size st)) st.next_cluster 0
        ((data.length + cluster_size st - 1) / cluster_size st))
      filename st.next_cluster data.length false hsncW
    simp only [Bool.false_eq_true, if_false] at c7
    have hslotA : rootSlotAddr (writeToClustersGo data (allocateClustersGo st
        ((data.length + cluster_size st - 1) / cluster_size st)) st.next_cluster 0
        ((data.length + cluster_size st - 1) / cluster_size st))
        (writeToClustersGo data (allocateClustersGo st
          ((data.length + cluster_size st - 1) / cluster_size st)) st.next_cluster 0
          ((data.length + cluster_size st - 1) / cluster_size st)).next_root_entry =
        rootSlotAddr st st.next_root_entry := by
      rw [s25]
      exact rootSlotAddr_congr st _ s21 s22 s23 _
    have hslotB : rootSlotAddr (writeToClustersGo data (allocateClustersGo st
        ((data.length + cluster_size st - 1) / cluster_size st)) st.next_cluster 0
        ((data.length + cluster_size st - 1) / cluster_size st))
        ((writeToClustersGo data (allocateClustersGo st
          ((data.length + cluster_size st - 1) / cluster_size st)) st.next_cluster 0
          ((data.length + cluster_size st - 1) / cluster_size st)).next_root_entry +
          (slotsNeeded filename - 1)) =
        rootSlotAddr st (st.next_root_entry + (slotsNeeded filename - 1)) := by
      rw [s25]
      exact rootSlotAddr_congr st _ s21 s22 s23 _
    rw [hslotA] at c6
    rw [hslotB] at c7
    have hfaR : ∀ copy c, fatAddr (addRootDirEntry (writeToClustersGo data
        (allocateClustersGo st
          ((data.length + cluster_size st - 1) / cluster_size st)) st.next_cluster 0
        ((data.length + cluster_size st - 1) / cluster_size st))
        filename st.next_cluster data.length false) copy c = fatAddr st copy c :=
      fatAddr_congr st _ (c1.trans s21) (c2.trans s22) (c3.trans s23)
    have hfr : ∀ i', i' < (data.length + cluster_size st - 1) / cluster_size st →
        ∀ b, b = fatAddr st 0 (st.next_cluster + i') ∨
          b = fatAddr st 0 (st.next_cluster + i') + 1 →
        (addRootDirEntry (writeToClustersGo data (allocateClustersGo st
            ((data.length + cluster_size st - 1) / cluster_size st))
            st.next_cluster 0
            ((data.length + cluster_size st - 1) / cluster_size st))
          filename st.next_cluster data.length false).image b =
        (allocateClustersGo st
          ((data.length + cluster_size st - 1) / cluster_size st)).image b := by
      intro i' hi' b hb
      have hsl := fatAddr_lt_rootSlotAddr st (st.next_cluster + i') 0
        st.next_root_entry (by omega) (by omega)
      rw [c6 b (Or.inl (by omega))]
      have hdl := fatAddr_lt_dataAddr st (st.next_cluster + i') st.next_cluster
        (by omega) (by omega)
      exact hWB b (Or.inl (by omega))
    have hall : ∀ i', i' < (data.length + cluster_size st - 1) / cluster_size st →
        readFat16 (addRootDirEntry (writeToClustersGo data (allocateClustersGo st
            ((data.length + cluster_size st - 1) / cluster_size st))
            st.next_cluster 0
            ((data.length + cluster_size st - 1) / cluster_size st))
          filename st.next_cluster data.length false) 0 (st.next_cluster + i') =
        (if i' + 1 = (data.length + cluster_size st - 1) / cluster_size st
          then 0xFFFF else st.next_cluster + i' + 1) := by
      intro i' hi'
      unfold readFat16
      rw [hfaR, hfr i' hi' _ (Or.inl rfl), hfr i' hi' _ (Or.inr rfl)]
      have h2 := hchain1 i' (by omega) hi'
      unfold readFat16 at h2
      rw [fatAddr_congr st (allocateClustersGo st
        ((data.length + cluster_size st - 1) / cluster_size st)) f1 f2 f3] at h2
      exact h2
    refine ⟨?_, ?_, ?_, ?_, ?_, ?_⟩
    · rw [hunf']
      apply fatChain_range' _ _ _ hN0
      · intro i' hi'
        rw [hall i' (by omega), if_neg (by omega)]
      · rw [hall _ (by omega), if_pos (by omega)]
      · intro i' hi'
        omega
    · rw [hunf', hall i (by omega), if_neg (by omega)]
    · rw [hunf', hall _ (by omega), if_pos (by omega)]
    · rw [hunf']
      have hb1 := rootSlotAddr_lt_dataAddr st
        (st.next_root_entry + (slotsNeeded filename - 1)) (st.next_cluster + k)
        (by omega) (by omega)
      have hb2 := rootSlotAddr_add st st.next_root_entry (slotsNeeded filename - 1)
      rw [c6 _ (Or.inr (by omega))]
      exact hWA k j (by omega) hkj hj
    · intro _
      obtain ⟨name83, h11n, hc7⟩ := c7
      obtain ⟨e26, e27, e28, e29, e30, e31⟩ := entry83_tail name83 0x20
        st.next_cluster data.length h11n
      constructor
      · rw [hunf']
        unfold get16
        rw [show (26 : Nat) + 1 = 27 from rfl]
        rw [getD_readBytes _ _ _ _ (by omega), getD_readBytes _ _ _ _ (by omega)]
        rw [hc7 26 (by omega), hc7 27 (by omega)]
        rw [e26, e27]
        omega
      · rw [hunf']
        unfold get32
        rw [show (28 : Nat) + 1 = 29 from rfl, show (28 : Nat) + 2 = 30 from rfl,
          show (28 : Nat) + 3 = 31 from rfl]
        rw [getD_readBytes _ _ _ _ (by omega), getD_readBytes _ _ _ _ (by omega),
          getD_readBytes _ _ _ _ (by omega), getD_readBytes _ _ _ _ (by omega)]
        rw [hc7 28 (by omega), hc7 29 (by omega), hc7 30 (by omega),
          hc7 31 (by omega)]
        rw [e28, e29, e30, e31]
        omega
    · intro hcon
      exact absurd hcon (by decide)
  | false =>
    have hpar' := hpar rfl
    have hfound' := hfound rfl
    have hunf' : add_file st parentCluster filename data false =
        addSubdirEntry (writeToClustersGo data (allocateClustersGo st
            ((data.length + cluster_size st - 1) / cluster_size st))
            st.next_cluster 0
            ((data.length + cluster_size st - 1) / cluster_size st))
          parentCluster filename st.next_cluster data.length false :=
      hunf.trans (if_neg (by decide))
    have hDa1 := dataAddr_add st parentCluster hpar'.1
      (st.next_cluster - parentCluster)
    rw [show parentCluster + (st.next_cluster - parentCluster) = st.next_cluster
      from by omega] at hDa1
    have hDm := Nat.le_mul_of_pos_left (cluster_size st)
      (show 0 < st.next_cluster - parentCluster from by omega)
    have hpre : ∀ off, off < cluster_size st →
        (writeToClustersGo data (allocateClustersGo st
          ((data.length + cluster_size st - 1) / cluster_size st)) st.next_cluster 0
          ((data.length + cluster_size st - 1) / cluster_size st)).image
          (dataAddr st parentCluster + off) =
        st.image (dataAddr st parentCluster + off) := by
      intro off hoff
      rw [hWB _ (Or.inl (by omega))]
      apply allocateClustersGo_untouched
      intro i' hi'
      have h1 := fatAddr_lt_dataAddr2 st (st.next_cluster + i') parentCluster 0
        (by omega) hpar'.1 (by omega)
      have h2 := fatAddr_lt_dataAddr2 st (st.next_cluster + i') parentCluster 1
        (by omega) hpar'.1 (by omega)
      exact ⟨Or.inr (by omega), Or.inr (by omega)⟩
    have hdir : subdirDirData (writeToClustersGo data (allocateClustersGo st
        ((data.length + cluster_size st - 1) / cluster_size st)) st.next_cluster 0
        ((data.length + cluster_size st - 1) / cluster_size st)) parentCluster =
        subdirDirData st parentCluster := by
      unfold subdirDirData
      have e1 : clusterToSector (writeToClustersGo data (allocateClustersGo st
          ((data.length + cluster_size st - 1) / cluster_size st)) st.next_cluster 0
          ((data.length + cluster_size st - 1) / cluster_size st)) parentCluster =
          clusterToSector st parentCluster := clusterToSector_congr st _ s22 s23 _
      have e2 : cluster_size (writeToClustersGo data (allocateClustersGo st
          ((data.length + cluster_size st - 1) / cluster_size st)) st.next_cluster 0
          ((data.length + cluster_size st - 1) / cluster_size st)) =
          cluster_size st := cluster_size_congr st _ s23
      have e3 : absSector (writeToClustersGo data (allocateClustersGo st
          ((data.length + cluster_size st - 1) / cluster_size st)) st.next_cluster 0
          ((data.length + cluster_size st - 1) / cluster_size st))
          (clusterToSector st parentCluster) =
          absSector st (clusterToSector st parentCluster) := by
        unfold absSector
        rw [s21]
      rw [e1, e2, e3]
      exact readBytes_congr _ _ _ _ (fun off hoff => hpre off hoff)
    have hscan2 : subdirScanGo (subdirDirData (writeToClustersGo data
        (allocateClustersGo st
          ((data.length + cluster_size st - 1) / cluster_size st)) st.next_cluster 0
        ((data.length + cluster_size st - 1) / cluster_size st)) parentCluster)
        (slotsNeeded filename) 0 none 0
        (cluster_size (writeToClustersGo data (allocateClustersGo st
          ((data.length + cluster_size st - 1) / cluster_size st)) st.next_cluster 0
          ((data.length + cluster_size st - 1) / cluster_size st)) / 32) =
        some r := by
      rw [hdir, cluster_size_congr st _ s23]
      exact hfound'
    obtain ⟨d1, d2, d3, d4, d5, d6, d7⟩ := addSubdirEntry_found_effect
      (writeToClustersGo data (allocateClustersGo st
        ((data.length + cluster_size st - 1) / cluster_size st)) st.next_cluster 0
        ((data.length + cluster_size st - 1) / cluster_size st))
      parentCluster filename st.next_cluster data.length false r hsncW hscan2
    simp only [Bool.false_eq_true, if_false] at d7
    have hdp : dataAddr (writeToClustersGo data (allocateClustersGo st
        ((data.length + cluster_size st - 1) / cluster_size st)) st.next_cluster 0
        ((data.length + cluster_size st - 1) / cluster_size st)) parentCluster =
        dataAddr st parentCluster := dataAddr_congr st _ s21 s22 s23 _
    have hcsW : cluster_size (writeToClustersGo data (allocateClustersGo st
        ((data.length + cluster_size st - 1) / cluster_size st)) st.next_cluster 0
        ((data.length + cluster_size st - 1) / cluster_size st)) =
        cluster_size st := cluster_size_congr st _ s23
    rw [hdp, hcsW] at d6
    rw [hdp] at d7
    have hfaR : ∀ copy c, fatAddr (addSubdirEntry (writeToClustersGo data
        (allocateClustersGo st
          ((data.length + cluster_size st - 1) / cluster_size st)) st.next_cluster 0
        ((data.length + cluster_size st - 1) / cluster_size st))
        parentCluster filename st.next_cluster data.length false) copy c =
        fatAddr st copy c :=
      fatAddr_congr st _ (d1.trans s21) (d2.trans s22) (d3.trans s23)
    have hfr : ∀ i', i' < (data.length + cluster_size st - 1) / cluster_size st →
        ∀ b, b = fatAddr st 0 (st.next_cluster + i') ∨
          b = fatAddr st 0 (st.next_cluster + i') + 1 →
        (addSubdirEntry (writeToClustersGo data (allocateClustersGo st
            ((data.length + cluster_size st - 1) / cluster_size st))
            st.next_cluster 0
            ((data.length + cluster_size st - 1) / cluster_size st))
          parentCluster filename st.next_cluster data.length false).image b =
        (allocateClustersGo st
          ((data.length + cluster_size st - 1) / cluster_size st)).image b := by
      intro i' hi' b hb
      have hdl1 := fatAddr_lt_dataAddr st (st.next_cluster + i') parentCluster
        hpar'.1 (by omega)
      rw [d6 b (Or.inl (by omega))]
      have hdl := fatAddr_lt_dataAddr st (st.next_cluster + i') st.next_cluster
        (by omega) (by omega)
      exact hWB b (Or.inl (by omega))
    have hall : ∀ i', i' < (data.length + cluster_size st - 1) / cluster_size st →
        readFat16 (addSubdirEntry (writeToClustersGo data (allocateClustersGo st
            ((data.length + cluster_size st - 1) / cluster_size st))
            st.next_cluster 0
            ((data.length + cluster_size st - 1) / cluster_size st))
          parentCluster filename st.next_cluster data.length false) 0
          (st.next_cluster + i') =
        (if i' + 1 = (data.length + cluster_size st - 1) / cluster_size st
          then 0xFFFF else st.next_cluster + i' + 1) := by
      intro i' hi'
      unfold readFat16
      rw [hfaR, hfr i' hi' _ (Or.inl rfl), hfr i' hi' _ (Or.inr rfl)]
      have h2 := hchain1 i' (by omega) hi'
      unfold readFat16 at h2
      rw [fatAddr_congr st (allocateClustersGo st
        ((data.length + cluster_size st - 1) / cluster_size st)) f1 f2 f3] at h2
      exact h2
    refine ⟨?_, ?_, ?_, ?_, ?_, ?_⟩
    · rw [hunf']
      apply fatChain_range' _ _ _ hN0
      · intro i' hi'
        rw [hall i' (by omega), if_neg (by omega)]
      · rw [hall _ (by omega), if_pos (by omega)]
      · intro i' hi'
        omega
    · rw [hunf', hall i (by omega), if_neg (by omega)]
    · rw [hunf', hall _ (by omega), if_pos (by omega)]
    · rw [hunf']
      have hDa2 := dataAddr_add st st.next_cluster hf2 k
      rw [d6 _ (Or.inr (by omega))]
      exact hWA k j (by omega) hkj hj
    · intro hcon
      exact absurd hcon (by decide)
    · intro _
      obtain ⟨name83, h11n, hd7⟩ := d7
      obtain ⟨e26, e27, e28, e29, e30, e31⟩ := entry83_tail name83 0x20
        st.next_cluster data.length h11n
      constructor
      · rw [hunf']
        unfold get16
        rw [show (26 : Nat) + 1 = 27 from rfl]
        rw [getD_readBytes _ _ _ _ (by omega), getD_readBytes _ _ _ _ (by omega)]
        rw [show dataAddr st parentCluster +
          (r + (slotsNeeded filename - 1) * 32) + 26 =
          dataAddr st parentCluster + (r + (slotsNeeded filename - 1) * 32 + 26)
          from by omega]
        rw [show dataAddr st parentCluster +
          (r + (slotsNeeded filename - 1) * 32) + 27 =
          dataAddr st parentCluster + (r + (slotsNeeded filename - 1) * 32 + 27)
          from by omega]
        rw [hd7 26 (by omega), hd7 27 (by omega)]
        rw [e26, e27]
        omega
      · rw [hunf']
        unfold get32
        rw [show (28 : Nat) + 1 = 29 from rfl, show (28 : Nat) + 2 = 30 from rfl,
          show (28 : Nat) + 3 = 31 from rfl]
        rw [getD_readBytes _ _ _ _ (by omega), getD_readBytes _ _ _ _ (by omega),
          getD_readBytes _ _ _ _ (by omega), getD_readBytes _ _ _ _ (by omega)]
        rw [show dataAddr st parentCluster +
          (r + (slotsNeeded filename - 1) * 32) + 28 =
          dataAddr st parentCluster + (r + (slotsNeeded filename - 1) * 32 + 28)
          from by omega]
        rw [show dataAddr st parentCluster +
          (r + (slotsNeeded filename - 1) * 32) + 29 =
          dataAddr st parentCluster + (r + (slotsNeeded filename - 1) * 32 + 29)
          from by omega]
        rw [show dataAddr st parentCluster +
          (r + (slotsNeeded filename - 1) * 32) + 30 =
          dataAddr st parentCluster + (r + (slotsNeeded filename - 1) * 32 + 30)
          from by omega]
        rw [show dataAddr st parentCluster +
          (r + (slotsNeeded filename - 1) * 32) + 31 =
          dataAddr st parentCluster + (r + (slotsNeeded filename - 1) * 32 + 31)
          from by omega]
        rw [hd7 28 (by omega), hd7 29 (by omega), hd7 30 (by omega),
          hd7 31 (by omega)]
        rw [e28, e29, e30, e31]
        omega

end C1RoundTrip

set_option maxRecDepth 100000 in
/-- Concrete instance of the C1 round-trip theorem: a 600-byte file `A` added
to the root directory of an empty 2 MiB FAT16 volume. -/
theorem fat16_add_file_cluster_chain_roundtrip_witness :
    Fat16Formatter.fatChain (Fat16Formatter.add_file fat16WitnessState 0 [0x41]
        (List.replicate 600 7) true)
        (((List.replicate 600 7 : List Nat).length +
          Fat16Formatter.cluster_size fat16WitnessState - 1) /
          Fat16Formatter.cluster_size fat16WitnessState)
        fat16WitnessState.next_cluster =
      List.range' fat16WitnessState.next_cluster
        (((List.replicate 600 7 : List Nat).length +
          Fat16Formatter.cluster_size fat16WitnessState - 1) /
          Fat16Formatter.cluster_size fat16WitnessState) ∧
    Fat16Formatter.readFat16 (Fat16Formatter.add_file fat16WitnessState 0 [0x41]
        (List.replicate 600 7) true) 0 (fat16WitnessState.next_cluster + 0) =
      fat16WitnessState.next_cluster + 0 + 1 ∧
    Fat16Formatter.readFat16 (Fat16Formatter.add_file fat16WitnessState 0 [0x41]
        (List.replicate 600 7) true) 0 (fat16WitnessState.next_cluster +
        (((List.replicate 600 7 : List Nat).length +
          Fat16Formatter.cluster_size fat16WitnessState - 1) /
          Fat16Formatter.cluster_size fat16WitnessState - 1)) = 0xFFFF ∧
    (Fat16Formatter.add_file fat16WitnessState 0 [0x41]
        (List.replicate 600 7) true).image
        (Fat16Formatter.dataAddr fat16WitnessState
          (fat16WitnessState.next_cluster + 1) + 0) =
      (List.replicate 600 7 : List Nat).getD
        (1 * Fat16Formatter.cluster_size fat16WitnessState + 0) 0 ∧
    (true = true →
      get16 (readBytes (Fat16Formatter.add_file fat16WitnessState 0 [0x41]
          (List.replicate 600 7) true).image
          (Fat16Formatter.rootSlotAddr fat16WitnessState
            (fat16WitnessState.next_root_entry +
              (slotsNeeded [0x41] - 1))) 32) 26 =
        fat16WitnessState.next_cluster ∧
      get32 (readBytes (Fat16Formatter.add_file fat16WitnessState 0 [0x41]
          (List.replicate 600 7) true).image
          (Fat16Formatter.rootSlotAddr fat16WitnessState
            (fat16WitnessState.next_root_entry +
              (slotsNeeded [0x41] - 1))) 32) 28 =
        (List.replicate 600 7 : List Nat).length) ∧
    (true = false →
      get16 (readBytes (Fat16Formatter.add_file fat16WitnessState 0 [0x41]
          (List.replicate 600 7) true).image
          (Fat16Formatter.dataAddr fat16WitnessState 0 +
            (0 + (slotsNeeded [0x41] - 1) * 32)) 32) 26 =
        fat16WitnessState.next_cluster ∧
      get32 (readBytes (Fat16Formatter.add_file fat16WitnessState 0 [0x41]
          (List.replicate 600 7) true).image
          (Fat16Formatter.dataAddr fat16WitnessState 0 +
            (0 + (slotsNeeded [0x41] - 1) * 32)) 32) 28 =
        (List.replicate 600 7 : List Nat).length) :=
  fat16_add_file_cluster_chain_roundtrip fat16WitnessState 0 [0x41]
    (List.replicate 600 7) true 0 1 0 0 (by decide) (by decide) (by decide)
    (by decide)
    (fun key => by show (0 : Nat) < 9999999; decide)
    (by decide) (by decide) (by decide) (by decide) (by decide)
    (fun _ => by decide)
    (fun h => absurd h (by decide))
    (fun h => absurd h (by decide))

section C10EmptyFiles

set_option maxRecDepth 1000000 in
/-- A zero-length file added through `Fat16Formatter.add_file` to a full
subdirectory is silently dropped: the state comes back unchanged and no
directory entry is written anywhere, refuting the claim that a zero-length
`add_file` always writes a directory entry. -/
theorem fat16_empty_file_subdir_entry_dropped :
    Fat16Formatter.add_file fat16FullDirState 2 [0x42] [] false =
      fat16FullDirState := by
  rfl

set_option maxRecDepth 40000 in
/-- C10 (amended): a zero-length `add_file` allocates no clusters in either
formatter.  In FAT16 it reduces to the bare directory-entry write:
into the root directory the 8.3 entry is always written, with first-cluster
field 0 and size field 0; into a subdirectory the entry (again with fields
0/0) is written at the slot the free-slot scan returns — when that scan finds
no room the entry is dropped (see the counterexample).  In exFAT the call
reduces to `addEntryToDir` with an entry set whose stream-extension flags byte
carries the NoFatChain (contiguous) bit (0x03), FirstCluster 0 and
DataLength 0. -/
theorem add_file_empty_data_entries
    (st : Fat16Formatter) (est : ExFatFormatter) (parentCluster : Nat)
    (eparent : Option Nat) (filename ename : List Nat) (r : Nat)
    (hsnc : ∀ key, sncGet st.snc key < 9999999) :
    Fat16Formatter.add_file st parentCluster filename [] true =
      Fat16Formatter.addRootDirEntry st filename 0 0 false ∧
    (Fat16Formatter.add_file st parentCluster filename [] true).next_cluster =
      st.next_cluster ∧
    get16 (readBytes
        (Fat16Formatter.add_file st parentCluster filename [] true).image
        (Fat16Formatter.rootSlotAddr st
          (st.next_root_entry + (slotsNeeded filename - 1))) 32) 26 = 0 ∧
    get32 (readBytes
        (Fat16Formatter.add_file st parentCluster filename [] true).image
        (Fat16Formatter.rootSlotAddr st
          (st.next_root_entry + (slotsNeeded filename - 1))) 32) 28 = 0 ∧
    Fat16Formatter.add_file st parentCluster filename [] false =
      Fat16Formatter.addSubdirEntry st parentCluster filename 0 0 false ∧
    (Fat16Formatter.subdirScanGo (Fat16Formatter.subdirDirData st parentCluster)
        (slotsNeeded filename) 0 none 0
        (Fat16Formatter.cluster_size st / 32) = some r →
      (Fat16Formatter.add_file st parentCluster filename [] false).next_cluster =
        st.next_cluster ∧
      get16 (readBytes
          (Fat16Formatter.add_file st parentCluster filename [] false).image
          (Fat16Formatter.dataAddr st parentCluster +
            (r + (slotsNeeded filename - 1) * 32)) 32) 26 = 0 ∧
      get32 (readBytes
          (Fat16Formatter.add_file st parentCluster filename [] false).image
          (Fat16Formatter.dataAddr st parentCluster +
            (r + (slotsNeeded filename - 1) * 32)) 32) 28 = 0) ∧
    ExFatFormatter.add_file est eparent ename [] =
      ExFatFormatter.addEntryToDir est (eparent.getD est.root_cluster)
        (buildEntrySet ename ATTR_ARCHIVE 0 0 true 0 0 0xFFF) ∧
    (buildEntrySet ename ATTR_ARCHIVE 0 0 true 0 0 0xFFF).getD 33 0 = 0x03 ∧
    get32 (buildEntrySet ename ATTR_ARCHIVE 0 0 true 0 0 0xFFF) 52 = 0 ∧
    get64 (buildEntrySet ename ATTR_ARCHIVE 0 0 true 0 0 0xFFF) 56 = 0 := by
  obtain ⟨c1, c2, c3, c4, c5, c6, c7⟩ :=
    Fat16Formatter.addRootDirEntry_effect st filename 0 0 false hsnc
  simp only [Bool.false_eq_true, if_false] at c7
  obtain ⟨name83, h11n, hc7⟩ := c7
  obtain ⟨e26, e27, e28, e29, e30, e31⟩ := Fat16Formatter.entry83_tail name83 0x20 0 0 h11n
  obtain ⟨b33, b52, b56⟩ := buildEntrySet_empty_fields ename
  have haddT : Fat16Formatter.add_file st parentCluster filename [] true =
      Fat16Formatter.addRootDirEntry st filename 0 0 false := rfl
  have haddF : Fat16Formatter.add_file st parentCluster filename [] false =
      Fat16Formatter.addSubdirEntry st parentCluster filename 0 0 false := rfl
  refine ⟨haddT, ?_, ?_, ?_, haddF, ?_, rfl, b33, b52, b56⟩
  · rw [haddT]
    exact c4
  · rw [haddT]
    unfold get16
    rw [show (26 : Nat) + 1 = 27 from rfl]
    rw [getD_readBytes _ _ _ _ (by omega), getD_readBytes _ _ _ _ (by omega)]
    rw [hc7 26 (by omega), hc7 27 (by omega)]
    rw [e26, e27]
  · rw [haddT]
    unfold get32
    rw [show (28 : Nat) + 1 = 29 from rfl, show (28 : Nat) + 2 = 30 from rfl,
      show (28 : Nat) + 3 = 31 from rfl]
    rw [getD_readBytes _ _ _ _ (by omega), getD_readBytes _ _ _ _ (by omega),
      getD_readBytes _ _ _ _ (by omega), getD_readBytes _ _ _ _ (by omega)]
    rw [hc7 28 (by omega), hc7 29 (by omega), hc7 30 (by omega), hc7 31 (by omega)]
    rw [e28, e29, e30, e31]
  · intro hscan
    obtain ⟨d1, d2, d3, d4, d5, d6, d7⟩ :=
      Fat16Formatter.addSubdirEntry_found_effect st parentCluster filename 0 0
        false r hsnc hscan
    simp only [Bool.false_eq_true, if_false] at d7
    obtain ⟨name83s, h11s, hd7⟩ := d7
    obtain ⟨g26, g27, g28, g29, g30, g31⟩ := Fat16Formatter.entry83_tail name83s 0x20 0 0 h11s
    refine ⟨?_, ?_, ?_⟩
    · rw [haddF]
      exact d4
    · rw [haddF]
      unfold get16
      rw [show (26 : Nat) + 1 = 27 from rfl]
      rw [getD_readBytes _ _ _ _ (by omega), getD_readBytes _ _ _ _ (by omega)]
      rw [show Fat16Formatter.dataAddr st parentCluster +
        (r + (slotsNeeded filename - 1) * 32) + 26 =
        Fat16Formatter.dataAddr st parentCluster +
        (r + (slotsNeeded filename - 1) * 32 + 26) from by omega]
      rw [show Fat16Formatter.dataAddr st parentCluster +
        (r + (slotsNeeded filename - 1) * 32) + 27 =
        Fat16Formatter.dataAddr st parentCluster +
        (r + (slotsNeeded filename - 1) * 32 + 27) from by omega]
      rw [hd7 26 (by omega), hd7 27 (by omega)]
      rw [g26, g27]
    · rw [haddF]
      unfold get32
      rw [show (28 : Nat) + 1 = 29 from rfl, show (28 : Nat) + 2 = 30 from rfl,
        show (28 : Nat) + 3 = 31 from rfl]
      rw [getD_readBytes _ _ _ _ (by omega), getD_readBytes _ _ _ _ (by omega),
        getD_readBytes _ _ _ _ (by omega), getD_readBytes _ _ _ _ (by omega)]
      rw [show Fat16Formatter.dataAddr st parentCluster +
        (r + (slotsNeeded filename - 1) * 32) + 28 =
        Fat16Formatter.dataAddr st parentCluster +
        (r + (slotsNeeded filename - 1) * 32 + 28) from by omega]
      rw [show Fat16Formatter.dataAddr st parentCluster +
        (r + (slotsNeeded filename - 1) * 32) + 29 =
        Fat16Formatter.dataAddr st parentCluster +
        (r + (slotsNeeded filename - 1) * 32 + 29) from by omega]
      rw [show Fat16Formatter.dataAddr st parentCluster +
        (r + (slotsNeeded filename - 1) * 32) + 30 =
        Fat16Formatter.dataAddr st parentCluster +
        (r + (slotsNeeded filename - 1) * 32 + 30) from by omega]
      rw [show Fat16Formatter.dataAddr st parentCluster +
        (r + (slotsNeeded filename - 1) * 32) + 31 =
        Fat16Formatter.dataAddr st parentCluster +
        (r + (slotsNeeded filename - 1) * 32 + 31) from by omega]
      rw [hd7 28 (by omega), hd7 29 (by omega), hd7 30 (by omega), hd7 31 (by omega)]
      rw [g28, g29, g30, g31]

end C10EmptyFiles

set_option maxRecDepth 100000 in
/-- Concrete instance of the amended C10 at an empty FAT16 volume and a full
exFAT volume. -/
theorem add_file_empty_data_entries_witness :
    Fat16Formatter.add_file fat16WitnessState 2 [0x41] [] true =
      Fat16Formatter.addRootDirEntry fat16WitnessState [0x41] 0 0 false ∧
    (Fat16Formatter.add_file fat16WitnessState 2 [0x41] [] true).next_cluster =
      fat16WitnessState.next_cluster ∧
    get16 (readBytes
        (Fat16Formatter.add_file fat16WitnessState 2 [0x41] [] true).image
        (Fat16Formatter.rootSlotAddr fat16WitnessState
          (fat16WitnessState.next_root_entry + (slotsNeeded [0x41] - 1))) 32) 26 =
      0 ∧
    get32 (readBytes
        (Fat16Formatter.add_file fat16WitnessState 2 [0x41] [] true).image
        (Fat16Formatter.rootSlotAddr fat16WitnessState
          (fat16WitnessState.next_root_entry + (slotsNeeded [0x41] - 1))) 32) 28 =
      0 ∧
    Fat16Formatter.add_file fat16WitnessState 2 [0x41] [] false =
      Fat16Formatter.addSubdirEntry fat16WitnessState 2 [0x41] 0 0 false ∧
    (Fat16Formatter.subdirScanGo
        (Fat16Formatter.subdirDirData fat16WitnessState 2) (slotsNeeded [0x41])
        0 none 0 (Fat16Formatter.cluster_size fat16WitnessState / 32) = some 0 →
      (Fat16Formatter.add_file fat16WitnessState 2 [0x41] [] false).next_cluster =
        fat16WitnessState.next_cluster ∧
      get16 (readBytes
          (Fat16Formatter.add_file fat16WitnessState 2 [0x41] [] false).image
          (Fat16Formatter.dataAddr fat16WitnessState 2 +
            (0 + (slotsNeeded [0x41] - 1) * 32)) 32) 26 = 0 ∧
      get32 (readBytes
          (Fat16Formatter.add_file fat16WitnessState 2 [0x41] [] false).image
          (Fat16Formatter.dataAddr fat16WitnessState 2 +
            (0 + (slotsNeeded [0x41] - 1) * 32)) 32) 28 = 0) ∧
    ExFatFormatter.add_file exfatFullState none [0x41] [] =
      ExFatFormatter.addEntryToDir exfatFullState
        ((none : Option Nat).getD exfatFullState.root_cluster)
        (buildEntrySet [0x41] ATTR_ARCHIVE 0 0 true 0 0 0xFFF) ∧
    (buildEntrySet [0x41] ATTR_ARCHIVE 0 0 true 0 0 0xFFF).getD 33 0 = 0x03 ∧
    get32 (buildEntrySet [0x41] ATTR_ARCHIVE 0 0 true 0 0 0xFFF) 52 = 0 ∧
    get64 (buildEntrySet [0x41] ATTR_ARCHIVE 0 0 true 0 0 0xFFF) 56 = 0 :=
  add_file_empty_data_entries fat16WitnessState exfatFullState 2 none [0x41]
    [0x41] 0 (fun key => by show (0 : Nat) < 9999999; decide)
